import Mathlib

/-!
# PlaceMate front-end script (`new.js`): history store, prediction and analytics

A shallow embedding of `src/new.js`.

Conventions of the embedding.

* JavaScript numbers are IEEE doubles.  They are modelled inside an ordered
  field `K` with a floor function (`ℚ` gives executable definitions, `ℝ` lets
  `Math.exp` be the rounded real exponential): a runtime number is `NaN` or a
  finite value of `K`, and the result of every addition, multiplication and
  division, and every decimal literal of the source, is rounded to the nearest
  double (`roundDouble`: 53 significant bits, ties to even, gradual underflow).
  Overflow to an infinity and the negative zero are not represented.
* `localStorage` maps a key to a string.  A stored string is identified with
  what `JSON.parse` does on it: it is rejected (`Stored.unparsable`) or it
  yields a JSON value (`Stored.json`).  `JSON.stringify` followed by
  `JSON.parse` maps `NaN` to `null` and is the identity on everything else that
  occurs here.
* Statements of the script run in a `World`; a JavaScript exception leaves the
  world as it was at the throwing statement, so every operation returns the
  world together with either a value or the error raised.
* The page, the `Chart` constructor, `Math.exp` and the reply of the remote
  endpoint are outside the script: they are parameters (`World.dom`, `Env`,
  `FetchOutcome`).
-/

namespace PlaceMate

/-! ## Values -/

/-- A runtime number: `NaN` or a finite value. -/
inductive JSNum (K : Type) where
  | nan : JSNum K
  | num (x : K) : JSNum K
  deriving DecidableEq

/-- A field of an object produced by `JSON.parse`: `null` or a finite number. -/
inductive JField (K : Type) where
  | null : JField K
  | num (x : K) : JField K
  deriving DecidableEq

/-- The exceptions the script can meet. -/
inductive JSError where
  | syntaxError
  | typeError
  | referenceError
  | networkError
  | apiError
  deriving DecidableEq

/-- The object literal `{ cgpa, iq, intern, projects, probability, cls }` handed
to `pushToHistory` (lines 133 and 149). -/
structure Item (K : Type) where
  cgpa : JSNum K
  iq : JSNum K
  intern : JSNum K
  projects : JSNum K
  probability : JSNum K
  cls : JSNum K
  deriving DecidableEq

/-- A history record as it comes back from `JSON.parse`. -/
structure HistoryRecord (K : Type) where
  cgpa : JField K
  iq : JField K
  intern : JField K
  projects : JField K
  probability : JField K
  cls : JField K
  deriving DecidableEq

/-- A JSON value as read from the storage key.  Arrays hold record objects;
`obj` stands for any object that is not an array, with the one thing the script
reads from it: whether it has a property `length` equal to 0. -/
inductive Json (K : Type) where
  | null : Json K
  | bool (b : Bool) : Json K
  | num (x : K) : Json K
  | str (s : String) : Json K
  | obj (zeroLength : Bool) : Json K
  | arr (items : List (HistoryRecord K)) : Json K
  deriving DecidableEq

/-- The string held under a storage key, identified with the outcome of
`JSON.parse` on it. -/
inductive Stored (K : Type) where
  | unparsable (text : String) : Stored K
  | json (v : Json K) : Stored K
  deriving DecidableEq

section Model

variable {K : Type} [LinearOrderedField K] [FloorRing K]

/-! ## JSON images and the storage key -/

/-- The image of a number under `JSON.parse(JSON.stringify(x))`: `NaN` is written
as `null`. -/
def JSNum.toJson : JSNum K → JField K
  | .nan => .null
  | .num x => .num x

/-- The image of a record object under `JSON.parse(JSON.stringify(item))`. -/
def Item.toJson (r : Item K) : HistoryRecord K :=
  { cgpa := r.cgpa.toJson, iq := r.iq.toJson, intern := r.intern.toJson,
    projects := r.projects.toJson, probability := r.probability.toJson,
    cls := r.cls.toJson }

/-- Truthiness of a JSON value, as used by `||`. -/
def Json.truthy : Json K → Bool
  | .null => false
  | .bool b => b
  | .num x => decide (x ≠ 0)
  | .str s => decide (s ≠ "")
  | .obj _ => true
  | .arr _ => true

/-- The call `JSON.parse(localStorage.getItem(STORAGE_KEY))`: a missing key
gives `null`, which `JSON.parse` reads as the text "null"; a string that is not
JSON raises a `SyntaxError`. -/
def parseStored : Option (Stored K) → Except JSError (Json K)
  | none => .ok .null
  | some (.unparsable _) => .error .syntaxError
  | some (.json v) => .ok v

/-- The expression `JSON.parse(localStorage.getItem(STORAGE_KEY)) || []` of
lines 159 and 165. -/
def parseOrEmpty (st : Option (Stored K)) : Except JSError (Json K) :=
  match parseStored st with
  | .error e => .error e
  | .ok v => .ok (if v.truthy then v else .arr [])

/-! ## Doubles -/

/-- The exponent of the binade of `x`, `⌊log₂ |x|⌋`, and not less than -1022, the
exponent of the smallest normal doubles. -/
def binade (x : K) : ℤ := max (Int.log 2 |x|) (-1022)

/-- The unit in the last place of the doubles around `x`: 52 binary places below
the binade. -/
def ulp (x : K) : K := (2 : K) ^ (binade x - 52)

/-- The integer nearest to `q`; in a tie, the even one. -/
def roundHalfEven (q : K) : ℤ :=
  if 2 * (q - ⌊q⌋) < 1 then ⌊q⌋
  else if 1 < 2 * (q - ⌊q⌋) then ⌊q⌋ + 1
  else if ⌊q⌋ % 2 = 0 then ⌊q⌋ else ⌊q⌋ + 1

/-- The double nearest to `x` (ties to even): how the result of an arithmetic
operation, and a decimal literal, is stored.  Overflow is not represented. -/
def roundDouble (x : K) : K := (roundHalfEven (x / ulp x) : K) * ulp x

/-! ## Numbers -/

/-- A decimal literal of the source, such as `0.9`: the nearest double. -/
def JSNum.lit (x : K) : JSNum K := .num (roundDouble x)

/-- The global `isNaN` on a number. -/
def JSNum.isNaN : JSNum K → Bool
  | .nan => true
  | .num _ => false

/-- Addition of numbers, rounded; `NaN` is absorbing. -/
def JSNum.add : JSNum K → JSNum K → JSNum K
  | .num a, .num b => .num (roundDouble (a + b))
  | _, _ => .nan

/-- Multiplication of numbers, rounded; `NaN` is absorbing. -/
def JSNum.mul : JSNum K → JSNum K → JSNum K
  | .num a, .num b => .num (roundDouble (a * b))
  | _, _ => .nan

/-- Unary minus, which is exact. -/
def JSNum.neg : JSNum K → JSNum K
  | .num a => .num (-a)
  | .nan => .nan

/-- Division of numbers, rounded.  A zero divisor gives a value that is not
finite; the model has one such value, `NaN`. -/
def JSNum.div : JSNum K → JSNum K → JSNum K
  | .num a, .num b => if b = 0 then .nan else .num (roundDouble (a / b))
  | _, _ => .nan

/-- The comparison `a >= b`; it is false when an operand is `NaN`. -/
def JSNum.ge : JSNum K → JSNum K → Bool
  | .num a, .num b => decide (b ≤ a)
  | _, _ => false

/-- The function `Math.round` on a finite value: the nearest integer, a tie going
up.  It is exact on the double it is given. -/
def mathRound (x : K) : ℤ := ⌊x + 1 / 2⌋

/-- The function `Math.round` on a number; `none` is `NaN`. -/
def JSNum.round : JSNum K → Option ℤ
  | .nan => none
  | .num x => some (mathRound x)

/-- An integer-valued number (or `NaN`) as a runtime number. -/
def ofInt? : Option ℤ → JSNum K
  | none => .nan
  | some n => .num (n : K)

/-- The text of an integer-valued number, as a template literal or `+ "%"` writes
it: its decimal digits below 1e21 in size, and from there the exponent form,
which is taken from the host (`hostText`). -/
def intText (hostText : K → String) : Option ℤ → String
  | none => "NaN"
  | some n => if |n| < 10 ^ 21 then toString n else hostText (n : K)

/-- The conversion `ToNumber` on a parsed field, as applied by `s + x.field` with
a numeric `s`: `null` counts as 0. -/
def JField.toNumber : JField K → K
  | .null => 0
  | .num x => x

/-- Left padding with zeros up to a width. -/
def padZeros (width : Nat) (s : String) : String :=
  String.mk (List.replicate (width - s.length) '0') ++ s

/-- The method `Number.prototype.toFixed(digits)` on a finite value.  Below 1e21
in size: the integer nearest to `|x| * 10 ^ digits` (a tie going up), written
with `digits` decimals, after a minus sign when `x < 0`; it is exact on the
double it is given.  From 1e21: the text of the number, taken from the host
(`hostText`). -/
def toFixed (hostText : K → String) (digits : Nat) (x : K) : String :=
  if 10 ^ 21 ≤ |x| then hostText x
  else
    let n : ℕ := ⌊|x| * 10 ^ digits + 1 / 2⌋₊
    let body :=
      if digits = 0 then toString n
      else toString (n / 10 ^ digits) ++ "." ++ padZeros digits (toString (n % 10 ^ digits))
    (if x < 0 then "-" else "") ++ body

/-! ## The page -/

/-- A DOM element, with the properties the script writes. -/
structure Element where
  innerText : String
  innerHTML : String
  display : String
  deriving DecidableEq

/-- A chart label: a number (`i + 1`) or a text (`"S" + (i + 1)`). -/
inductive Label where
  | index (n : ℕ) : Label
  | text (s : String) : Label
  deriving DecidableEq

/-- A `Chart` instance: its type, `data.labels`, the `data` array of each entry
of `data.datasets`, and whether `destroy()` was called on it. -/
structure Chart (K : Type) where
  kind : String
  labels : List Label
  datasets : List (List (JField K))
  destroyed : Bool
  deriving DecidableEq

/-- The body posted to `/predict`. -/
structure Payload (K : Type) where
  cgpa : JSNum K
  iq : JSNum K
  intern : JSNum K
  projects : JSNum K
  deriving DecidableEq

/-- The state the script works on.  `homeChartObj` is the variable declared by
`let homeChartObj = null` inside the script's function scope (line 56);
`windowHomeChartObj` is the property `window.homeChartObj` of the global
object, which is a different binding: the script never assigns it. -/
structure World (K : Type) where
  storage : Option (Stored K)
  dom : String → Option Element
  homeChartObj : Option (Chart K)
  windowHomeChartObj : Option (Chart K)
  cgpaChartObj : Option (Chart K)
  pieChartObj : Option (Chart K)
  internChartObj : Option (Chart K)
  projChartObj : Option (Chart K)
  alerts : List String
  requests : List (Payload K)
  warnings : ℕ

/-- What the script takes from its host: `Math.exp`; whether
`new Chart(document.getElementById(id), …)` throws for a canvas id; and the text
of a number of size 1e21 or more (its exponent form). -/
structure Env (K : Type) where
  mathExp : K → K
  chartError : String → Option JSError
  numberToString : K → String

/-- The world after a statement, with the value it produced or the exception it
raised. -/
structure Result (K : Type) (α : Type) where
  world : World K
  value : Except JSError α

/-- Sequencing: an exception skips the rest. -/
def Result.andThen {α β : Type} (r : Result K α) (f : α → World K → Result K β) :
    Result K β :=
  match r.value with
  | .error e => ⟨r.world, .error e⟩
  | .ok a => f a r.world

/-- Replace the element with a given id. -/
def World.setElement (w : World K) (id : String) (el : Element) : World K :=
  { w with dom := fun j => if j = id then some el else w.dom j }

/-- The statement `document.getElementById(id).innerText = text`; a missing
element makes it a `TypeError`. -/
def setInnerText (id text : String) (w : World K) : Result K Unit :=
  match w.dom id with
  | none => ⟨w, .error .typeError⟩
  | some el => ⟨w.setElement id { el with innerText := text }, .ok ()⟩

/-- The statement `document.getElementById(id).innerHTML = html`. -/
def setInnerHTML (id html : String) (w : World K) : Result K Unit :=
  match w.dom id with
  | none => ⟨w, .error .typeError⟩
  | some el => ⟨w.setElement id { el with innerHTML := html }, .ok ()⟩

/-- The statement `document.getElementById(id).style.display = value`. -/
def setDisplay (id value : String) (w : World K) : Result K Unit :=
  match w.dom id with
  | none => ⟨w, .error .typeError⟩
  | some el => ⟨w.setElement id { el with display := value }, .ok ()⟩

/-- The `innerText` of an element, when the element exists. -/
def World.innerTextOf (w : World K) (id : String) : Option String :=
  (w.dom id).map Element.innerText

/-! ## History (lines 158-166) -/

/-- The function `pushToHistory(item)` (lines 158-162): parse the stored value (or
take `[]`), push, write back.  Only arrays have `push`; on any other truthy value
the call `arr.push(item)` is a `TypeError`. -/
def pushToHistory (item : Item K) (w : World K) : Result K Unit :=
  match parseOrEmpty w.storage with
  | .error e => ⟨w, .error e⟩
  | .ok (.arr xs) =>
    ⟨{ w with storage := some (.json (.arr (xs ++ [item.toJson]))) }, .ok ()⟩
  | .ok _ => ⟨w, .error .typeError⟩

/-- The function `getHistory()` (lines 164-166). -/
def getHistory (w : World K) : Except JSError (Json K) :=
  parseOrEmpty w.storage

/-- The test `history.length === 0`: arrays and strings have a `length`, an
object may have a property of that name, numbers and booleans have none. -/
def Json.lengthIsZero : Json K → Bool
  | .arr xs => decide (xs.length = 0)
  | .str s => decide (s.length = 0)
  | .obj zeroLength => zeroLength
  | _ => false

/-! ## Home chart (lines 56-65 and 169-186) -/

/-- The expression `new Chart(document.getElementById(id), config)`: the host
decides whether the constructor throws; otherwise the instance carries the
configured type, labels and dataset values. -/
def newChart (env : Env K) (id kind : String) (labels : List Label)
    (datasets : List (List (JField K))) : Except JSError (Chart K) :=
  match env.chartError id with
  | some e => .error e
  | none => .ok { kind := kind, labels := labels, datasets := datasets, destroyed := false }

/-- The function `initHomeChart()` (lines 57-65): without the canvas it returns
at once; otherwise it assigns a line chart with no labels and one empty dataset
to `homeChartObj`, the variable of the script's own scope. -/
def initHomeChart (env : Env K) (w : World K) : Result K Unit :=
  match w.dom "homeChart" with
  | none => ⟨w, .ok ()⟩
  | some _ =>
    match newChart env "homeChart" "line" [] [[]] with
    | .error e => ⟨w, .error e⟩
    | .ok c => ⟨{ w with homeChartObj := some c }, .ok ()⟩

/-- The assignment `chart.data.datasets[0].data = data`; without a first
dataset it is a `TypeError`. -/
def setFirstDataset (data : List (JField K)) : List (List (JField K)) →
    Except JSError (List (List (JField K)))
  | [] => .error .typeError
  | _ :: rest => .ok (data :: rest)

/-- The function `updateHomeKPIsFromHistory()` (lines 169-186).  The call of
`getHistory()` is outside the `try`.  The chart that is updated is the one read
from `window.homeChartObj`; what is raised inside the `try` block is swallowed,
the assignments made before it stay. -/
def updateHomeKPIsFromHistory (w : World K) : Result K Unit :=
  match getHistory w with
  | .error e => ⟨w, .error e⟩
  | .ok history =>
    if history.lengthIsZero then ⟨w, .ok ()⟩
    else
      match w.windowHomeChartObj with
      | none => ⟨w, .ok ()⟩
      | some homeChart =>
        match history with
        | .arr xs =>
          let labels := (List.range xs.length).map fun i => Label.index (i + 1)
          let data := xs.map fun h => h.probability
          let withLabels := { homeChart with labels := labels }
          match setFirstDataset data homeChart.datasets with
          | .error _ => ⟨{ w with windowHomeChartObj := some withLabels }, .ok ()⟩
          | .ok ds =>
            ⟨{ w with windowHomeChartObj := some { withLabels with datasets := ds } }, .ok ()⟩
        | _ => ⟨w, .ok ()⟩

/-! ## Analytics over the history (lines 191-279) -/

/-- The function `destroyChart(obj)` (lines 7-9): guarded by its own `try`, it
never raises. -/
def destroyChart (obj : Option (Chart K)) : Option (Chart K) :=
  obj.map fun c => { c with destroyed := true }

/-- The function `destroyAllHistoryCharts()` (lines 193-198). -/
def destroyAllHistoryCharts (w : World K) : World K :=
  { w with
    cgpaChartObj := destroyChart w.cgpaChartObj
    pieChartObj := destroyChart w.pieChartObj
    internChartObj := destroyChart w.internChartObj
    projChartObj := destroyChart w.projChartObj }

/-- The fold `history.reduce((s, x) => s + x.field, 0)`: the additions are made
in the order of the array, each one rounded. -/
def reduceSum (field : HistoryRecord K → JField K) (history : List (HistoryRecord K)) : K :=
  history.foldl (fun s x => roundDouble (s + (field x).toNumber)) 0

/-- The count `history.filter(x => x.field === 1).length`. -/
def countOnes (field : HistoryRecord K → JField K) (history : List (HistoryRecord K)) : ℕ :=
  (history.filter fun x => decide (field x = .num 1)).length

/-- The five statistics of lines 214-218. -/
structure Analytics where
  avgCgpa : String
  avgIq : ℤ
  internPct : ℤ
  placementPct : ℤ
  avgProjects : String
  deriving DecidableEq

/-- Lines 213-218 on a non-empty history array: every division and
multiplication is rounded. -/
def computeAnalytics (env : Env K) (history : List (HistoryRecord K)) : Analytics :=
  let total : K := (history.length : K)
  { avgCgpa :=
      toFixed env.numberToString 2 (roundDouble (reduceSum (fun x => x.cgpa) history / total))
    avgIq := mathRound (roundDouble (reduceSum (fun x => x.iq) history / total))
    internPct := mathRound (roundDouble
      (roundDouble ((countOnes (fun x => x.intern) history : K) / total) * 100))
    placementPct := mathRound (roundDouble
      (roundDouble ((countOnes (fun x => x.cls) history : K) / total) * 100))
    avgProjects :=
      toFixed env.numberToString 1
        (roundDouble (reduceSum (fun x => x.projects) history / total)) }

/-- The labels `"S" + (i + 1)` of lines 226 and 230. -/
def sampleLabels (n : ℕ) : List Label :=
  (List.range n).map fun i => Label.text ("S" ++ toString (i + 1))

/-- Lines 225-278: the four charts, built in order; the first constructor that
throws ends the function. -/
def buildHistoryCharts (env : Env K) (history : List (HistoryRecord K)) (w : World K) :
    Result K Unit :=
  let total := history.length
  let cgpaLabels := sampleLabels total
  let cgpaData := history.map fun h => h.cgpa
  let probData := history.map fun h => h.probability
  let internData := history.map fun h => h.intern
  let projectLabels := sampleLabels total
  let projectData := history.map fun h => h.projects
  match newChart env "chart1" "bar" cgpaLabels [cgpaData, probData] with
  | .error e => ⟨w, .error e⟩
  | .ok c1 =>
    let w1 := { w with cgpaChartObj := some c1 }
    let placedCount := countOnes (fun h => h.cls) history
    let notPlacedCount := total - placedCount
    match newChart env "chart2" "pie" [Label.text "Placed", Label.text "Not Placed"]
        [[JField.num (placedCount : K), JField.num (notPlacedCount : K)]] with
    | .error e => ⟨w1, .error e⟩
    | .ok c2 =>
      let w2 := { w1 with pieChartObj := some c2 }
      match newChart env "chart3" "line" cgpaLabels [internData, probData] with
      | .error e => ⟨w2, .error e⟩
      | .ok c3 =>
        let w3 := { w2 with internChartObj := some c3 }
        match newChart env "chart4" "bar" projectLabels [projectData] with
        | .error e => ⟨w3, .error e⟩
        | .ok c4 => ⟨{ w3 with projChartObj := some c4 }, .ok ()⟩

/-- The function `loadPredictionAnalytics()` (lines 200-279).  The history is
truthy after `|| []`, so the guard of line 204 is the length test; a history
that is not an array has no `reduce`. -/
def loadPredictionAnalytics (env : Env K) (w : World K) : Result K Unit :=
  match getHistory w with
  | .error e => ⟨w, .error e⟩
  | .ok history =>
    let w0 := destroyAllHistoryCharts w
    if history.lengthIsZero then
      (setInnerText "avgCgpa" "0.0" w0).andThen fun _ w1 =>
      (setInnerText "internPercent" "0%" w1).andThen fun _ w2 =>
      (setInnerText "avgProjects" "0.0" w2).andThen fun _ w3 =>
      setInnerText "placementRate" "0%" w3
    else
      match history with
      | .arr xs =>
        let a := computeAnalytics env xs
        (setInnerText "avgCgpa" a.avgCgpa w0).andThen fun _ w1 =>
        (setInnerText "internPercent"
          (intText env.numberToString (some a.internPct) ++ "%") w1).andThen fun _ w2 =>
        (setInnerText "avgProjects" a.avgProjects w2).andThen fun _ w3 =>
        (setInnerText "placementRate"
          (intText env.numberToString (some a.placementPct) ++ "%") w3).andThen fun _ w4 =>
        buildHistoryCharts env xs w4
      | _ => ⟨w0, .error .typeError⟩

/-- The click handler of `clearHistoryBtn` (lines 33-39). -/
def clearHistory (env : Env K) (confirmed : Bool) (w : World K) : Result K Unit :=
  if !confirmed then ⟨w, .ok ()⟩
  else
    let w1 := { w with storage := none }
    (loadPredictionAnalytics env w1).andThen fun _ w2 =>
    (updateHomeKPIsFromHistory w2).andThen fun _ w3 =>
    ⟨{ w3 with alerts := w3.alerts ++ ["History cleared."] }, .ok ()⟩

/-! ## Prediction (lines 96-153) -/

/-- The body of a reply of `/predict`, as `res.json()` and the two property
reads see it: not JSON; the JSON value `null`, on which reading a property is a
`TypeError`; or any other JSON value, with `probability` the number written in
the field `probability` of the reply (`none` when the field is missing or
`null`) and `prediction` what `parseInt(json.prediction)` yields: an integer,
which for an integer-valued number below 1e21 in size is that number, or `none`
for `NaN`.  A `probability` that is not a number is not represented. -/
inductive RespBody (K : Type) where
  | unparsable : RespBody K
  | null : RespBody K
  | object (probability : Option K) (prediction : Option ℤ) : RespBody K
  deriving DecidableEq

/-- What `await fetch(API + "/predict", …)` gives: a rejection, or a response
with its `ok` flag and body. -/
inductive FetchOutcome (K : Type) where
  | networkError : FetchOutcome K
  | response (ok : Bool) (body : RespBody K) : FetchOutcome K
  deriving DecidableEq

/-- How `predictPlacement` ended, when it did not raise. -/
inductive Exit where
  | validationAbort
  | backend
  | demo
  deriving DecidableEq

/-- The text `cls === 1 ? "Placed" : "Not Placed"`. -/
def placedText (cls : Option ℤ) : String :=
  if cls = some 1 then "Placed" else "Not Placed"

/-- Line 140: the score `z` of the demo logistic model, with the operations in
source order. -/
def demoZ (cgpa iq intern projects : JSNum K) : JSNum K :=
  ((((JSNum.num (-2)).add ((JSNum.lit 0.9).mul cgpa)).add ((JSNum.lit 0.02).mul iq)).add
    ((JSNum.lit 1.3).mul intern)).add ((JSNum.lit 0.18).mul projects)

/-- The function `Math.exp` on a number. -/
def JSNum.exp (env : Env K) : JSNum K → JSNum K
  | .nan => .nan
  | .num x => .num (env.mathExp x)

/-- Line 141: `prob = 1 / (1 + Math.exp(-z))`. -/
def demoProb (env : Env K) (z : JSNum K) : JSNum K :=
  (JSNum.num 1).div ((JSNum.num 1).add (JSNum.exp env z.neg))

/-- Line 142: `probabilityPct = Math.round(prob * 100)`. -/
def demoProbabilityPct (env : Env K) (z : JSNum K) : Option ℤ :=
  ((demoProb env z).mul (.num 100)).round

/-- Line 143: `cls = prob >= 0.5 ? 1 : 0`. -/
def demoCls (env : Env K) (z : JSNum K) : ℤ :=
  if (demoProb env z).ge (.num 0.5) then 1 else 0

/-- The record of line 149. -/
def demoItem (env : Env K) (cgpa iq intern projects : JSNum K) : Item K :=
  let z := demoZ cgpa iq intern projects
  { cgpa := cgpa, iq := iq, intern := intern, projects := projects
    probability := ofInt? (demoProbabilityPct env z)
    cls := .num ((demoCls env z : ℤ) : K) }

/-- The value of `json.probability ?? 0`: the number written in the reply, read
as the nearest double, or 0. -/
def replyProbability (probability : Option K) : K :=
  (probability.map roundDouble).getD 0

/-- Line 125: `probabilityPct = Math.round((json.probability ?? 0) * 100)`. -/
def backendProbabilityPct (probability : Option K) : ℤ :=
  mathRound (roundDouble (replyProbability probability * 100))

/-- The record of line 133, from a reply with the given fields. -/
def backendItem (cgpa iq intern projects : JSNum K) (probability : Option K)
    (prediction : Option ℤ) : Item K :=
  { cgpa := cgpa, iq := iq, intern := intern, projects := projects
    probability := ofInt? (some (backendProbabilityPct probability))
    cls := ofInt? prediction }

/-- The `try` block (lines 117-135). -/
def backendPath (env : Env K) (cgpa iq intern projects : JSNum K) (remote : FetchOutcome K)
    (w : World K) : Result K Unit :=
  let w1 := { w with requests := w.requests ++ [⟨cgpa, iq, intern, projects⟩] }
  match remote with
  | .networkError => ⟨w1, .error .networkError⟩
  | .response false _ => ⟨w1, .error .apiError⟩
  | .response true .unparsable => ⟨w1, .error .syntaxError⟩
  | .response true .null => ⟨w1, .error .typeError⟩
  | .response true (.object probability prediction) =>
    let probabilityPct : ℤ := backendProbabilityPct probability
    let cls := prediction
    (setInnerHTML "result-text"
      ("<strong>Prediction:</strong> " ++ placedText cls ++
        "<br><strong>Probability:</strong> " ++
        intText env.numberToString (some probabilityPct) ++ "%") w1).andThen
    fun _ w2 =>
    (setDisplay "result-card" "block" w2).andThen fun _ w3 =>
    (setInnerText "status" "Prediction complete (backend)." w3).andThen fun _ w4 =>
    (pushToHistory (backendItem cgpa iq intern projects probability prediction) w4).andThen
    fun _ w5 =>
    (loadPredictionAnalytics env w5).andThen fun _ w6 =>
    updateHomeKPIsFromHistory w6

/-- The `catch` block (lines 138-151). -/
def demoPath (env : Env K) (cgpa iq intern projects : JSNum K) (w : World K) :
    Result K Unit :=
  let w1 := { w with warnings := w.warnings + 1 }
  let z := demoZ cgpa iq intern projects
  let probabilityPct := demoProbabilityPct env z
  let cls := demoCls env z
  (setInnerHTML "result-text"
    ("<strong>Prediction (Demo):</strong> " ++ placedText (some cls) ++
      "<br><strong>Probability:</strong> " ++
      intText env.numberToString probabilityPct ++ "%") w1).andThen
  fun _ w2 =>
  (setDisplay "result-card" "block" w2).andThen fun _ w3 =>
  (setInnerText "status" "Prediction complete (demo)." w3).andThen fun _ w4 =>
  (pushToHistory (demoItem env cgpa iq intern projects) w4).andThen fun _ w5 =>
  (loadPredictionAnalytics env w5).andThen fun _ w6 =>
  updateHomeKPIsFromHistory w6

/-- The function `predictPlacement()` (lines 96-153), from the four parsed inputs
(the results of `parseFloat` and `parseInt` on the form fields) and the outcome
of the remote call.  Whatever the `try` block raises, at any of its statements,
is caught and the `catch` block runs from the world reached so far. -/
def predictPlacement (env : Env K) (cgpa iq intern projects : JSNum K)
    (remote : FetchOutcome K) (w : World K) : Result K Exit :=
  if cgpa.isNaN || iq.isNaN || projects.isNaN then
    ⟨{ w with alerts := w.alerts ++ ["Please enter CGPA, IQ and Projects correctly."] },
      .ok .validationAbort⟩
  else
    (setInnerText "status" "Predicting..." w).andThen fun _ w1 =>
    (setDisplay "result-card" "none" w1).andThen fun _ w2 =>
    let tried := backendPath env cgpa iq intern projects remote w2
    match tried.value with
    | .ok _ => ⟨tried.world, .ok .backend⟩
    | .error _ =>
      (demoPath env cgpa iq intern projects tried.world).andThen fun _ w3 =>
      ⟨w3, .ok .demo⟩

end Model

/-! ## Vocabulary of the statements -/

section Vocabulary

variable {K : Type} [LinearOrderedField K] [FloorRing K]

/-- The storage key holds the history `h`: a stored array, or no entry when `h`
is empty. -/
def HoldsHistory (st : Option (Stored K)) (h : List (HistoryRecord K)) : Prop :=
  st = some (.json (.arr h)) ∨ (st = none ∧ h = [])

/-- The page provides an element for each of the given ids. -/
def World.HasElements (w : World K) (ids : List String) : Prop :=
  ∀ id ∈ ids, (w.dom id).isSome = true

/-- The storage key after `pushToHistory(item)`, as a function of what it held. -/
def storeAfterPush (item : Item K) (st : Option (Stored K)) : Option (Stored K) :=
  match parseOrEmpty st with
  | .ok (.arr xs) => some (.json (.arr (xs ++ [item.toJson])))
  | _ => st

/-- A statement that leaves the storage key and the set of page elements as
they are. -/
def Framed {α : Type} (f : World K → Result K α) : Prop :=
  ∀ w, (f w).world.storage = w.storage ∧ ∀ j, ((f w).world.dom j).isSome = (w.dom j).isSome

/-- A record object whose six fields are finite numbers. -/
structure FiniteRecord (K : Type) where
  cgpa : K
  iq : K
  intern : K
  projects : K
  probability : K
  cls : K

/-- The object handed to `pushToHistory`. -/
def FiniteRecord.item (r : FiniteRecord K) : Item K :=
  { cgpa := .num r.cgpa, iq := .num r.iq, intern := .num r.intern, projects := .num r.projects,
    probability := .num r.probability, cls := .num r.cls }

/-- The same record as an element of the parsed history. -/
def FiniteRecord.stored (r : FiniteRecord K) : HistoryRecord K :=
  { cgpa := .num r.cgpa, iq := .num r.iq, intern := .num r.intern, projects := .num r.projects,
    probability := .num r.probability, cls := .num r.cls }

/-- The calls `pushToHistory(r1); …; pushToHistory(rN)` in sequence. -/
def pushAll (items : List (Item K)) (w : World K) : World K :=
  items.foldl (fun acc r => (pushToHistory r acc).world) w

/-- A host text for the numbers from 1e21 on: their exponent form is not
computed here. -/
def noExponentForm : K → String := fun _ => "(exponent form)"

/-- A page on which every id resolves to an element with empty properties. -/
def blankPage : String → Option Element := fun _ => some ⟨"", "", ""⟩

/-- A world with the given storage and page, as when the script starts on a page
of its own: no chart yet, `window.homeChartObj` undefined, nothing logged. -/
def World.initial (storage : Option (Stored K)) (dom : String → Option Element) : World K :=
  { storage := storage, dom := dom, homeChartObj := none, windowHomeChartObj := none,
    cgpaChartObj := none, pieChartObj := none, internChartObj := none, projChartObj := none,
    alerts := [], requests := [], warnings := 0 }

/-- The remote call did not deliver a usable reply: the request was rejected,
the status was not 2xx, the body was not JSON, or the body was `null`. -/
def FetchOutcome.Fails : FetchOutcome K → Prop
  | .networkError => True
  | .response false _ => True
  | .response true .unparsable => True
  | .response true .null => True
  | .response true (.object _ _) => False

/-- A finite double: an integer of less than 53 bits times a power of two, the
exponent not below -1074.  (No upper limit is put on the exponent.) -/
def IsDouble (c : K) : Prop :=
  ∃ m e : ℤ, |m| < 2 ^ 53 ∧ -1074 ≤ e ∧ c = (m : K) * (2 : K) ^ e

/-- The score `z` of the fallback model in double arithmetic: each literal, each
product and each sum, taken from left to right, is rounded. -/
def doubleZ (cgpa iq intern projects : K) : K :=
  roundDouble (roundDouble (roundDouble (roundDouble
    (-2 + roundDouble (roundDouble 0.9 * cgpa)) + roundDouble (roundDouble 0.02 * iq)) +
      roundDouble (roundDouble 1.3 * intern)) + roundDouble (roundDouble 0.18 * projects))

/-- The probability `1 / (1 + exp(-z))` in double arithmetic, over a given
exponential. -/
def doubleProb (exp : K → K) (z : K) : K := roundDouble (1 / roundDouble (1 + exp (-z)))

/-- The sum of a list in double arithmetic, from left to right, starting from 0. -/
def doubleSum (values : List K) : K :=
  values.foldl (fun s v => roundDouble (s + v)) 0

/-- The mean of a list in double arithmetic: the double sum, divided by the
number of values, rounded. -/
def doubleMean (values : List K) : K :=
  roundDouble (doubleSum values / (values.length : K))

/-- The percentage of `k` out of `n` in double arithmetic: the quotient is
rounded, then its product by 100 is. -/
def doublePercent (k n : ℕ) : K :=
  roundDouble (roundDouble ((k : K) / (n : K)) * 100)

/-- The integer `n`, taken as a count of units of `10 ^ -digits`, written with
`digits` decimals: the integer part, a point, and the remainder on `digits`
digits. -/
def decimalText (digits n : ℕ) : String :=
  toString (n / 10 ^ digits) ++ "." ++
    (String.mk (List.replicate (digits - (toString (n % 10 ^ digits)).length) '0') ++
      toString (n % 10 ^ digits))

/-- A page on which every id resolves, with the history `h` in the storage. -/
def storedPage (h : List (HistoryRecord K)) : World K :=
  World.initial (some (.json (.arr h))) blankPage

/-- Three records: CGPA 8, 9, 8; IQ 110, 100, 121; one internship; 3, 2, 3
projects; two placements. -/
def threeRecords : List (HistoryRecord K) :=
  [FiniteRecord.stored ⟨8, 110, 1, 3, 100, 1⟩, FiniteRecord.stored ⟨9, 100, 0, 2, 100, 1⟩,
    FiniteRecord.stored ⟨8, 121, 0, 3, 40, 0⟩]

/-- Two records, with CGPA 9 and 7.79 (the double nearest to it). -/
def cgpaPair : List (HistoryRecord K) :=
  [FiniteRecord.stored ⟨9, 110, 1, 3, 100, 1⟩,
    FiniteRecord.stored ⟨roundDouble 7.79, 100, 0, 2, 40, 0⟩]

/-- Forty records: 23 with an internship, 14 of them with one project, and no
project elsewhere. -/
def fortyRecords : List (HistoryRecord K) :=
  List.replicate 14 (FiniteRecord.stored ⟨8, 100, 1, 1, 100, 1⟩) ++
    List.replicate 9 (FiniteRecord.stored ⟨8, 100, 1, 0, 100, 1⟩) ++
    List.replicate 17 (FiniteRecord.stored ⟨8, 100, 0, 0, 40, 0⟩)

/-- The score `z` of the fallback model as the specification writes it. -/
def specZ (cgpa iq intern projects : K) : K :=
  -2 + 0.9 * cgpa + 0.02 * iq + 1.3 * intern + 0.18 * projects

/-- The logistic function `1 / (1 + exp(-z))` over a given exponential. -/
def specSigmoid (exp : K → K) (z : K) : K := 1 / (1 + exp (-z))

end Vocabulary

/-! ## Rounding to the nearest double -/

section Doubles

variable {K : Type} [LinearOrderedField K] [FloorRing K]

theorem floor_le_roundHalfEven (q : K) : ⌊q⌋ ≤ roundHalfEven q := by
  unfold roundHalfEven
  split_ifs <;> omega

theorem roundHalfEven_le_floor_add_one (q : K) : roundHalfEven q ≤ ⌊q⌋ + 1 := by
  unfold roundHalfEven
  split_ifs <;> omega

theorem le_roundHalfEven (q : K) (k : ℤ) (h : (k : K) ≤ q) : k ≤ roundHalfEven q :=
  le_trans (Int.le_floor.mpr h) (floor_le_roundHalfEven q)

theorem roundHalfEven_le (q : K) (k : ℤ) (h : q ≤ (k : K)) : roundHalfEven q ≤ k := by
  by_cases hk : ⌊q⌋ + 1 ≤ k
  · exact le_trans (roundHalfEven_le_floor_add_one q) hk
  · have h1 : k ≤ ⌊q⌋ := by omega
    have h2 : (k : K) ≤ q := Int.le_floor.mp h1
    have hq : q = (k : K) := le_antisymm h h2
    subst hq
    unfold roundHalfEven
    simp

theorem roundHalfEven_eq (q : K) (n : ℤ) (h : |q - n| < 1 / 2) : roundHalfEven q = n := by
  rw [abs_lt] at h
  obtain ⟨h1, h2⟩ := h
  by_cases hq : (n : K) ≤ q
  · have hf : ⌊q⌋ = n := by
      rw [Int.floor_eq_iff]
      constructor
      · exact hq
      · linarith
    unfold roundHalfEven
    rw [hf, if_pos (by linarith)]
  · push_neg at hq
    have hf : ⌊q⌋ = n - 1 := by
      rw [Int.floor_eq_iff]
      push_cast
      constructor <;> linarith
    unfold roundHalfEven
    rw [hf]
    push_cast
    rw [if_neg (by linarith), if_pos (by linarith)]
    ring

theorem roundHalfEven_tie (q : K) (m : ℤ) (hm : m % 2 = 0)
    (h : q = (m : K) + 1 / 2 ∨ q = (m : K) - 1 / 2) : roundHalfEven q = m := by
  rcases h with h | h
  · have hf : ⌊q⌋ = m := by
      rw [Int.floor_eq_iff]
      constructor <;> linarith
    unfold roundHalfEven
    rw [hf, if_neg (by linarith), if_neg (by linarith), if_pos hm]
  · have hf : ⌊q⌋ = m - 1 := by
      rw [Int.floor_eq_iff]
      push_cast
      constructor <;> linarith
    unfold roundHalfEven
    rw [hf]
    push_cast
    rw [if_neg (by linarith), if_neg (by linarith), if_neg (by omega)]
    ring

theorem ulp_pos (x : K) : 0 < ulp x := by
  unfold ulp
  positivity

theorem roundDouble_zero : roundDouble (0 : K) = 0 := by
  unfold roundDouble roundHalfEven
  simp

theorem ulp_eq (x : K) : ulp x = (2 : K) ^ (binade x - 52) := rfl

/-- A multiple of the unit in the last place of `x` that is at most `x` is at
most the rounded value. -/
theorem mul_ulp_le_roundDouble (x : K) (k : ℤ) (h : (k : K) * ulp x ≤ x) :
    (k : K) * ulp x ≤ roundDouble x := by
  have hu := ulp_pos x
  have hk : (k : K) ≤ x / ulp x := by rwa [le_div_iff₀ hu]
  have := le_roundHalfEven _ k hk
  unfold roundDouble
  exact mul_le_mul_of_nonneg_right (by exact_mod_cast this) hu.le

theorem roundDouble_le_mul_ulp (x : K) (k : ℤ) (h : x ≤ (k : K) * ulp x) :
    roundDouble x ≤ (k : K) * ulp x := by
  have hu := ulp_pos x
  have hk : x / ulp x ≤ (k : K) := by rwa [div_le_iff₀ hu]
  have := roundHalfEven_le _ k hk
  unfold roundDouble
  exact mul_le_mul_of_nonneg_right (by exact_mod_cast this) hu.le

/-- A double whose exponent is not below that of the unit in the last place of
`x` is a multiple of that unit. -/
theorem isMultiple_of_exponent_ge (x : K) (m e : ℤ) (he : binade x - 52 ≤ e) :
    ∃ k : ℤ, (m : K) * (2 : K) ^ e = (k : K) * ulp x := by
  obtain ⟨d, hd⟩ := Int.eq_ofNat_of_zero_le (sub_nonneg.mpr he)
  refine ⟨m * 2 ^ d, ?_⟩
  have h2 : (2 : K) ≠ 0 := two_ne_zero
  have he' : e = (d : ℤ) + (binade x - 52) := by omega
  rw [ulp_eq, he', zpow_add₀ h2, zpow_natCast]
  push_cast
  ring

/-- A double whose exponent is below that of the unit in the last place of `x`
is smaller in size than the power of two that opens the binade of `x`. -/
theorem abs_lt_of_exponent_lt (x : K) (m e : ℤ) (hm : |m| < 2 ^ 53) (he : e < binade x - 52) :
    |(m : K) * (2 : K) ^ e| < (2 : K) ^ binade x := by
  have h2 : (0 : K) < 2 := two_pos
  have hpow : (0 : K) < (2 : K) ^ e := zpow_pos h2 e
  rw [abs_mul, abs_of_pos hpow]
  have hmK : |(m : K)| < (2 : K) ^ (53 : ℕ) := by
    have : ((|m| : ℤ) : K) < ((2 ^ 53 : ℤ) : K) := by exact_mod_cast hm
    rw [Int.cast_abs, Int.cast_pow, Int.cast_ofNat] at this
    exact this
  have hle : (2 : K) ^ ((53 : ℤ) + e) ≤ (2 : K) ^ binade x :=
    zpow_le_zpow_right₀ (by norm_num) (by omega)
  calc |(m : K)| * (2 : K) ^ e < (2 : K) ^ (53 : ℕ) * (2 : K) ^ e :=
        mul_lt_mul_of_pos_right hmK hpow
    _ = (2 : K) ^ ((53 : ℤ) + e) := by
        rw [zpow_add₀ h2.ne']
        norm_num
    _ ≤ (2 : K) ^ binade x := hle

theorem binade_eq_log_of_gt (x : K) (h : -1022 < binade x) : binade x = Int.log 2 |x| := by
  unfold binade at h ⊢
  rcases le_total (Int.log 2 |x|) (-1022) with h1 | h1
  · rw [max_eq_right h1] at h; omega
  · exact max_eq_left h1

theorem zpow_binade_le_abs (x : K) (hx : x ≠ 0) (h : -1022 < binade x) :
    (2 : K) ^ binade x ≤ |x| := by
  rw [binade_eq_log_of_gt x h]
  have := Int.zpow_log_le_self (b := 2) (r := |x|) (by norm_num) (abs_pos.mpr hx)
  simpa using this

theorem zpow_binade_eq_mul_ulp (x : K) : (2 : K) ^ binade x = ((2 ^ 52 : ℤ) : K) * ulp x := by
  rw [ulp_eq]
  have h2 : (2 : K) ≠ 0 := two_ne_zero
  have : binade x = (52 : ℤ) + (binade x - 52) := by omega
  conv_lhs => rw [this, zpow_add₀ h2]
  norm_num

/-- Rounding does not go below a double that is below the value. -/
theorem le_roundDouble (x c : K) (hc : IsDouble c) (h : c ≤ x) : c ≤ roundDouble x := by
  obtain ⟨m, e, hm, he, rfl⟩ := hc
  by_cases hcase : binade x - 52 ≤ e
  · obtain ⟨k, hk⟩ := isMultiple_of_exponent_ge x m e hcase
    rw [hk] at h ⊢
    exact mul_ulp_le_roundDouble x k h
  · push_neg at hcase
    by_cases hx : x = 0
    · subst hx
      rw [roundDouble_zero]
      exact h
    · have hb : -1022 < binade x := by omega
      have hlt := abs_lt_of_exponent_lt x m e hm hcase
      have hle := zpow_binade_le_abs x hx hb
      rcases lt_or_gt_of_ne hx with hneg | hpos
      · exfalso
        have h1 : |x| = -x := abs_of_neg hneg
        have h2 : |(m : K) * (2 : K) ^ e| = -((m : K) * (2 : K) ^ e) :=
          abs_of_neg (lt_of_le_of_lt h hneg)
        rw [h1] at hle
        rw [h2] at hlt
        linarith
      · have h1 : |x| = x := abs_of_pos hpos
        rw [h1] at hle
        rw [zpow_binade_eq_mul_ulp] at hle hlt
        have := mul_ulp_le_roundDouble x (2 ^ 52) hle
        have h3 := le_abs_self ((m : K) * (2 : K) ^ e)
        linarith

/-- Rounding does not go above a double that is above the value. -/
theorem roundDouble_le (x c : K) (hc : IsDouble c) (h : x ≤ c) : roundDouble x ≤ c := by
  obtain ⟨m, e, hm, he, rfl⟩ := hc
  by_cases hcase : binade x - 52 ≤ e
  · obtain ⟨k, hk⟩ := isMultiple_of_exponent_ge x m e hcase
    rw [hk] at h ⊢
    exact roundDouble_le_mul_ulp x k h
  · push_neg at hcase
    by_cases hx : x = 0
    · subst hx
      rw [roundDouble_zero]
      exact h
    · have hb : -1022 < binade x := by omega
      have hlt := abs_lt_of_exponent_lt x m e hm hcase
      have hle := zpow_binade_le_abs x hx hb
      rcases lt_or_gt_of_ne hx with hneg | hpos
      · have h1 : |x| = -x := abs_of_neg hneg
        rw [h1] at hle
        rw [zpow_binade_eq_mul_ulp] at hle hlt
        have hk : x ≤ ((-(2 ^ 52) : ℤ) : K) * ulp x := by
          push_cast at hle ⊢
          linarith
        have := roundDouble_le_mul_ulp x (-(2 ^ 52)) hk
        have h3 := neg_abs_le ((m : K) * (2 : K) ^ e)
        push_cast at this hlt
        linarith
      · exfalso
        have h1 : |x| = x := abs_of_pos hpos
        have h2 : |(m : K) * (2 : K) ^ e| = (m : K) * (2 : K) ^ e :=
          abs_of_pos (lt_of_lt_of_le hpos h)
        rw [h1] at hle
        rw [h2] at hlt
        linarith

/-- A double is its own rounding. -/
theorem roundDouble_of_isDouble (c : K) (hc : IsDouble c) : roundDouble c = c :=
  le_antisymm (roundDouble_le c c hc le_rfl) (le_roundDouble c c hc le_rfl)

/-- The binade of a value between two consecutive powers of 2. -/
theorem binade_eq (x : K) (E : ℤ) (hE : -1022 ≤ E) (h1 : (2 : K) ^ E ≤ |x|)
    (h2 : |x| < (2 : K) ^ (E + 1)) : binade x = E := by
  have hpos : 0 < |x| := lt_of_lt_of_le (zpow_pos two_pos E) h1
  have hlog : Int.log 2 |x| = E := by
    apply le_antisymm
    · have := (Int.lt_zpow_iff_log_lt (b := 2) (by norm_num) hpos (x := E + 1)).mp
        (by simpa using h2)
      omega
    · exact (Int.zpow_le_iff_le_log (b := 2) (by norm_num) hpos).mp (by simpa using h1)
  unfold binade
  rw [hlog]
  exact max_eq_left hE

/-- The rounding of a value in the binade of exponent `E`, from the nearest
multiple of the unit in the last place. -/
theorem roundDouble_eq (x : K) (E n : ℤ) (hE : -1022 ≤ E) (h1 : (2 : K) ^ E ≤ |x|)
    (h2 : |x| < (2 : K) ^ (E + 1)) (hn : |x / (2 : K) ^ (E - 52) - n| < 1 / 2) :
    roundDouble x = (n : K) * (2 : K) ^ (E - 52) := by
  unfold roundDouble
  rw [ulp_eq, binade_eq x E hE h1 h2, roundHalfEven_eq _ n hn]

/-- The rounding of a value half way between two multiples of the unit in the
last place: the even one. -/
theorem roundDouble_tie (x : K) (E m : ℤ) (hE : -1022 ≤ E) (h1 : (2 : K) ^ E ≤ |x|)
    (h2 : |x| < (2 : K) ^ (E + 1)) (hm : m % 2 = 0)
    (hn : x / (2 : K) ^ (E - 52) = (m : K) + 1 / 2 ∨ x / (2 : K) ^ (E - 52) = (m : K) - 1 / 2) :
    roundDouble x = (m : K) * (2 : K) ^ (E - 52) := by
  unfold roundDouble
  rw [ulp_eq, binade_eq x E hE h1 h2, roundHalfEven_tie _ m hm hn]

/-- Rounding keeps a value between two doubles between them. -/
theorem roundDouble_mem_Icc (x a b : K) (ha : IsDouble a) (hb : IsDouble b) (h1 : a ≤ x)
    (h2 : x ≤ b) : a ≤ roundDouble x ∧ roundDouble x ≤ b :=
  ⟨le_roundDouble x a ha h1, roundDouble_le x b hb h2⟩

end Doubles

section DoubleConstants

variable {K : Type} [LinearOrderedField K]

/-- An integer below `2 ^ 53` in size is a double. -/
theorem isDouble_intCast (m : ℤ) (h : |m| < 2 ^ 53) : IsDouble (m : K) :=
  ⟨m, 0, h, by norm_num, by simp⟩

theorem isDouble_zero : IsDouble (0 : K) := ⟨0, 0, by norm_num, by norm_num, by simp⟩

theorem isDouble_one : IsDouble (1 : K) := ⟨1, 0, by norm_num, by norm_num, by simp⟩

theorem isDouble_half : IsDouble ((1 : K) / 2) :=
  ⟨1, -1, by norm_num, by norm_num, by norm_num⟩

theorem isDouble_fifty : IsDouble (50 : K) := ⟨50, 0, by norm_num, by norm_num, by simp⟩

theorem isDouble_hundred : IsDouble (100 : K) := ⟨100, 0, by norm_num, by norm_num, by simp⟩

end DoubleConstants

/-! ## Frame lemmas: what each statement leaves untouched -/

section FrameBasics
variable {K : Type}

theorem andThen_of_ok {α β : Type} (r : Result K α) (f : α → World K → Result K β) (a : α)
    (h : r.value = .ok a) : r.andThen f = f a r.world := by
  simp [Result.andThen, h]

theorem andThen_of_error {α β : Type} (r : Result K α) (f : α → World K → Result K β)
    (e : JSError) (h : r.value = .error e) : r.andThen f = ⟨r.world, .error e⟩ := by
  simp [Result.andThen, h]

theorem setElement_isSome (w : World K) (id : String) (el : Element) (j : String)
    (h : (w.dom id).isSome = true) :
    ((w.setElement id el).dom j).isSome = (w.dom j).isSome := by
  by_cases hj : j = id
  · subst hj; simp [World.setElement, h]
  · simp [World.setElement, hj]

theorem setInnerText_framed (id text : String) : Framed (K := K) (setInnerText id text) := by
  intro w
  unfold setInnerText
  cases h : w.dom id with
  | none => simp
  | some el =>
    refine ⟨rfl, fun j => ?_⟩
    exact setElement_isSome w id _ j (by simp [h])

theorem setInnerHTML_framed (id text : String) : Framed (K := K) (setInnerHTML id text) := by
  intro w
  unfold setInnerHTML
  cases h : w.dom id with
  | none => simp
  | some el =>
    refine ⟨rfl, fun j => ?_⟩
    exact setElement_isSome w id _ j (by simp [h])

theorem setDisplay_framed (id text : String) : Framed (K := K) (setDisplay id text) := by
  intro w
  unfold setDisplay
  cases h : w.dom id with
  | none => simp
  | some el =>
    refine ⟨rfl, fun j => ?_⟩
    exact setElement_isSome w id _ j (by simp [h])

theorem setInnerText_ok (id text : String) (w : World K) (h : (w.dom id).isSome = true) :
    (setInnerText id text w).value = .ok () := by
  unfold setInnerText
  cases h' : w.dom id with
  | none => simp [h'] at h
  | some el => rfl

theorem setInnerHTML_ok (id text : String) (w : World K) (h : (w.dom id).isSome = true) :
    (setInnerHTML id text w).value = .ok () := by
  unfold setInnerHTML
  cases h' : w.dom id with
  | none => simp [h'] at h
  | some el => rfl

theorem setDisplay_ok (id text : String) (w : World K) (h : (w.dom id).isSome = true) :
    (setDisplay id text w).value = .ok () := by
  unfold setDisplay
  cases h' : w.dom id with
  | none => simp [h'] at h
  | some el => rfl

theorem framed_andThen {α β : Type} (f : World K → Result K α) (g : α → World K → Result K β)
    (hf : Framed f) (hg : ∀ a, Framed (g a)) : Framed fun w => (f w).andThen g := by
  intro w
  show ((f w).andThen g).world.storage = _ ∧ ∀ j, (((f w).andThen g).world.dom j).isSome = _
  cases h : (f w).value with
  | error e =>
    rw [andThen_of_error _ _ e h]
    exact hf w
  | ok a =>
    rw [andThen_of_ok _ _ a h]
    refine ⟨((hg a) _).1.trans (hf w).1, fun j => ?_⟩
    rw [((hg a) _).2 j, (hf w).2 j]

end FrameBasics

section StoreFrames
variable {K : Type} [LinearOrderedField K]

theorem updateHome_framed : Framed (K := K) updateHomeKPIsFromHistory := by
  intro w
  unfold updateHomeKPIsFromHistory
  cases getHistory w with
  | error e => simp
  | ok history =>
    simp only
    split
    · simp
    · split
      · simp
      · split
        · split <;> simp
        · simp

theorem pushToHistory_storage (item : Item K) (w : World K) :
    (pushToHistory item w).world.storage = storeAfterPush item w.storage := by
  unfold pushToHistory storeAfterPush
  split <;> simp_all

theorem pushToHistory_dom (item : Item K) (w : World K) :
    (pushToHistory item w).world.dom = w.dom := by
  unfold pushToHistory
  split <;> rfl

theorem parseOrEmpty_holds (st : Option (Stored K)) (h : List (HistoryRecord K))
    (hs : HoldsHistory st h) : parseOrEmpty st = .ok (.arr h) := by
  rcases hs with hs | ⟨hs, rfl⟩ <;> subst hs <;> simp [parseOrEmpty, parseStored, Json.truthy]

theorem storeAfterPush_holds (item : Item K) (st : Option (Stored K))
    (h : List (HistoryRecord K)) (hs : HoldsHistory st h) :
    storeAfterPush item st = some (.json (.arr (h ++ [item.toJson]))) := by
  simp [storeAfterPush, parseOrEmpty_holds st h hs]

theorem pushToHistory_ok (item : Item K) (w : World K) (h : List (HistoryRecord K))
    (hs : HoldsHistory w.storage h) : (pushToHistory item w).value = .ok () := by
  unfold pushToHistory
  rw [parseOrEmpty_holds _ h hs]

end StoreFrames

section ChartFrames
variable {K : Type} [LinearOrderedField K]

theorem buildHistoryCharts_framed (env : Env K) (xs : List (HistoryRecord K)) :
    Framed (buildHistoryCharts env xs) := by
  intro w
  unfold buildHistoryCharts
  simp only
  split
  · simp
  · split
    · simp
    · split
      · simp
      · split <;> simp

end ChartFrames

section AnalyticsFrames
variable {K : Type} [LinearOrderedField K] [FloorRing K]

theorem loadPredictionAnalytics_framed (env : Env K) : Framed (loadPredictionAnalytics env) := by
  intro w
  unfold loadPredictionAnalytics
  cases getHistory w with
  | error e => simp
  | ok history =>
    simp only
    have h0 : (destroyAllHistoryCharts w).storage = w.storage ∧
        ∀ j, ((destroyAllHistoryCharts w).dom j).isSome = (w.dom j).isSome := by
      simp [destroyAllHistoryCharts]
    split
    · have := framed_andThen (setInnerText "avgCgpa" "0.0") (fun _ w1 =>
        (setInnerText "internPercent" "0%" w1).andThen fun _ w2 =>
        (setInnerText "avgProjects" "0.0" w2).andThen fun _ w3 =>
        setInnerText "placementRate" "0%" w3) (setInnerText_framed _ _) (fun _ =>
          framed_andThen _ _ (setInnerText_framed _ _) (fun _ =>
            framed_andThen _ _ (setInnerText_framed _ _) (fun _ => setInnerText_framed _ _)))
        (destroyAllHistoryCharts w)
      exact ⟨this.1.trans h0.1, fun j => (this.2 j).trans (h0.2 j)⟩
    · split
      · rename_i xs hlen
        have := framed_andThen (setInnerText "avgCgpa" (computeAnalytics env xs).avgCgpa)
          (fun _ w1 =>
            (setInnerText "internPercent"
              (intText env.numberToString (some (computeAnalytics env xs).internPct) ++ "%")
              w1).andThen fun _ w2 =>
            (setInnerText "avgProjects" (computeAnalytics env xs).avgProjects w2).andThen
            fun _ w3 =>
            (setInnerText "placementRate"
              (intText env.numberToString (some (computeAnalytics env xs).placementPct) ++ "%")
              w3).andThen fun _ w4 =>
            buildHistoryCharts env xs w4) (setInnerText_framed _ _) (fun _ =>
            framed_andThen _ _ (setInnerText_framed _ _) (fun _ =>
              framed_andThen _ _ (setInnerText_framed _ _) (fun _ =>
                framed_andThen _ _ (setInnerText_framed _ _) (fun _ =>
                  buildHistoryCharts_framed env xs))))
          (destroyAllHistoryCharts w)
        exact ⟨this.1.trans h0.1, fun j => (this.2 j).trans (h0.2 j)⟩
      · exact h0

end AnalyticsFrames

section SetterFacts
variable {K : Type}

theorem setInnerText_storage (id text : String) (w : World K) :
    (setInnerText id text w).world.storage = w.storage := (setInnerText_framed id text w).1

theorem setInnerHTML_storage (id text : String) (w : World K) :
    (setInnerHTML id text w).world.storage = w.storage := (setInnerHTML_framed id text w).1

theorem setDisplay_storage (id text : String) (w : World K) :
    (setDisplay id text w).world.storage = w.storage := (setDisplay_framed id text w).1

theorem setInnerText_isSome (id text : String) (w : World K) (j : String) :
    ((setInnerText id text w).world.dom j).isSome = (w.dom j).isSome :=
  (setInnerText_framed id text w).2 j

theorem setInnerHTML_isSome (id text : String) (w : World K) (j : String) :
    ((setInnerHTML id text w).world.dom j).isSome = (w.dom j).isSome :=
  (setInnerHTML_framed id text w).2 j

theorem setDisplay_isSome (id text : String) (w : World K) (j : String) :
    ((setDisplay id text w).world.dom j).isSome = (w.dom j).isSome :=
  (setDisplay_framed id text w).2 j

theorem andThen_setInnerText {β : Type} (id text : String) (w : World K)
    (f : Unit → World K → Result K β) (h : (w.dom id).isSome = true) :
    (setInnerText id text w).andThen f = f () (setInnerText id text w).world :=
  andThen_of_ok _ _ () (setInnerText_ok id text w h)

theorem andThen_setInnerHTML {β : Type} (id text : String) (w : World K)
    (f : Unit → World K → Result K β) (h : (w.dom id).isSome = true) :
    (setInnerHTML id text w).andThen f = f () (setInnerHTML id text w).world :=
  andThen_of_ok _ _ () (setInnerHTML_ok id text w h)

theorem andThen_setDisplay {β : Type} (id text : String) (w : World K)
    (f : Unit → World K → Result K β) (h : (w.dom id).isSome = true) :
    (setDisplay id text w).andThen f = f () (setDisplay id text w).world :=
  andThen_of_ok _ _ () (setDisplay_ok id text w h)

theorem andThen_world_storage {α β : Type} (r : Result K α) (g : α → World K → Result K β)
    (hg : ∀ a, Framed (g a)) : (r.andThen g).world.storage = r.world.storage := by
  cases h : r.value with
  | error e => rw [andThen_of_error _ _ e h]
  | ok a => rw [andThen_of_ok _ _ a h]; exact (hg a _).1

end SetterFacts

section DemoStorage
variable {K : Type} [LinearOrderedField K] [FloorRing K]

theorem afterPush_framed (env : Env K) :
    ∀ _ : Unit, Framed (K := K) fun w5 =>
      (loadPredictionAnalytics env w5).andThen fun _ w6 => updateHomeKPIsFromHistory w6 :=
  fun _ => framed_andThen _ _ (loadPredictionAnalytics_framed env) fun _ => updateHome_framed

theorem demoPath_storage (env : Env K) (cgpa iq intern projects : JSNum K) (w : World K)
    (hpage : w.HasElements ["status", "result-card", "result-text"]) :
    (demoPath env cgpa iq intern projects w).world.storage =
      storeAfterPush (demoItem env cgpa iq intern projects) w.storage := by
  have h1 : (w.dom "status").isSome = true := hpage _ (by simp)
  have h2 : (w.dom "result-card").isSome = true := hpage _ (by simp)
  have h3 : (w.dom "result-text").isSome = true := hpage _ (by simp)
  unfold demoPath
  simp only []
  rw [andThen_setInnerHTML _ _ _ _ (by simpa using h3),
    andThen_setDisplay _ _ _ _ (by simpa [setInnerHTML_isSome] using h2),
    andThen_setInnerText _ _ _ _ (by simpa [setInnerHTML_isSome, setDisplay_isSome] using h1),
    andThen_world_storage _ _ (afterPush_framed env), pushToHistory_storage,
    setInnerText_storage, setDisplay_storage, setInnerHTML_storage]

end DemoStorage

section FiniteRecords
variable {K : Type}

theorem finite_toJson (r : FiniteRecord K) : r.item.toJson = r.stored := rfl

end FiniteRecords

section PushSequences
variable {K : Type} [LinearOrderedField K]

theorem pushAll_holds (items : List (Item K)) (w : World K) (h : List (HistoryRecord K))
    (hs : HoldsHistory w.storage h) :
    (pushAll items w).storage = (if items = [] then w.storage
      else some (.json (.arr (h ++ items.map Item.toJson)))) := by
  induction items generalizing w h with
  | nil => simp [pushAll]
  | cons r rs ih =>
    have h1 : (pushToHistory r w).world.storage = some (.json (.arr (h ++ [r.toJson]))) := by
      rw [pushToHistory_storage, storeAfterPush_holds r _ h hs]
    have := ih (pushToHistory r w).world (h ++ [r.toJson]) (Or.inl h1)
    simp only [pushAll, List.foldl_cons] at this ⊢
    rw [this]
    by_cases hrs : rs = []
    · simp [hrs, h1]
    · simp [hrs]

end PushSequences

section ClearHandler
variable {K : Type} [LinearOrderedField K] [FloorRing K]

theorem clearHistory_storage (env : Env K) (w : World K) :
    (clearHistory env true w).world.storage = none := by
  unfold clearHistory
  simp only [Bool.not_true, Bool.false_eq_true, if_false]
  rw [andThen_world_storage _ _ (fun _ => framed_andThen _ _ updateHome_framed
    (fun _ w3 => ⟨rfl, fun _ => rfl⟩)), (loadPredictionAnalytics_framed env _).1]

end ClearHandler

/-! ## Page fields, sums and counts -/

section FieldTexts
variable {K : Type}

theorem setInnerText_innerTextOf_self (id text : String) (w : World K)
    (h : (w.dom id).isSome = true) :
    (setInnerText id text w).world.innerTextOf id = some text := by
  unfold setInnerText
  cases h' : w.dom id with
  | none => simp [h'] at h
  | some el => simp [World.innerTextOf, World.setElement]

theorem setInnerText_innerTextOf_ne (id text : String) (w : World K) (j : String)
    (hj : j ≠ id) : (setInnerText id text w).world.innerTextOf j = w.innerTextOf j := by
  unfold setInnerText
  cases h' : w.dom id with
  | none => rfl
  | some el => simp [World.innerTextOf, World.setElement, hj]

end FieldTexts

section ChartsKeepPage
variable {K : Type} [LinearOrderedField K]

theorem buildHistoryCharts_dom (env : Env K) (xs : List (HistoryRecord K)) (w : World K) :
    (buildHistoryCharts env xs w).world.dom = w.dom := by
  unfold buildHistoryCharts
  simp only
  split
  · rfl
  · split
    · rfl
    · split
      · rfl
      · split <;> rfl

end ChartsKeepPage

section KpiFields
variable {K : Type}

/-- The world after the four KPI assignments, made in the order of the source. -/
theorem kpi_fields_after_assignments (t1 t2 t3 t4 : String) (w : World K)
    (hpage : w.HasElements ["avgCgpa", "internPercent", "avgProjects", "placementRate"]) :
    (setInnerText "avgCgpa" t1 w).value = .ok () ∧
    (setInnerText "internPercent" t2 (setInnerText "avgCgpa" t1 w).world).value = .ok () ∧
    (setInnerText "avgProjects" t3 (setInnerText "internPercent" t2
      (setInnerText "avgCgpa" t1 w).world).world).value = .ok () ∧
    (setInnerText "placementRate" t4 (setInnerText "avgProjects" t3
      (setInnerText "internPercent" t2 (setInnerText "avgCgpa" t1 w).world).world).world).value =
      .ok () ∧
    ∀ w' : World K, w'.dom = (setInnerText "placementRate" t4 (setInnerText "avgProjects" t3
        (setInnerText "internPercent" t2 (setInnerText "avgCgpa" t1 w).world).world).world).world.dom →
      w'.innerTextOf "avgCgpa" = some t1 ∧ w'.innerTextOf "internPercent" = some t2 ∧
      w'.innerTextOf "avgProjects" = some t3 ∧ w'.innerTextOf "placementRate" = some t4 := by
  have h1 : (w.dom "avgCgpa").isSome = true := hpage _ (by simp)
  have h2 : (w.dom "internPercent").isSome = true := hpage _ (by simp)
  have h3 : (w.dom "avgProjects").isSome = true := hpage _ (by simp)
  have h4 : (w.dom "placementRate").isSome = true := hpage _ (by simp)
  refine ⟨setInnerText_ok _ _ _ h1,
    setInnerText_ok _ _ _ (by simpa [setInnerText_isSome] using h2),
    setInnerText_ok _ _ _ (by simpa [setInnerText_isSome] using h3),
    setInnerText_ok _ _ _ (by simpa [setInnerText_isSome] using h4), fun w' hw' => ?_⟩
  have hi : ∀ id, w'.innerTextOf id = (setInnerText "placementRate" t4
      (setInnerText "avgProjects" t3 (setInnerText "internPercent" t2
        (setInnerText "avgCgpa" t1 w).world).world).world).world.innerTextOf id := by
    intro id; simp [World.innerTextOf, hw']
  refine ⟨?_, ?_, ?_, ?_⟩
  · rw [hi, setInnerText_innerTextOf_ne _ _ _ _ (by decide),
      setInnerText_innerTextOf_ne _ _ _ _ (by decide),
      setInnerText_innerTextOf_ne _ _ _ _ (by decide), setInnerText_innerTextOf_self _ _ _ h1]
  · rw [hi, setInnerText_innerTextOf_ne _ _ _ _ (by decide),
      setInnerText_innerTextOf_ne _ _ _ _ (by decide),
      setInnerText_innerTextOf_self _ _ _ (by simpa [setInnerText_isSome] using h2)]
  · rw [hi, setInnerText_innerTextOf_ne _ _ _ _ (by decide),
      setInnerText_innerTextOf_self _ _ _ (by simpa [setInnerText_isSome] using h3)]
  · rw [hi, setInnerText_innerTextOf_self _ _ _ (by simpa [setInnerText_isSome] using h4)]

end KpiFields

section SumsAndCounts
variable {K : Type} [LinearOrderedField K] [FloorRing K]

theorem reduceSum_eq_doubleSum (field : HistoryRecord K → JField K)
    (h : List (HistoryRecord K)) :
    reduceSum field h = doubleSum (h.map fun x => (field x).toNumber) := by
  unfold reduceSum doubleSum
  rw [List.foldl_map]

end SumsAndCounts

section Counts
variable {K : Type} [LinearOrderedField K]

theorem countOnes_eq_countP (field : HistoryRecord K → JField K) (h : List (HistoryRecord K)) :
    countOnes field h = h.countP fun x => decide (field x = .num 1) := by
  unfold countOnes
  rw [List.countP_eq_length_filter]

end Counts

/-! ## The paths of `predictPlacement` -/

section Chains
variable {K : Type}

theorem setInnerText_requests (id text : String) (w : World K) :
    (setInnerText id text w).world.requests = w.requests := by
  unfold setInnerText
  cases w.dom id <;> rfl

theorem setDisplay_requests (id text : String) (w : World K) :
    (setDisplay id text w).world.requests = w.requests := by
  unfold setDisplay
  cases w.dom id <;> rfl

theorem andThen_error_of_forall {α β : Type} (r : Result K α) (g : α → World K → Result K β)
    (hg : ∀ a w, ∃ e, (g a w).value = .error e) : ∃ e, (r.andThen g).value = .error e := by
  cases h : r.value with
  | error e => exact ⟨e, by rw [andThen_of_error _ _ e h]⟩
  | ok a => rw [andThen_of_ok _ _ a h]; exact hg a _

/-- A framed statement followed by `g`: a relation between the storage before
and after that holds across `g`, and between a storage and itself, holds across
the sequence. -/
theorem framed_then_storage {α β : Type} (f : World K → Result K α)
    (g : α → World K → Result K β) (hf : Framed f)
    (P : Option (Stored K) → Option (Stored K) → Prop) (hrefl : ∀ st, P st st)
    (hg : ∀ a w, P w.storage (g a w).world.storage) (w : World K) :
    P w.storage ((f w).andThen g).world.storage := by
  cases h : (f w).value with
  | error e =>
    rw [andThen_of_error _ _ e h]
    show P w.storage (f w).world.storage
    rw [(hf w).1]
    exact hrefl _
  | ok a =>
    rw [andThen_of_ok _ _ a h]
    have := hg a (f w).world
    rwa [(hf w).1] at this

end Chains

section Refresh
variable {K : Type} [LinearOrderedField K] [FloorRing K]

/-- The call `pushToHistory(item)` followed by the two refresh calls. -/
theorem pushThenRefresh_storage (env : Env K) (item : Item K) (w : World K) :
    ((pushToHistory item w).andThen fun _ w5 =>
      (loadPredictionAnalytics env w5).andThen fun _ w6 =>
        updateHomeKPIsFromHistory w6).world.storage = storeAfterPush item w.storage := by
  rw [andThen_world_storage _ _ (afterPush_framed env), pushToHistory_storage]

theorem loadPredictionAnalytics_raises (env : Env K) (w : World K)
    (xs : List (HistoryRecord K)) (hs : w.storage = some (.json (.arr xs))) (hne : xs ≠ [])
    (e : JSError) (hchart : env.chartError "chart1" = some e) :
    ∃ e', (loadPredictionAnalytics env w).value = .error e' := by
  have hlen : (Json.arr xs).lengthIsZero = false := by
    cases xs with
    | nil => exact absurd rfl hne
    | cons a l => simp [Json.lengthIsZero]
  unfold loadPredictionAnalytics getHistory
  rw [hs]
  simp only [parseOrEmpty, parseStored, Json.truthy, if_true, hlen, Bool.false_eq_true,
    if_false]
  refine andThen_error_of_forall _ _ fun _ _ => andThen_error_of_forall _ _ fun _ _ =>
    andThen_error_of_forall _ _ fun _ _ => andThen_error_of_forall _ _ fun _ w4 => ⟨e, ?_⟩
  simp [buildHistoryCharts, newChart, hchart]

end Refresh

section PathShapes
variable {K : Type} [LinearOrderedField K] [FloorRing K]

theorem backendPath_of_fails (env : Env K) (cgpa iq intern projects : JSNum K)
    (remote : FetchOutcome K) (hf : remote.Fails) (w : World K) :
    (backendPath env cgpa iq intern projects remote w).world =
      { w with requests := w.requests ++ [⟨cgpa, iq, intern, projects⟩] } ∧
    ∃ e, (backendPath env cgpa iq intern projects remote w).value = .error e := by
  unfold backendPath
  match remote, hf with
  | .networkError, _ => exact ⟨rfl, _, rfl⟩
  | .response false _, _ => exact ⟨rfl, _, rfl⟩
  | .response true .unparsable, _ => exact ⟨rfl, _, rfl⟩
  | .response true .null, _ => exact ⟨rfl, _, rfl⟩

theorem backendPath_object (env : Env K) (cgpa iq intern projects : JSNum K)
    (probability : Option K) (prediction : Option ℤ) (w : World K)
    (hpage : w.HasElements ["status", "result-card", "result-text"]) :
    ∃ W : World K, W.storage = w.storage ∧ (∀ j, (W.dom j).isSome = (w.dom j).isSome) ∧
      backendPath env cgpa iq intern projects (.response true (.object probability prediction)) w =
        (pushToHistory (backendItem cgpa iq intern projects probability prediction) W).andThen
          fun _ w5 => (loadPredictionAnalytics env w5).andThen fun _ w6 =>
            updateHomeKPIsFromHistory w6 := by
  have h1 : (w.dom "status").isSome = true := hpage _ (by simp)
  have h2 : (w.dom "result-card").isSome = true := hpage _ (by simp)
  have h3 : (w.dom "result-text").isSome = true := hpage _ (by simp)
  refine ⟨(setInnerText "status" "Prediction complete (backend)."
    (setDisplay "result-card" "block" (setInnerHTML "result-text"
      ("<strong>Prediction:</strong> " ++ placedText prediction ++
        "<br><strong>Probability:</strong> " ++
        intText env.numberToString (some (backendProbabilityPct probability)) ++ "%")
      { w with requests := w.requests ++ [⟨cgpa, iq, intern, projects⟩] }).world).world).world,
    ?_, ?_, ?_⟩
  · simp [setInnerText_storage, setDisplay_storage, setInnerHTML_storage]
  · intro j
    simp [setInnerText_isSome, setDisplay_isSome, setInnerHTML_isSome]
  · unfold backendPath
    simp only []
    rw [andThen_setInnerHTML _ _ _ _ (by simpa using h3),
      andThen_setDisplay _ _ _ _ (by simpa [setInnerHTML_isSome] using h2),
      andThen_setInnerText _ _ _ _ (by simpa [setInnerHTML_isSome, setDisplay_isSome] using h1)]

theorem predictPlacement_valid (env : Env K) (c i p : K) (intern : JSNum K)
    (remote : FetchOutcome K) (w : World K)
    (hpage : w.HasElements ["status", "result-card", "result-text"]) :
    ∃ W : World K, W.storage = w.storage ∧ (∀ j, (W.dom j).isSome = (w.dom j).isSome) ∧
      W.requests = w.requests ∧
      predictPlacement env (.num c) (.num i) intern (.num p) remote w =
        match (backendPath env (.num c) (.num i) intern (.num p) remote W).value with
        | .ok _ => ⟨(backendPath env (.num c) (.num i) intern (.num p) remote W).world,
            .ok .backend⟩
        | .error _ =>
          (demoPath env (.num c) (.num i) intern (.num p)
            (backendPath env (.num c) (.num i) intern (.num p) remote W).world).andThen
            fun _ w3 => ⟨w3, .ok .demo⟩ := by
  have h1 : (w.dom "status").isSome = true := hpage _ (by simp)
  have h2 : (w.dom "result-card").isSome = true := hpage _ (by simp)
  refine ⟨(setDisplay "result-card" "none" (setInnerText "status" "Predicting..." w).world).world,
    ?_, ?_, ?_, ?_⟩
  · simp [setInnerText_storage, setDisplay_storage]
  · intro j
    simp [setInnerText_isSome, setDisplay_isSome]
  · simp [setInnerText_requests, setDisplay_requests]
  · unfold predictPlacement
    simp only [JSNum.isNaN, Bool.or_self, Bool.false_eq_true, if_false]
    rw [andThen_setInnerText _ _ _ _ h1,
      andThen_setDisplay _ _ _ _ (by simpa [setInnerText_isSome] using h2)]

end PathShapes

section DemoShape
variable {K : Type} [LinearOrderedField K] [FloorRing K]

theorem demoPath_decomposed (env : Env K) (cgpa iq intern projects : JSNum K) (w : World K)
    (hpage : w.HasElements ["status", "result-card", "result-text"]) :
    ∃ W : World K, W.storage = w.storage ∧ (∀ j, (W.dom j).isSome = (w.dom j).isSome) ∧
      demoPath env cgpa iq intern projects w =
        (pushToHistory (demoItem env cgpa iq intern projects) W).andThen
          fun _ w5 => (loadPredictionAnalytics env w5).andThen fun _ w6 =>
            updateHomeKPIsFromHistory w6 := by
  have h1 : (w.dom "status").isSome = true := hpage _ (by simp)
  have h2 : (w.dom "result-card").isSome = true := hpage _ (by simp)
  have h3 : (w.dom "result-text").isSome = true := hpage _ (by simp)
  refine ⟨(setInnerText "status" "Prediction complete (demo)."
    (setDisplay "result-card" "block" (setInnerHTML "result-text"
      ("<strong>Prediction (Demo):</strong> " ++
        placedText (some (demoCls env (demoZ cgpa iq intern projects))) ++
        "<br><strong>Probability:</strong> " ++
        intText env.numberToString (demoProbabilityPct env (demoZ cgpa iq intern projects)) ++
        "%")
      { w with warnings := w.warnings + 1 }).world).world).world,
    ?_, ?_, ?_⟩
  · simp [setInnerText_storage, setDisplay_storage, setInnerHTML_storage]
  · intro j
    simp [setInnerText_isSome, setDisplay_isSome, setInnerHTML_isSome]
  · unfold demoPath
    simp only []
    rw [andThen_setInnerHTML _ _ _ _ (by simpa using h3),
      andThen_setDisplay _ _ _ _ (by simpa [setInnerHTML_isSome] using h2),
      andThen_setInnerText _ _ _ _ (by simpa [setInnerHTML_isSome, setDisplay_isSome] using h1)]

/-- After a push onto a stored history, the refresh raises when the `Chart`
constructor throws for the first analytics chart. -/
theorem pushThenRefresh_raises (env : Env K) (item : Item K) (w : World K)
    (h : List (HistoryRecord K)) (hs : HoldsHistory w.storage h) (e : JSError)
    (hchart : env.chartError "chart1" = some e) :
    ∃ e', ((pushToHistory item w).andThen fun _ w5 =>
      (loadPredictionAnalytics env w5).andThen fun _ w6 =>
        updateHomeKPIsFromHistory w6).value = .error e' := by
  have hpst : (pushToHistory item w).world.storage =
      some (.json (.arr (h ++ [item.toJson]))) := by
    rw [pushToHistory_storage, storeAfterPush_holds _ _ h hs]
  obtain ⟨e1, he1⟩ := loadPredictionAnalytics_raises env _ _ hpst (by simp) e hchart
  rw [andThen_of_ok _ _ () (pushToHistory_ok item w h hs), andThen_of_error _ _ e1 he1]
  exact ⟨e1, rfl⟩

end DemoShape

section FallbackStorage
variable {K : Type} [LinearOrderedField K] [FloorRing K]

/-- The fallback path: when the remote call fails, the history ends with the
demo record appended. -/
theorem predictPlacement_fallback_storage (env : Env K) (c i p : K) (intern : JSNum K)
    (remote : FetchOutcome K) (hf : remote.Fails) (w : World K) (h : List (HistoryRecord K))
    (hpage : w.HasElements ["status", "result-card", "result-text"])
    (hs : HoldsHistory w.storage h) :
    (predictPlacement env (.num c) (.num i) intern (.num p) remote w).world.storage =
      some (.json (.arr (h ++ [(demoItem env (.num c) (.num i) intern (.num p)).toJson]))) := by
  obtain ⟨W, hWs, hWd, -, hpp⟩ := predictPlacement_valid env c i p intern remote w hpage
  obtain ⟨hbw, eb, hbv⟩ := backendPath_of_fails env (.num c) (.num i) intern (.num p) remote hf W
  have hpageB : (backendPath env (.num c) (.num i) intern (.num p) remote W).world.HasElements
      ["status", "result-card", "result-text"] := by
    intro id hid
    rw [hbw]
    show (W.dom id).isSome = true
    rw [hWd]; exact hpage id hid
  have hsB : HoldsHistory
      (backendPath env (.num c) (.num i) intern (.num p) remote W).world.storage h := by
    rw [hbw]
    show HoldsHistory W.storage h
    rw [hWs]; exact hs
  rw [hpp]
  simp only [hbv]
  rw [andThen_world_storage _ _ (fun _ _ => ⟨rfl, fun _ => rfl⟩),
    demoPath_storage _ _ _ _ _ _ hpageB, storeAfterPush_holds _ _ _ hsB]

end FallbackStorage

section DemoModel
variable {K : Type} [LinearOrderedField K] [FloorRing K]

/-- The demo model on finite inputs, when `Math.exp` is not negative. -/
theorem demoZ_num (c i n p : K) :
    demoZ (.num c) (.num i) (.num n) (.num p) = .num (doubleZ c i n p) := by
  simp [demoZ, JSNum.lit, JSNum.add, JSNum.mul, doubleZ]

theorem one_le_roundDouble_one_add (E : K) (hE : 0 ≤ E) : 1 ≤ roundDouble (1 + E) :=
  le_roundDouble _ _ isDouble_one (by linarith)

theorem demoProb_num (env : Env K) (hexp : ∀ x, 0 ≤ env.mathExp x) (z : K) :
    demoProb env (.num z) = .num (doubleProb env.mathExp z) := by
  have h1 := one_le_roundDouble_one_add (env.mathExp (-z)) (hexp _)
  have : roundDouble (1 + env.mathExp (-z)) ≠ 0 := by linarith
  simp [demoProb, JSNum.div, JSNum.add, JSNum.exp, JSNum.neg, this, doubleProb]

theorem demoCls_num (env : Env K) (hexp : ∀ x, 0 ≤ env.mathExp x) (z : K) :
    demoCls env (.num z) = if 1 / 2 ≤ doubleProb env.mathExp z then 1 else 0 := by
  have h5 : (0.5 : K) = 1 / 2 := by norm_num
  simp [demoCls, demoProb_num env hexp, JSNum.ge, h5]

theorem demoProbabilityPct_num (env : Env K) (hexp : ∀ x, 0 ≤ env.mathExp x) (z : K) :
    demoProbabilityPct env (.num z) =
      some ⌊roundDouble (doubleProb env.mathExp z * 100) + 1 / 2⌋ := by
  simp [demoProbabilityPct, demoProb_num env hexp, JSNum.mul, JSNum.round, mathRound]

theorem demoItem_num (env : Env K) (hexp : ∀ x, 0 ≤ env.mathExp x) (c i n p : K) :
    demoItem env (.num c) (.num i) (.num n) (.num p) =
      { cgpa := .num c, iq := .num i, intern := .num n, projects := .num p
        probability :=
          .num ((⌊roundDouble (doubleProb env.mathExp (doubleZ c i n p) * 100) + 1 / 2⌋ : ℤ) : K)
        cls := .num (((if 1 / 2 ≤ doubleProb env.mathExp (doubleZ c i n p) then 1 else 0 : ℤ) :
          ℤ) : K) } := by
  simp only [demoItem, demoZ_num, demoProbabilityPct_num env hexp, demoCls_num env hexp, ofInt?]

/-- The probability of the demo model lies between 0 and 1. -/
theorem doubleProb_bounds (exp : K → K) (hexp : ∀ x, 0 ≤ exp x) (z : K) :
    0 ≤ doubleProb exp z ∧ doubleProb exp z ≤ 1 := by
  have h1 := one_le_roundDouble_one_add (exp (-z)) (hexp _)
  have hpos : (0 : K) < roundDouble (1 + exp (-z)) := by linarith
  unfold doubleProb
  refine roundDouble_mem_Icc _ 0 1 isDouble_zero isDouble_one (by positivity) ?_
  rw [div_le_one hpos]
  exact h1

/-- The percentage of a probability between 0 and 1 lies between 0 and 100. -/
theorem percentage_bounds (q : K) (h0 : 0 ≤ q) (h1 : q ≤ 1) :
    0 ≤ ⌊roundDouble (q * 100) + 1 / 2⌋ ∧ ⌊roundDouble (q * 100) + 1 / 2⌋ ≤ 100 := by
  obtain ⟨l, u⟩ := roundDouble_mem_Icc (q * 100) 0 100 isDouble_zero isDouble_hundred
    (by positivity) (by linarith)
  constructor
  · apply Int.floor_nonneg.mpr
    linarith
  · have : ⌊roundDouble (q * 100) + 1 / 2⌋ < 101 := by
      rw [Int.floor_lt]
      push_cast
      linarith
    omega

/-- The percentage is at least 50 from the probability one half on, and at most
50 below it. -/
theorem percentage_of_class (q : K) :
    (1 / 2 ≤ q → 50 ≤ ⌊roundDouble (q * 100) + 1 / 2⌋) ∧
      (¬ 1 / 2 ≤ q → ⌊roundDouble (q * 100) + 1 / 2⌋ ≤ 50) := by
  constructor
  · intro h
    have := le_roundDouble (q * 100) 50 isDouble_fifty (by linarith)
    rw [Int.le_floor]
    push_cast
    linarith
  · intro h
    have hq : q < 1 / 2 := lt_of_not_ge h
    have := roundDouble_le (q * 100) 50 isDouble_fifty (by linarith)
    have : ⌊roundDouble (q * 100) + 1 / 2⌋ < 51 := by
      rw [Int.floor_lt]
      push_cast
      linarith
    omega

end DemoModel


section AppendedRecords
variable {K : Type} [LinearOrderedField K] [FloorRing K]

/-- Whatever the page, the `catch` block leaves the storage key as it was or
with the demo record pushed. -/
theorem demoPath_storage_cases (env : Env K) (cgpa iq intern projects : JSNum K) (w : World K) :
    (demoPath env cgpa iq intern projects w).world.storage = w.storage ∨
    (demoPath env cgpa iq intern projects w).world.storage =
      storeAfterPush (demoItem env cgpa iq intern projects) w.storage := by
  unfold demoPath
  simp only []
  refine framed_then_storage (setInnerHTML _ _) _ (setInnerHTML_framed _ _)
    (fun st st' => st' = st ∨ st' = storeAfterPush (demoItem env cgpa iq intern projects) st)
    (fun _ => Or.inl rfl) (fun _ w2 => ?_) { w with warnings := w.warnings + 1 }
  refine framed_then_storage (setDisplay _ _) _ (setDisplay_framed _ _)
    (fun st st' => st' = st ∨ st' = storeAfterPush (demoItem env cgpa iq intern projects) st)
    (fun _ => Or.inl rfl) (fun _ w3 => ?_) w2
  refine framed_then_storage (setInnerText _ _) _ (setInnerText_framed _ _)
    (fun st st' => st' = st ∨ st' = storeAfterPush (demoItem env cgpa iq intern projects) st)
    (fun _ => Or.inl rfl) (fun _ w4 => ?_) w3
  exact Or.inr (pushThenRefresh_storage env _ w4)

/-- Whatever the page and the reply, the `try` block leaves the storage key as
it was or, after a 2xx reply with a JSON object, with the backend record
pushed. -/
theorem backendPath_storage_cases (env : Env K) (cgpa iq intern projects : JSNum K)
    (remote : FetchOutcome K) (w : World K) :
    (backendPath env cgpa iq intern projects remote w).world.storage = w.storage ∨
    ∃ probability prediction, remote = .response true (.object probability prediction) ∧
      (backendPath env cgpa iq intern projects remote w).world.storage =
        storeAfterPush (backendItem cgpa iq intern projects probability prediction)
          w.storage := by
  unfold backendPath
  match remote with
  | .networkError => exact Or.inl rfl
  | .response false _ => exact Or.inl rfl
  | .response true .unparsable => exact Or.inl rfl
  | .response true .null => exact Or.inl rfl
  | .response true (.object probability prediction) =>
    simp only []
    have key : ∀ st st' : Option (Stored K),
        (st' = st ∨ st' = storeAfterPush
          (backendItem cgpa iq intern projects probability prediction) st) →
        (st' = st ∨ ∃ pr pd, FetchOutcome.response true (RespBody.object probability prediction) =
          .response true (.object pr pd) ∧
          st' = storeAfterPush (backendItem cgpa iq intern projects pr pd) st) := by
      intro st st' hh
      rcases hh with hh | hh
      · exact Or.inl hh
      · exact Or.inr ⟨probability, prediction, rfl, hh⟩
    apply key
    refine framed_then_storage (setInnerHTML _ _) _ (setInnerHTML_framed _ _)
      (fun st st' => st' = st ∨ st' = storeAfterPush
        (backendItem cgpa iq intern projects probability prediction) st)
      (fun _ => Or.inl rfl) (fun _ w2 => ?_)
      { w with requests := w.requests ++ [⟨cgpa, iq, intern, projects⟩] }
    refine framed_then_storage (setDisplay _ _) _ (setDisplay_framed _ _)
      (fun st st' => st' = st ∨ st' = storeAfterPush
        (backendItem cgpa iq intern projects probability prediction) st)
      (fun _ => Or.inl rfl) (fun _ w3 => ?_) w2
    refine framed_then_storage (setInnerText _ _) _ (setInnerText_framed _ _)
      (fun st st' => st' = st ∨ st' = storeAfterPush
        (backendItem cgpa iq intern projects probability prediction) st)
      (fun _ => Or.inl rfl) (fun _ w4 => ?_) w3
    exact Or.inr (pushThenRefresh_storage env _ w4)

/-- The records `predictPlacement` can leave in the history: with a stored
history `h`, the history at the end is `h` followed by a sublist of the backend
record and the demo record, in that order. -/
theorem predictPlacement_history_cases (env : Env K) (cgpa iq intern projects : JSNum K)
    (remote : FetchOutcome K) (w : World K) (h : List (HistoryRecord K))
    (hs : HoldsHistory w.storage h) :
    ∃ l, HoldsHistory
        (predictPlacement env cgpa iq intern projects remote w).world.storage (h ++ l) ∧
      ∀ x ∈ l, x = (demoItem env cgpa iq intern projects).toJson ∨
        ∃ probability prediction, remote = .response true (.object probability prediction) ∧
          x = (backendItem cgpa iq intern projects probability prediction).toJson := by
  unfold predictPlacement
  split
  · exact ⟨[], by simpa using hs, by simp⟩
  · refine framed_then_storage (setInnerText _ _) _ (setInnerText_framed _ _)
      (fun st st' => HoldsHistory st h → ∃ l, HoldsHistory st' (h ++ l) ∧
        ∀ x ∈ l, x = (demoItem env cgpa iq intern projects).toJson ∨
          ∃ probability prediction, remote = .response true (.object probability prediction) ∧
            x = (backendItem cgpa iq intern projects probability prediction).toJson)
      (fun st hst => ⟨[], by simpa using hst, by simp⟩) (fun _ w1 => ?_) w hs
    refine framed_then_storage (setDisplay _ _) _ (setDisplay_framed _ _)
      (fun st st' => HoldsHistory st h → ∃ l, HoldsHistory st' (h ++ l) ∧
        ∀ x ∈ l, x = (demoItem env cgpa iq intern projects).toJson ∨
          ∃ probability prediction, remote = .response true (.object probability prediction) ∧
            x = (backendItem cgpa iq intern projects probability prediction).toJson)
      (fun st hst => ⟨[], by simpa using hst, by simp⟩) (fun _ w2 => ?_) w1
    intro hs2
    simp only []
    have hb := backendPath_storage_cases env cgpa iq intern projects remote w2
    have hd := demoPath_storage_cases env cgpa iq intern projects
      (backendPath env cgpa iq intern projects remote w2).world
    -- the history after the `try` block
    have hB : ∃ l1, HoldsHistory
        (backendPath env cgpa iq intern projects remote w2).world.storage (h ++ l1) ∧
        ∀ x ∈ l1, x = (demoItem env cgpa iq intern projects).toJson ∨
          ∃ probability prediction, remote = .response true (.object probability prediction) ∧
            x = (backendItem cgpa iq intern projects probability prediction).toJson := by
      rcases hb with hb | ⟨pr, pd, hr, hb⟩
      · exact ⟨[], by rw [hb]; simpa using hs2, by simp⟩
      · refine ⟨[(backendItem cgpa iq intern projects pr pd).toJson], ?_, ?_⟩
        · rw [hb, storeAfterPush_holds _ _ h hs2]
          exact Or.inl rfl
        · intro x hx
          simp only [List.mem_singleton] at hx
          exact Or.inr ⟨pr, pd, hr, hx⟩
    obtain ⟨l1, hl1, hmem1⟩ := hB
    split
    · exact ⟨l1, hl1, hmem1⟩
    · rw [andThen_world_storage _ _ (fun _ _ => ⟨rfl, fun _ => rfl⟩)]
      rcases hd with hd | hd
      · exact ⟨l1, by rw [hd]; exact hl1, hmem1⟩
      · refine ⟨l1 ++ [(demoItem env cgpa iq intern projects).toJson], ?_, ?_⟩
        · rw [hd, storeAfterPush_holds _ _ _ hl1, List.append_assoc]
          exact Or.inl rfl
        · intro x hx
          rcases List.mem_append.mp hx with hx | hx
          · exact hmem1 x hx
          · simp only [List.mem_singleton] at hx
            exact Or.inl hx

end AppendedRecords

section OkInversion
variable {K : Type}

theorem andThen_ok_inv {α β : Type} (r : Result K α) (g : α → World K → Result K β) (b : β)
    (h : (r.andThen g).value = .ok b) :
    ∃ a, r.value = .ok a ∧ r.andThen g = g a r.world := by
  cases hr : r.value with
  | error e => rw [andThen_of_error _ _ e hr] at h; cases h
  | ok a => exact ⟨a, rfl, andThen_of_ok _ _ a hr⟩

end OkInversion

section BackendExit
variable {K : Type} [LinearOrderedField K] [FloorRing K]

/-- When the `try` block completes, the reply was a 2xx JSON object and the
backend record has been pushed. -/
theorem backendPath_ok_storage (env : Env K) (cgpa iq intern projects : JSNum K)
    (remote : FetchOutcome K) (w : World K) (u : Unit)
    (hv : (backendPath env cgpa iq intern projects remote w).value = .ok u) :
    ∃ probability prediction, remote = .response true (.object probability prediction) ∧
      (backendPath env cgpa iq intern projects remote w).world.storage =
        storeAfterPush (backendItem cgpa iq intern projects probability prediction)
          w.storage := by
  unfold backendPath at hv ⊢
  match remote with
  | .networkError => cases hv
  | .response false _ => cases hv
  | .response true .unparsable => cases hv
  | .response true .null => cases hv
  | .response true (.object probability prediction) =>
    refine ⟨probability, prediction, rfl, ?_⟩
    simp only [] at hv ⊢
    obtain ⟨_, -, e1⟩ := andThen_ok_inv _ _ _ hv
    rw [e1] at hv ⊢
    obtain ⟨_, -, e2⟩ := andThen_ok_inv _ _ _ hv
    rw [e2] at hv ⊢
    obtain ⟨_, -, e3⟩ := andThen_ok_inv _ _ _ hv
    rw [e3]
    rw [pushThenRefresh_storage, setInnerText_storage, setDisplay_storage, setInnerHTML_storage]

/-- When `predictPlacement` ends on the backend path, the backend record has
been pushed, and only that one. -/
theorem predictPlacement_backend_storage (env : Env K) (cgpa iq intern projects : JSNum K)
    (remote : FetchOutcome K) (w : World K)
    (hv : (predictPlacement env cgpa iq intern projects remote w).value = .ok .backend) :
    ∃ probability prediction, remote = .response true (.object probability prediction) ∧
      (predictPlacement env cgpa iq intern projects remote w).world.storage =
        storeAfterPush (backendItem cgpa iq intern projects probability prediction)
          w.storage := by
  unfold predictPlacement at hv ⊢
  split at hv
  · cases hv
  · rename_i hnan
    rw [if_neg hnan]
    obtain ⟨_, -, e1⟩ := andThen_ok_inv _ _ _ hv
    rw [e1] at hv ⊢
    obtain ⟨_, -, e2⟩ := andThen_ok_inv _ _ _ hv
    rw [e2] at hv ⊢
    simp only [] at hv ⊢
    split at hv
    · rename_i u hu
      obtain ⟨pr, pd, hr, hst⟩ := backendPath_ok_storage env cgpa iq intern projects remote _ u hu
      refine ⟨pr, pd, hr, ?_⟩
      simp only [hu]
      rw [hst, setDisplay_storage, setInnerText_storage]
    · rename_i e he
      exfalso
      cases hd : (demoPath env cgpa iq intern projects
          (backendPath env cgpa iq intern projects remote
            (setDisplay "result-card" "none"
              (setInnerText "status" "Predicting..." w).world).world).world).value with
      | error e' => rw [andThen_of_error _ _ e' hd] at hv; cases hv
      | ok a => rw [andThen_of_ok _ _ a hd] at hv; cases hv

end BackendExit

/-! ## The statistics of the analytics page -/

section SmallIntegers
variable {K : Type} [LinearOrderedField K]

theorem intText_of_small (hostText : K → String) (n : ℤ) (h0 : 0 ≤ n) (h1 : n ≤ 100) :
    intText hostText (some n) = toString n := by
  have : |n| < 10 ^ 21 := by
    rw [abs_of_nonneg h0]
    omega
  simp only [intText, if_pos this]

end SmallIntegers

section AnalyticsValues
variable {K : Type} [LinearOrderedField K] [FloorRing K]

theorem computeAnalytics_eq (env : Env K) (h : List (HistoryRecord K)) :
    computeAnalytics env h =
      { avgCgpa := toFixed env.numberToString 2 (doubleMean (h.map fun x => x.cgpa.toNumber))
        avgIq := mathRound (doubleMean (h.map fun x => x.iq.toNumber))
        internPct := mathRound
          (doublePercent (K := K) (h.countP fun x => decide (x.intern = .num 1)) h.length)
        placementPct := mathRound
          (doublePercent (K := K) (h.countP fun x => decide (x.cls = .num 1)) h.length)
        avgProjects :=
          toFixed env.numberToString 1 (doubleMean (h.map fun x => x.projects.toNumber)) } := by
  simp only [computeAnalytics, reduceSum_eq_doubleSum, countOnes_eq_countP, doubleMean,
    doublePercent, List.length_map]

theorem toFixed_eq (hostText : K → String) (digits : ℕ) (hd : digits ≠ 0) (x : K) :
    toFixed hostText digits x =
      if 10 ^ 21 ≤ |x| then hostText x
      else (if x < 0 then "-" else "") ++ decimalText digits ⌊|x| * 10 ^ digits + 1 / 2⌋₊ := by
  simp only [toFixed, decimalText, padZeros, if_neg hd]

theorem toFixed_of_nonneg (hostText : K → String) (digits : ℕ) (hd : digits ≠ 0) (x : K)
    (n : ℕ) (h0 : 0 ≤ x) (h1 : x < 10 ^ 21) (hn : ⌊x * 10 ^ digits + 1 / 2⌋₊ = n) :
    toFixed hostText digits x = decimalText digits n := by
  rw [toFixed_eq _ _ hd, abs_of_nonneg h0, if_neg (not_le.mpr h1), if_neg (not_lt.mpr h0), hn,
    String.empty_append]

/-- The double sum of natural numbers is their sum, below `2 ^ 53`. -/
theorem foldl_roundDouble_natCast (l : List ℕ) :
    ∀ s : ℕ, s + l.sum < 2 ^ 53 →
      (l.map (Nat.cast : ℕ → K)).foldl (fun s v => roundDouble (s + v)) (s : K) =
        ((s + l.sum : ℕ) : K) := by
  induction l with
  | nil => intro s _; simp
  | cons a l ih =>
    intro s h
    rw [List.sum_cons] at h
    have hd : IsDouble (((s + a : ℕ) : ℤ) : K) := isDouble_intCast _ (by
      rw [abs_of_nonneg (by positivity)]
      have : ((s + a : ℕ) : ℤ) < ((2 ^ 53 : ℕ) : ℤ) := by
        apply Int.ofNat_lt.mpr
        omega
      simpa using this)
    have e : roundDouble ((s : K) + (a : K)) = ((s + a : ℕ) : K) := by
      have := roundDouble_of_isDouble _ hd
      push_cast at this ⊢
      exact this
    rw [List.map_cons, List.foldl_cons, e, ih (s + a) (by omega), List.sum_cons, Nat.add_assoc]

theorem doubleSum_natCast (l : List ℕ) (h : l.sum < 2 ^ 53) :
    doubleSum (l.map (Nat.cast : ℕ → K)) = (l.sum : K) := by
  have := foldl_roundDouble_natCast (K := K) l 0 (by omega)
  simpa [doubleSum] using this

/-- A percentage of `k` out of `n ≥ k` rounds to an integer between 0 and 100. -/
theorem mathRound_doublePercent_bounds (k n : ℕ) (hk : k ≤ n) (hn : 0 < n) :
    0 ≤ mathRound (doublePercent (K := K) k n) ∧ mathRound (doublePercent (K := K) k n) ≤ 100 := by
  have hnK : (0 : K) < (n : K) := by exact_mod_cast hn
  have hkK : (k : K) ≤ (n : K) := by exact_mod_cast hk
  have hq0 : (0 : K) ≤ (k : K) / (n : K) := by positivity
  have hq1 : (k : K) / (n : K) ≤ 1 := by rw [div_le_one hnK]; exact hkK
  obtain ⟨l, u⟩ := roundDouble_mem_Icc _ 0 1 isDouble_zero isDouble_one hq0 hq1
  exact percentage_bounds _ l u

/-- The texts of the four KPI fields after `loadPredictionAnalytics` on a stored,
non-empty history. -/
theorem loadPredictionAnalytics_shows (env : Env K) (w : World K)
    (h : List (HistoryRecord K)) (hs : w.storage = some (.json (.arr h))) (hne : h ≠ [])
    (hpage : w.HasElements ["avgCgpa", "internPercent", "avgProjects", "placementRate"]) :
    (loadPredictionAnalytics env w).world.innerTextOf "avgCgpa" =
      some (computeAnalytics env h).avgCgpa ∧
    (loadPredictionAnalytics env w).world.innerTextOf "internPercent" =
      some (intText env.numberToString (some (computeAnalytics env h).internPct) ++ "%") ∧
    (loadPredictionAnalytics env w).world.innerTextOf "avgProjects" =
      some (computeAnalytics env h).avgProjects ∧
    (loadPredictionAnalytics env w).world.innerTextOf "placementRate" =
      some (intText env.numberToString (some (computeAnalytics env h).placementPct) ++ "%") := by
  have hpage0 : (destroyAllHistoryCharts w).HasElements
      ["avgCgpa", "internPercent", "avgProjects", "placementRate"] := hpage
  obtain ⟨k1, k2, k3, k4, kdom⟩ := kpi_fields_after_assignments
    (computeAnalytics env h).avgCgpa
    (intText env.numberToString (some (computeAnalytics env h).internPct) ++ "%")
    (computeAnalytics env h).avgProjects
    (intText env.numberToString (some (computeAnalytics env h).placementPct) ++ "%") _ hpage0
  have hlen : (Json.arr h).lengthIsZero = false := by
    cases h with
    | nil => exact absurd rfl hne
    | cons a l => simp [Json.lengthIsZero]
  have key : (loadPredictionAnalytics env w).world.dom =
      (setInnerText "placementRate"
        (intText env.numberToString (some (computeAnalytics env h).placementPct) ++ "%")
        (setInnerText "avgProjects" (computeAnalytics env h).avgProjects
          (setInnerText "internPercent"
            (intText env.numberToString (some (computeAnalytics env h).internPct) ++ "%")
            (setInnerText "avgCgpa" (computeAnalytics env h).avgCgpa
              (destroyAllHistoryCharts w)).world).world).world).world.dom := by
    unfold loadPredictionAnalytics getHistory
    rw [hs]
    simp only [parseOrEmpty, parseStored, Json.truthy, if_true, hlen, Bool.false_eq_true,
      if_false]
    rw [andThen_of_ok _ _ () k1, andThen_of_ok _ _ () k2, andThen_of_ok _ _ () k3,
      andThen_of_ok _ _ () k4, buildHistoryCharts_dom]
  exact kdom (loadPredictionAnalytics env w).world key

theorem doubleMean_natCast (l : List ℕ) (h : l.sum < 2 ^ 53) :
    doubleMean (l.map (Nat.cast : ℕ → K)) = roundDouble ((l.sum : K) / (l.length : K)) := by
  unfold doubleMean
  rw [doubleSum_natCast l h, List.length_map]

/-- The text of `toFixed` on a value that is not negative and below 1e21. -/
theorem fixedText_of_nonneg (hostText : K → String) (digits : ℕ) (x : K) (n : ℕ)
    (h0 : 0 ≤ x) (h1 : x < 10 ^ 21) (hn : ⌊x * 10 ^ digits + 1 / 2⌋₊ = n) :
    (if 10 ^ 21 ≤ |x| then hostText x
      else (if x < 0 then "-" else "") ++ decimalText digits ⌊|x| * 10 ^ digits + 1 / 2⌋₊) =
      decimalText digits n := by
  rw [abs_of_nonneg h0, if_neg (not_le.mpr h1), if_neg (not_lt.mpr h0), hn, String.empty_append]

end AnalyticsValues

/-! ## Worked values -/

section WorkedValues

theorem mathRound_doublePercent_23_40 :
    mathRound (doublePercent (K := ℝ) 23 40) = 57 := by
  have hq : roundDouble ((23 : ℝ) / 40) = (2589569785738035 / 4503599627370496 : ℝ) := by
    rw [roundDouble_eq _ (-1) (5179139571476070) (by norm_num)
      (by rw [abs_of_pos (by norm_num)]; norm_num)
      (by rw [abs_of_pos (by norm_num)]; norm_num)
      (by rw [abs_lt]; constructor <;> norm_num)]
    norm_num
  have hp : roundDouble ((2589569785738035 / 4503599627370496 : ℝ) * 100) = (8092405580431359 / 140737488355328 : ℝ) := by
    rw [roundDouble_eq _ (5) (8092405580431359) (by norm_num)
      (by rw [abs_of_pos (by norm_num)]; norm_num)
      (by rw [abs_of_pos (by norm_num)]; norm_num)
      (by rw [abs_lt]; constructor <;> norm_num)]
    norm_num
  unfold doublePercent mathRound
  norm_num only [Nat.cast_ofNat]
  rw [hq, hp, Int.floor_eq_iff]
  constructor <;> norm_num

theorem mathRound_doublePercent_1_3 :
    mathRound (doublePercent (K := ℝ) 1 3) = 33 := by
  have hq : roundDouble ((1 : ℝ) / 3) = (6004799503160661 / 18014398509481984 : ℝ) := by
    rw [roundDouble_eq _ (-2) (6004799503160661) (by norm_num)
      (by rw [abs_of_pos (by norm_num)]; norm_num)
      (by rw [abs_of_pos (by norm_num)]; norm_num)
      (by rw [abs_lt]; constructor <;> norm_num)]
    norm_num
  have hp : roundDouble ((6004799503160661 / 18014398509481984 : ℝ) * 100) = (2345624805922133 / 70368744177664 : ℝ) := by
    rw [roundDouble_eq _ (5) (4691249611844266) (by norm_num)
      (by rw [abs_of_pos (by norm_num)]; norm_num)
      (by rw [abs_of_pos (by norm_num)]; norm_num)
      (by rw [abs_lt]; constructor <;> norm_num)]
    norm_num
  unfold doublePercent mathRound
  norm_num only [Nat.cast_ofNat]
  rw [hq, hp, Int.floor_eq_iff]
  constructor <;> norm_num

theorem mathRound_doublePercent_2_3 :
    mathRound (doublePercent (K := ℝ) 2 3) = 67 := by
  have hq : roundDouble ((2 : ℝ) / 3) = (6004799503160661 / 9007199254740992 : ℝ) := by
    rw [roundDouble_eq _ (-1) (6004799503160661) (by norm_num)
      (by rw [abs_of_pos (by norm_num)]; norm_num)
      (by rw [abs_of_pos (by norm_num)]; norm_num)
      (by rw [abs_lt]; constructor <;> norm_num)]
    norm_num
  have hp : roundDouble ((6004799503160661 / 9007199254740992 : ℝ) * 100) = (2345624805922133 / 35184372088832 : ℝ) := by
    rw [roundDouble_eq _ (6) (4691249611844266) (by norm_num)
      (by rw [abs_of_pos (by norm_num)]; norm_num)
      (by rw [abs_of_pos (by norm_num)]; norm_num)
      (by rw [abs_lt]; constructor <;> norm_num)]
    norm_num
  unfold doublePercent mathRound
  norm_num only [Nat.cast_ofNat]
  rw [hq, hp, Int.floor_eq_iff]
  constructor <;> norm_num

theorem tenths_quotient_14_40 :
    ⌊roundDouble ((14 : ℝ) / 40) * 10 ^ 1 + 1 / 2⌋₊ = 3 := by
  have hq : roundDouble ((14 : ℝ) / 40) = (3152519739159347 / 9007199254740992 : ℝ) := by
    rw [roundDouble_eq _ (-2) (6305039478318694) (by norm_num)
      (by rw [abs_of_pos (by norm_num)]; norm_num)
      (by rw [abs_of_pos (by norm_num)]; norm_num)
      (by rw [abs_lt]; constructor <;> norm_num)]
    norm_num
  rw [hq, Nat.floor_eq_iff (by positivity)]
  constructor <;> norm_num

theorem tenths_quotient_14_40_bounds :
    0 ≤ roundDouble ((14 : ℝ) / 40) ∧ roundDouble ((14 : ℝ) / 40) < 10 ^ 21 := by
  have hq : roundDouble ((14 : ℝ) / 40) = (3152519739159347 / 9007199254740992 : ℝ) := by
    rw [roundDouble_eq _ (-2) (6305039478318694) (by norm_num)
      (by rw [abs_of_pos (by norm_num)]; norm_num)
      (by rw [abs_of_pos (by norm_num)]; norm_num)
      (by rw [abs_lt]; constructor <;> norm_num)]
    norm_num
  rw [hq]
  constructor <;> norm_num

theorem hundredths_quotient_25_3 :
    ⌊roundDouble ((25 : ℝ) / 3) * 10 ^ 2 + 1 / 2⌋₊ = 833 := by
  have hq : roundDouble ((25 : ℝ) / 3) = (4691249611844267 / 562949953421312 : ℝ) := by
    rw [roundDouble_eq _ (3) (4691249611844267) (by norm_num)
      (by rw [abs_of_pos (by norm_num)]; norm_num)
      (by rw [abs_of_pos (by norm_num)]; norm_num)
      (by rw [abs_lt]; constructor <;> norm_num)]
    norm_num
  rw [hq, Nat.floor_eq_iff (by positivity)]
  constructor <;> norm_num

theorem hundredths_quotient_25_3_bounds :
    0 ≤ roundDouble ((25 : ℝ) / 3) ∧ roundDouble ((25 : ℝ) / 3) < 10 ^ 21 := by
  have hq : roundDouble ((25 : ℝ) / 3) = (4691249611844267 / 562949953421312 : ℝ) := by
    rw [roundDouble_eq _ (3) (4691249611844267) (by norm_num)
      (by rw [abs_of_pos (by norm_num)]; norm_num)
      (by rw [abs_of_pos (by norm_num)]; norm_num)
      (by rw [abs_lt]; constructor <;> norm_num)]
    norm_num
  rw [hq]
  constructor <;> norm_num

theorem tenths_quotient_8_3 :
    ⌊roundDouble ((8 : ℝ) / 3) * 10 ^ 1 + 1 / 2⌋₊ = 27 := by
  have hq : roundDouble ((8 : ℝ) / 3) = (6004799503160661 / 2251799813685248 : ℝ) := by
    rw [roundDouble_eq _ (1) (6004799503160661) (by norm_num)
      (by rw [abs_of_pos (by norm_num)]; norm_num)
      (by rw [abs_of_pos (by norm_num)]; norm_num)
      (by rw [abs_lt]; constructor <;> norm_num)]
    norm_num
  rw [hq, Nat.floor_eq_iff (by positivity)]
  constructor <;> norm_num

theorem tenths_quotient_8_3_bounds :
    0 ≤ roundDouble ((8 : ℝ) / 3) ∧ roundDouble ((8 : ℝ) / 3) < 10 ^ 21 := by
  have hq : roundDouble ((8 : ℝ) / 3) = (6004799503160661 / 2251799813685248 : ℝ) := by
    rw [roundDouble_eq _ (1) (6004799503160661) (by norm_num)
      (by rw [abs_of_pos (by norm_num)]; norm_num)
      (by rw [abs_of_pos (by norm_num)]; norm_num)
      (by rw [abs_lt]; constructor <;> norm_num)]
    norm_num
  rw [hq]
  constructor <;> norm_num

theorem mathRound_quotient_331_3 :
    mathRound (roundDouble ((331 : ℝ) / 3)) = 110 := by
  have hq : roundDouble ((331 : ℝ) / 3) = (7764018107602261 / 70368744177664 : ℝ) := by
    rw [roundDouble_eq _ (6) (7764018107602261) (by norm_num)
      (by rw [abs_of_pos (by norm_num)]; norm_num)
      (by rw [abs_of_pos (by norm_num)]; norm_num)
      (by rw [abs_lt]; constructor <;> norm_num)]
    norm_num
  unfold mathRound
  rw [hq, Int.floor_eq_iff]
  constructor <;> norm_num

theorem doubleMean_cgpa_pair :
    doubleMean [(9 : ℝ), roundDouble 7.79] = (2362982429485957 / 281474976710656 : ℝ) := by
  have hb : roundDouble ((7.79 : ℝ)) = (8770760274304041 / 1125899906842624 : ℝ) := by
    rw [roundDouble_eq _ (2) (8770760274304041) (by norm_num)
      (by rw [abs_of_pos (by norm_num)]; norm_num)
      (by rw [abs_of_pos (by norm_num)]; norm_num)
      (by rw [abs_lt]; constructor <;> norm_num)]
    norm_num
  have h1 : roundDouble ((0 : ℝ) + 9) = (9 : ℝ) := by
    rw [roundDouble_eq _ (3) (5066549580791808) (by norm_num)
      (by rw [abs_of_pos (by norm_num)]; norm_num)
      (by rw [abs_of_pos (by norm_num)]; norm_num)
      (by rw [abs_lt]; constructor <;> norm_num)]
    norm_num
  have h2 : roundDouble ((9 : ℝ) + (8770760274304041 / 1125899906842624 : ℝ)) = (2362982429485957 / 140737488355328 : ℝ) := by
    rw [roundDouble_eq _ (4) (4725964858971914) (by norm_num)
      (by rw [abs_of_pos (by norm_num)]; norm_num)
      (by rw [abs_of_pos (by norm_num)]; norm_num)
      (by rw [abs_lt]; constructor <;> norm_num)]
    norm_num
  have h3 : roundDouble ((2362982429485957 / 281474976710656 : ℝ)) = (2362982429485957 / 281474976710656 : ℝ) := by
    rw [roundDouble_eq _ (3) (4725964858971914) (by norm_num)
      (by rw [abs_of_pos (by norm_num)]; norm_num)
      (by rw [abs_of_pos (by norm_num)]; norm_num)
      (by rw [abs_lt]; constructor <;> norm_num)]
    norm_num
  unfold doubleMean doubleSum
  simp only [List.foldl_cons, List.foldl_nil, List.length_cons, List.length_nil]
  rw [hb, h1, h2]
  norm_num only [Nat.cast_ofNat]
  exact h3

theorem roundDouble_cgpa_literal :
    roundDouble (7.79 : ℝ) = (8770760274304041 / 1125899906842624 : ℝ) := by
  have hb : roundDouble ((7.79 : ℝ)) = (8770760274304041 / 1125899906842624 : ℝ) := by
    rw [roundDouble_eq _ (2) (8770760274304041) (by norm_num)
      (by rw [abs_of_pos (by norm_num)]; norm_num)
      (by rw [abs_of_pos (by norm_num)]; norm_num)
      (by rw [abs_lt]; constructor <;> norm_num)]
    norm_num
  exact hb

theorem threeRecords_cgpa :
    doubleMean ((threeRecords (K := ℝ)).map fun x => x.cgpa.toNumber) =
      roundDouble ((25 : ℝ) / 3) := by
  have e : ((threeRecords (K := ℝ)).map fun x => x.cgpa.toNumber) =
      ([8, 9, 8] : List ℕ).map Nat.cast := by
    simp [threeRecords, FiniteRecord.stored, JField.toNumber]
  rw [e, doubleMean_natCast _ (by norm_num)]
  norm_num

theorem threeRecords_iq :
    doubleMean ((threeRecords (K := ℝ)).map fun x => x.iq.toNumber) =
      roundDouble ((331 : ℝ) / 3) := by
  have e : ((threeRecords (K := ℝ)).map fun x => x.iq.toNumber) =
      ([110, 100, 121] : List ℕ).map Nat.cast := by
    simp [threeRecords, FiniteRecord.stored, JField.toNumber]
  rw [e, doubleMean_natCast _ (by norm_num)]
  norm_num

theorem threeRecords_projects :
    doubleMean ((threeRecords (K := ℝ)).map fun x => x.projects.toNumber) =
      roundDouble ((8 : ℝ) / 3) := by
  have e : ((threeRecords (K := ℝ)).map fun x => x.projects.toNumber) =
      ([3, 2, 3] : List ℕ).map Nat.cast := by
    simp [threeRecords, FiniteRecord.stored, JField.toNumber]
  rw [e, doubleMean_natCast _ (by norm_num)]
  norm_num

theorem threeRecords_counts :
    ((threeRecords (K := ℝ)).countP fun x => decide (x.intern = .num 1)) = 1 ∧
    ((threeRecords (K := ℝ)).countP fun x => decide (x.cls = .num 1)) = 2 ∧
    (threeRecords (K := ℝ)).length = 3 := by
  refine ⟨?_, ?_, rfl⟩ <;> simp [threeRecords, FiniteRecord.stored, List.countP_cons]

theorem fortyRecords_projects :
    doubleMean ((fortyRecords (K := ℝ)).map fun x => x.projects.toNumber) =
      roundDouble ((14 : ℝ) / 40) := by
  have e : ((fortyRecords (K := ℝ)).map fun x => x.projects.toNumber) =
      (List.replicate 14 1 ++ List.replicate 26 0 : List ℕ).map Nat.cast := by
    simp [fortyRecords, FiniteRecord.stored, JField.toNumber]
  rw [e, doubleMean_natCast _ (by simp)]
  simp

theorem fortyRecords_counts :
    ((fortyRecords (K := ℝ)).countP fun x => decide (x.intern = .num 1)) = 23 ∧
    (fortyRecords (K := ℝ)).length = 40 ∧
    ((fortyRecords (K := ℝ)).map fun x => x.projects.toNumber).sum = 14 := by
  refine ⟨?_, ?_, ?_⟩
  · simp [fortyRecords, FiniteRecord.stored, List.countP_append, List.countP_replicate]
  · simp [fortyRecords]
  · simp [fortyRecords, FiniteRecord.stored, JField.toNumber]
    norm_num

theorem cgpaPair_cgpa :
    ((cgpaPair (K := ℝ)).map fun x => x.cgpa.toNumber) = [(9 : ℝ), roundDouble 7.79] := by
  simp [cgpaPair, FiniteRecord.stored, JField.toNumber]

end WorkedValues

/-! ## The backend path on a complete page -/

section ChartsSucceed
variable {K : Type} [LinearOrderedField K]

theorem buildHistoryCharts_ok (env : Env K) (xs : List (HistoryRecord K)) (w : World K)
    (hcharts : ∀ id, env.chartError id = none) : (buildHistoryCharts env xs w).value = .ok () := by
  simp [buildHistoryCharts, newChart, hcharts]

theorem isDouble_of_eq (c : K) (m e : ℤ) (hm : |m| < 2 ^ 53) (he : -1074 ≤ e)
    (h : c = (m : K) * (2 : K) ^ e) : IsDouble c := ⟨m, e, hm, he, h⟩

theorem updateHomeKPIsFromHistory_ok (w : World K) (xs : List (HistoryRecord K))
    (hs : w.storage = some (.json (.arr xs))) :
    (updateHomeKPIsFromHistory w).value = .ok () := by
  unfold updateHomeKPIsFromHistory getHistory
  rw [hs]
  simp only [parseOrEmpty, parseStored, Json.truthy, if_true]
  split
  · rfl
  · split
    · rfl
    · split <;> rfl

end ChartsSucceed

section BackendSuccess
variable {K : Type} [LinearOrderedField K] [FloorRing K]

theorem loadPredictionAnalytics_ok (env : Env K) (w : World K) (xs : List (HistoryRecord K))
    (hs : w.storage = some (.json (.arr xs))) (hne : xs ≠ [])
    (hpage : w.HasElements ["avgCgpa", "internPercent", "avgProjects", "placementRate"])
    (hcharts : ∀ id, env.chartError id = none) :
    (loadPredictionAnalytics env w).value = .ok () := by
  have hpage0 : (destroyAllHistoryCharts w).HasElements
      ["avgCgpa", "internPercent", "avgProjects", "placementRate"] := hpage
  obtain ⟨k1, k2, k3, k4, -⟩ := kpi_fields_after_assignments
    (computeAnalytics env xs).avgCgpa
    (intText env.numberToString (some (computeAnalytics env xs).internPct) ++ "%")
    (computeAnalytics env xs).avgProjects
    (intText env.numberToString (some (computeAnalytics env xs).placementPct) ++ "%") _ hpage0
  have hlen : (Json.arr xs).lengthIsZero = false := by
    cases xs with
    | nil => exact absurd rfl hne
    | cons a l => simp [Json.lengthIsZero]
  unfold loadPredictionAnalytics getHistory
  rw [hs]
  simp only [parseOrEmpty, parseStored, Json.truthy, if_true, hlen, Bool.false_eq_true,
    if_false]
  rw [andThen_of_ok _ _ () k1, andThen_of_ok _ _ () k2, andThen_of_ok _ _ () k3,
    andThen_of_ok _ _ () k4, buildHistoryCharts_ok env xs _ hcharts]

/-- On a page that has every element the script writes, with chart constructors
that do not throw, a 2xx reply with a JSON object ends `predictPlacement` on the
backend path, with the backend record appended. -/
theorem predictPlacement_backend_ok (env : Env K) (c i p : K) (intern : JSNum K)
    (probability : Option K) (prediction : Option ℤ) (w : World K)
    (h : List (HistoryRecord K))
    (hpage : w.HasElements ["status", "result-card", "result-text", "avgCgpa", "internPercent",
      "avgProjects", "placementRate"])
    (hcharts : ∀ id, env.chartError id = none) (hs : HoldsHistory w.storage h) :
    (predictPlacement env (.num c) (.num i) intern (.num p)
        (.response true (.object probability prediction)) w).value = .ok .backend ∧
    (predictPlacement env (.num c) (.num i) intern (.num p)
        (.response true (.object probability prediction)) w).world.storage =
      some (.json (.arr (h ++
        [(backendItem (.num c) (.num i) intern (.num p) probability prediction).toJson]))) := by
  have hpage3 : w.HasElements ["status", "result-card", "result-text"] := by
    intro id hid
    apply hpage
    simp only [List.mem_cons, List.mem_singleton, List.not_mem_nil, or_false] at hid ⊢
    tauto
  have hpage4 : w.HasElements ["avgCgpa", "internPercent", "avgProjects", "placementRate"] := by
    intro id hid
    apply hpage
    simp only [List.mem_cons, List.mem_singleton, List.not_mem_nil, or_false] at hid ⊢
    tauto
  obtain ⟨W, hWs, hWd, -, hpp⟩ := predictPlacement_valid env c i p intern
    (.response true (.object probability prediction)) w hpage3
  have hpageW : W.HasElements ["status", "result-card", "result-text"] := by
    intro id hid; rw [hWd]; exact hpage3 id hid
  obtain ⟨W2, hW2s, hW2d, hbp⟩ := backendPath_object env (.num c) (.num i) intern (.num p)
    probability prediction W hpageW
  have hsW2 : HoldsHistory W2.storage h := by rw [hW2s, hWs]; exact hs
  have hpush := pushToHistory_ok (backendItem (.num c) (.num i) intern (.num p) probability
    prediction) W2 h hsW2
  have hpst : (pushToHistory (backendItem (.num c) (.num i) intern (.num p) probability
      prediction) W2).world.storage = some (.json (.arr (h ++
        [(backendItem (.num c) (.num i) intern (.num p) probability prediction).toJson]))) := by
    rw [pushToHistory_storage, storeAfterPush_holds _ _ h hsW2]
  have hpageP : (pushToHistory (backendItem (.num c) (.num i) intern (.num p) probability
      prediction) W2).world.HasElements
      ["avgCgpa", "internPercent", "avgProjects", "placementRate"] := by
    intro id hid
    rw [pushToHistory_dom, hW2d, hWd]
    exact hpage4 id hid
  have hload := loadPredictionAnalytics_ok env _ _ hpst (by simp) hpageP hcharts
  have hstL : (loadPredictionAnalytics env (pushToHistory (backendItem (.num c) (.num i)
      intern (.num p) probability prediction) W2).world).world.storage = some (.json (.arr (h ++
        [(backendItem (.num c) (.num i) intern (.num p) probability prediction).toJson]))) := by
    rw [(loadPredictionAnalytics_framed env _).1, hpst]
  have hup := updateHomeKPIsFromHistory_ok _ _ hstL
  have hval : (backendPath env (.num c) (.num i) intern (.num p)
      (.response true (.object probability prediction)) W).value = .ok () := by
    rw [hbp, andThen_of_ok _ _ () hpush, andThen_of_ok _ _ () hload]
    exact hup
  have hst : (backendPath env (.num c) (.num i) intern (.num p)
      (.response true (.object probability prediction)) W).world.storage =
      some (.json (.arr (h ++
        [(backendItem (.num c) (.num i) intern (.num p) probability prediction).toJson]))) := by
    rw [hbp, pushThenRefresh_storage, storeAfterPush_holds _ _ h hsW2]
  rw [hpp]
  simp only [hval]
  exact ⟨trivial, hst⟩

end BackendSuccess

/-! ## The demo model near probability 1 -/

section NearOne
variable {K : Type} [LinearOrderedField K] [FloorRing K]

/-- With an exponential of at most 1/512, the probability is at least 511/512. -/
theorem doubleProb_near_one (exp : K → K) (z : K) (h0 : 0 ≤ exp (-z))
    (h1 : exp (-z) ≤ 1 / 512) :
    511 / 512 ≤ doubleProb exp z ∧ doubleProb exp z ≤ 1 := by
  have d1 : IsDouble ((513 : K) / 512) := isDouble_of_eq _ 513 (-9) (by norm_num) (by norm_num)
    (by norm_num)
  have d2 : IsDouble ((511 : K) / 512) := isDouble_of_eq _ 511 (-9) (by norm_num) (by norm_num)
    (by norm_num)
  obtain ⟨l, u⟩ := roundDouble_mem_Icc (1 + exp (-z)) 1 (513 / 512) isDouble_one d1
    (by linarith) (by linarith)
  have hpos : (0 : K) < roundDouble (1 + exp (-z)) := by linarith
  unfold doubleProb
  refine roundDouble_mem_Icc _ _ _ d2 isDouble_one ?_ ?_
  · rw [le_div_iff₀ hpos]
    linarith
  · rw [div_le_one hpos]
    exact l

/-- A probability of at least 511/512 shows as 100 percent. -/
theorem percentage_hundred (q : K) (h0 : 511 / 512 ≤ q) (h1 : q ≤ 1) :
    ⌊roundDouble (q * 100) + 1 / 2⌋ = 100 := by
  have d : IsDouble ((12775 : K) / 128) := isDouble_of_eq _ 12775 (-7) (by norm_num)
    (by norm_num) (by norm_num)
  obtain ⟨l, u⟩ := roundDouble_mem_Icc (q * 100) (12775 / 128) 100 d isDouble_hundred
    (by linarith) (by linarith)
  rw [Int.floor_eq_iff]
  push_cast
  constructor <;> linarith

end NearOne

/-! ## The correctly rounded exponential -/

section RoundedExponential

theorem roundDouble_exp_nonneg (x : ℝ) : 0 ≤ roundDouble (Real.exp x) :=
  le_roundDouble _ 0 isDouble_zero (Real.exp_pos x).le

theorem exp_neg_nine_le : Real.exp (-9) ≤ 1 / 512 := by
  have h2 : (2 : ℝ) ≤ Real.exp 1 := by
    have := Real.add_one_le_exp (1 : ℝ)
    linarith
  have h9 : Real.exp 9 = Real.exp 1 ^ 9 := by
    rw [← Real.exp_nat_mul]
    norm_num
  have hp : (2 : ℝ) ^ 9 ≤ Real.exp 1 ^ 9 := pow_le_pow_left₀ (by norm_num) h2 9
  rw [Real.exp_neg, h9]
  rw [one_div, inv_le_inv₀ (by positivity) (by norm_num)]
  linarith

theorem roundDouble_exp_small (x : ℝ) (hx : x ≤ -9) : roundDouble (Real.exp x) ≤ 1 / 512 := by
  have d : IsDouble ((1 : ℝ) / 512) := isDouble_of_eq _ 1 (-9) (by norm_num) (by norm_num)
    (by norm_num)
  exact roundDouble_le _ _ d (le_trans (Real.exp_le_exp.mpr hx) exp_neg_nine_le)

/-- The exponential of `3 * 2 ^ -53` lies strictly above the middle of the doubles
`1 + 2 ^ -52` and `1 + 2 ^ -51`, and rounds to the second. -/
theorem roundDouble_exp_borderline :
    roundDouble (Real.exp (3 / 9007199254740992)) =
      (2251799813685249 / 2251799813685248 : ℝ) := by
  have hlo : (3 / 9007199254740992 : ℝ) + 1 < Real.exp (3 / 9007199254740992) :=
    Real.add_one_lt_exp (by norm_num)
  have hup := Real.abs_exp_sub_one_sub_id_le (x := (3 / 9007199254740992 : ℝ))
    (by rw [abs_of_pos (by norm_num)]; norm_num)
  rw [abs_le] at hup
  have hhi : Real.exp (3 / 9007199254740992) ≤
      1 + 3 / 9007199254740992 + (3 / 9007199254740992 : ℝ) ^ 2 := by linarith [hup.2]
  have hpos := Real.exp_pos (3 / 9007199254740992 : ℝ)
  rw [roundDouble_eq _ 0 4503599627370498 (by norm_num)
    (by rw [abs_of_pos hpos]; norm_num)
    (by rw [abs_of_pos hpos]; norm_num at hhi ⊢; linarith)
    (by
      rw [abs_lt]
      norm_num at hhi ⊢
      constructor <;> linarith)]
  norm_num

end RoundedExponential

/-! ## Worked values of the prediction -/

section PredictionValues

/-- The score of the worked example, 9.240000000000002 as a double. -/
theorem doubleZ_example :
    doubleZ (8 : ℝ) 110 1 3 = (1300414392403231 / 140737488355328 : ℝ) := by
  have h09 : roundDouble ((0.9 : ℝ)) = (8106479329266893 / 9007199254740992 : ℝ) := by
    rw [roundDouble_eq _ (-1) (8106479329266893) (by norm_num)
      (by rw [abs_of_pos (by norm_num)]; norm_num)
      (by rw [abs_of_pos (by norm_num)]; norm_num)
      (by rw [abs_lt]; constructor <;> norm_num)]
    norm_num
  have hm1 : roundDouble ((8106479329266893 / 9007199254740992 : ℝ) * (8 : ℝ)) = (8106479329266893 / 1125899906842624 : ℝ) := by
    rw [roundDouble_eq _ (2) (8106479329266893) (by norm_num)
      (by rw [abs_of_pos (by norm_num)]; norm_num)
      (by rw [abs_of_pos (by norm_num)]; norm_num)
      (by rw [abs_lt]; constructor <;> norm_num)]
    norm_num
  have hs1 : roundDouble ((-2 : ℝ) + (8106479329266893 / 1125899906842624 : ℝ)) = (5854679515581645 / 1125899906842624 : ℝ) := by
    rw [roundDouble_eq _ (2) (5854679515581645) (by norm_num)
      (by rw [abs_of_pos (by norm_num)]; norm_num)
      (by rw [abs_of_pos (by norm_num)]; norm_num)
      (by rw [abs_lt]; constructor <;> norm_num)]
    norm_num
  have h002 : roundDouble ((0.02 : ℝ)) = (5764607523034235 / 288230376151711744 : ℝ) := by
    rw [roundDouble_eq _ (-6) (5764607523034235) (by norm_num)
      (by rw [abs_of_pos (by norm_num)]; norm_num)
      (by rw [abs_of_pos (by norm_num)]; norm_num)
      (by rw [abs_lt]; constructor <;> norm_num)]
    norm_num
  have hm2 : roundDouble ((5764607523034235 / 288230376151711744 : ℝ) * (110 : ℝ)) = (2476979795053773 / 1125899906842624 : ℝ) := by
    rw [roundDouble_eq _ (1) (4953959590107546) (by norm_num)
      (by rw [abs_of_pos (by norm_num)]; norm_num)
      (by rw [abs_of_pos (by norm_num)]; norm_num)
      (by rw [abs_lt]; constructor <;> norm_num)]
    norm_num
  have hs2 : roundDouble ((5854679515581645 / 1125899906842624 : ℝ) + (2476979795053773 / 1125899906842624 : ℝ)) = (4165829655317709 / 562949953421312 : ℝ) := by
    rw [roundDouble_eq _ (2) (8331659310635418) (by norm_num)
      (by rw [abs_of_pos (by norm_num)]; norm_num)
      (by rw [abs_of_pos (by norm_num)]; norm_num)
      (by rw [abs_lt]; constructor <;> norm_num)]
    norm_num
  have h13 : roundDouble ((1.3 : ℝ)) = (5854679515581645 / 4503599627370496 : ℝ) := by
    rw [roundDouble_eq _ (0) (5854679515581645) (by norm_num)
      (by rw [abs_of_pos (by norm_num)]; norm_num)
      (by rw [abs_of_pos (by norm_num)]; norm_num)
      (by rw [abs_lt]; constructor <;> norm_num)]
    norm_num
  have hm3 : roundDouble ((5854679515581645 / 4503599627370496 : ℝ) * (1 : ℝ)) = (5854679515581645 / 4503599627370496 : ℝ) := by
    rw [roundDouble_eq _ (0) (5854679515581645) (by norm_num)
      (by rw [abs_of_pos (by norm_num)]; norm_num)
      (by rw [abs_of_pos (by norm_num)]; norm_num)
      (by rw [abs_lt]; constructor <;> norm_num)]
    norm_num
  have hs3 : roundDouble ((4165829655317709 / 562949953421312 : ℝ) + (5854679515581645 / 4503599627370496 : ℝ)) = (4897664594765415 / 562949953421312 : ℝ) := by
    rw [roundDouble_eq _ (3) (4897664594765415) (by norm_num)
      (by rw [abs_of_pos (by norm_num)]; norm_num)
      (by rw [abs_of_pos (by norm_num)]; norm_num)
      (by rw [abs_lt]; constructor <;> norm_num)]
    norm_num
  have h018 : roundDouble ((0.18 : ℝ)) = (3242591731706757 / 18014398509481984 : ℝ) := by
    rw [roundDouble_eq _ (-3) (6485183463413514) (by norm_num)
      (by rw [abs_of_pos (by norm_num)]; norm_num)
      (by rw [abs_of_pos (by norm_num)]; norm_num)
      (by rw [abs_lt]; constructor <;> norm_num)]
    norm_num
  have hm4 : roundDouble ((3242591731706757 / 18014398509481984 : ℝ) * (3 : ℝ)) = (607985949695017 / 1125899906842624 : ℝ) := by
    rw [roundDouble_tie _ (-1) (4863887597560136) (by norm_num)
      (by rw [abs_of_pos (by norm_num)]; norm_num)
      (by rw [abs_of_pos (by norm_num)]; norm_num)
      (by norm_num) (Or.inr (by norm_num))]
    norm_num
  have hs4 : roundDouble ((4897664594765415 / 562949953421312 : ℝ) + (607985949695017 / 1125899906842624 : ℝ)) = (1300414392403231 / 140737488355328 : ℝ) := by
    rw [roundDouble_tie _ (3) (5201657569612924) (by norm_num)
      (by rw [abs_of_pos (by norm_num)]; norm_num)
      (by rw [abs_of_pos (by norm_num)]; norm_num)
      (by norm_num) (Or.inr (by norm_num))]
    norm_num
  simp only [doubleZ]
  rw [h09, hm1, hs1, h002, hm2, hs2, h13, hm3, hs3, h018, hm4, hs4]

/-- A score that is 0 in exact arithmetic and -3 * 2 ^ -53 as a double. -/
theorem doubleZ_borderline :
    doubleZ (-3 : ℝ) 217 0 2 = (-3 / 9007199254740992 : ℝ) := by
  have h09 : roundDouble ((0.9 : ℝ)) = (8106479329266893 / 9007199254740992 : ℝ) := by
    rw [roundDouble_eq _ (-1) (8106479329266893) (by norm_num)
      (by rw [abs_of_pos (by norm_num)]; norm_num)
      (by rw [abs_of_pos (by norm_num)]; norm_num)
      (by rw [abs_lt]; constructor <;> norm_num)]
    norm_num
  have hm1 : roundDouble ((8106479329266893 / 9007199254740992 : ℝ) * (-3 : ℝ)) = (-3039929748475085 / 1125899906842624 : ℝ) := by
    rw [roundDouble_eq _ (1) (-6079859496950170) (by norm_num)
      (by rw [abs_of_neg (by norm_num)]; norm_num)
      (by rw [abs_of_neg (by norm_num)]; norm_num)
      (by rw [abs_lt]; constructor <;> norm_num)]
    norm_num
  have hs1 : roundDouble ((-2 : ℝ) + (-3039929748475085 / 1125899906842624 : ℝ)) = (-5291729562160333 / 1125899906842624 : ℝ) := by
    rw [roundDouble_eq _ (2) (-5291729562160333) (by norm_num)
      (by rw [abs_of_neg (by norm_num)]; norm_num)
      (by rw [abs_of_neg (by norm_num)]; norm_num)
      (by rw [abs_lt]; constructor <;> norm_num)]
    norm_num
  have h002 : roundDouble ((0.02 : ℝ)) = (5764607523034235 / 288230376151711744 : ℝ) := by
    rw [roundDouble_eq _ (-6) (5764607523034235) (by norm_num)
      (by rw [abs_of_pos (by norm_num)]; norm_num)
      (by rw [abs_of_pos (by norm_num)]; norm_num)
      (by rw [abs_lt]; constructor <;> norm_num)]
    norm_num
  have hm2 : roundDouble ((5764607523034235 / 288230376151711744 : ℝ) * (217 : ℝ)) = (1221601398924247 / 281474976710656 : ℝ) := by
    rw [roundDouble_eq _ (2) (4886405595696988) (by norm_num)
      (by rw [abs_of_pos (by norm_num)]; norm_num)
      (by rw [abs_of_pos (by norm_num)]; norm_num)
      (by rw [abs_lt]; constructor <;> norm_num)]
    norm_num
  have hs2 : roundDouble ((-5291729562160333 / 1125899906842624 : ℝ) + (1221601398924247 / 281474976710656 : ℝ)) = (-405323966463345 / 1125899906842624 : ℝ) := by
    rw [roundDouble_eq _ (-2) (-6485183463413520) (by norm_num)
      (by rw [abs_of_neg (by norm_num)]; norm_num)
      (by rw [abs_of_neg (by norm_num)]; norm_num)
      (by rw [abs_lt]; constructor <;> norm_num)]
    norm_num
  have h13 : roundDouble ((1.3 : ℝ)) = (5854679515581645 / 4503599627370496 : ℝ) := by
    rw [roundDouble_eq _ (0) (5854679515581645) (by norm_num)
      (by rw [abs_of_pos (by norm_num)]; norm_num)
      (by rw [abs_of_pos (by norm_num)]; norm_num)
      (by rw [abs_lt]; constructor <;> norm_num)]
    norm_num
  have hm3 : roundDouble ((5854679515581645 / 4503599627370496 : ℝ) * (0 : ℝ)) = (0 : ℝ) := by
    rw [mul_zero, roundDouble_zero]
  have hs3 : roundDouble ((-405323966463345 / 1125899906842624 : ℝ) + (0 : ℝ)) = (-405323966463345 / 1125899906842624 : ℝ) := by
    rw [roundDouble_eq _ (-2) (-6485183463413520) (by norm_num)
      (by rw [abs_of_neg (by norm_num)]; norm_num)
      (by rw [abs_of_neg (by norm_num)]; norm_num)
      (by rw [abs_lt]; constructor <;> norm_num)]
    norm_num
  have h018 : roundDouble ((0.18 : ℝ)) = (3242591731706757 / 18014398509481984 : ℝ) := by
    rw [roundDouble_eq _ (-3) (6485183463413514) (by norm_num)
      (by rw [abs_of_pos (by norm_num)]; norm_num)
      (by rw [abs_of_pos (by norm_num)]; norm_num)
      (by rw [abs_lt]; constructor <;> norm_num)]
    norm_num
  have hm4 : roundDouble ((3242591731706757 / 18014398509481984 : ℝ) * (2 : ℝ)) = (3242591731706757 / 9007199254740992 : ℝ) := by
    rw [roundDouble_eq _ (-2) (6485183463413514) (by norm_num)
      (by rw [abs_of_pos (by norm_num)]; norm_num)
      (by rw [abs_of_pos (by norm_num)]; norm_num)
      (by rw [abs_lt]; constructor <;> norm_num)]
    norm_num
  have hs4 : roundDouble ((-405323966463345 / 1125899906842624 : ℝ) + (3242591731706757 / 9007199254740992 : ℝ)) = (-3 / 9007199254740992 : ℝ) := by
    rw [roundDouble_eq _ (-52) (-6755399441055744) (by norm_num)
      (by rw [abs_of_neg (by norm_num)]; norm_num)
      (by rw [abs_of_neg (by norm_num)]; norm_num)
      (by rw [abs_lt]; constructor <;> norm_num)]
    norm_num
  simp only [doubleZ]
  rw [h09, hm1, hs1, h002, hm2, hs2, h13, hm3, hs3, h018, hm4, hs4]

theorem doubleProb_borderline :
    roundDouble (1 / roundDouble (1 + (2251799813685249 / 2251799813685248 : ℝ))) = (4503599627370495 / 9007199254740992 : ℝ) := by
  have hd : roundDouble ((1 : ℝ) + (2251799813685249 / 2251799813685248 : ℝ)) = (4503599627370497 / 2251799813685248 : ℝ) := by
    rw [roundDouble_eq _ (1) (4503599627370497) (by norm_num)
      (by rw [abs_of_pos (by norm_num)]; norm_num)
      (by rw [abs_of_pos (by norm_num)]; norm_num)
      (by rw [abs_lt]; constructor <;> norm_num)]
    norm_num
  have hp : roundDouble ((1 : ℝ) / (4503599627370497 / 2251799813685248 : ℝ)) = (4503599627370495 / 9007199254740992 : ℝ) := by
    rw [roundDouble_eq _ (-2) (9007199254740990) (by norm_num)
      (by rw [abs_of_pos (by norm_num)]; norm_num)
      (by rw [abs_of_pos (by norm_num)]; norm_num)
      (by rw [abs_lt]; constructor <;> norm_num)]
    norm_num
  rw [hd, hp]

theorem percentage_borderline :
    ⌊roundDouble ((4503599627370495 / 9007199254740992 : ℝ) * 100) + 1 / 2⌋ = 50 := by
  have hq : roundDouble ((4503599627370495 / 9007199254740992 : ℝ) * 100) = (3518437208883199 / 70368744177664 : ℝ) := by
    rw [roundDouble_eq _ (5) (7036874417766398) (by norm_num)
      (by rw [abs_of_pos (by norm_num)]; norm_num)
      (by rw [abs_of_pos (by norm_num)]; norm_num)
      (by rw [abs_lt]; constructor <;> norm_num)]
    norm_num
  rw [hq, Int.floor_eq_iff]
  constructor <;> norm_num

theorem backendProbabilityPct_reply_575 :
    backendProbabilityPct (some (0.575 : ℝ)) = 57 := by
  have hr : roundDouble ((0.575 : ℝ)) = (2589569785738035 / 4503599627370496 : ℝ) := by
    rw [roundDouble_eq _ (-1) (5179139571476070) (by norm_num)
      (by rw [abs_of_pos (by norm_num)]; norm_num)
      (by rw [abs_of_pos (by norm_num)]; norm_num)
      (by rw [abs_lt]; constructor <;> norm_num)]
    norm_num
  have hq : roundDouble ((2589569785738035 / 4503599627370496 : ℝ) * 100) = (8092405580431359 / 140737488355328 : ℝ) := by
    rw [roundDouble_eq _ (5) (8092405580431359) (by norm_num)
      (by rw [abs_of_pos (by norm_num)]; norm_num)
      (by rw [abs_of_pos (by norm_num)]; norm_num)
      (by rw [abs_lt]; constructor <;> norm_num)]
    norm_num
  simp only [backendProbabilityPct, replyProbability, Option.map_some', Option.getD_some,
    mathRound]
  rw [hr, hq, Int.floor_eq_iff]
  constructor <;> norm_num

theorem backendProbabilityPct_reply_9 :
    backendProbabilityPct (some (0.9 : ℝ)) = 90 := by
  have hr : roundDouble ((0.9 : ℝ)) = (8106479329266893 / 9007199254740992 : ℝ) := by
    rw [roundDouble_eq _ (-1) (8106479329266893) (by norm_num)
      (by rw [abs_of_pos (by norm_num)]; norm_num)
      (by rw [abs_of_pos (by norm_num)]; norm_num)
      (by rw [abs_lt]; constructor <;> norm_num)]
    norm_num
  have hq : roundDouble ((8106479329266893 / 9007199254740992 : ℝ) * 100) = (90 : ℝ) := by
    rw [roundDouble_eq _ (6) (6333186975989760) (by norm_num)
      (by rw [abs_of_pos (by norm_num)]; norm_num)
      (by rw [abs_of_pos (by norm_num)]; norm_num)
      (by rw [abs_lt]; constructor <;> norm_num)]
    norm_num
  simp only [backendProbabilityPct, replyProbability, Option.map_some', Option.getD_some,
    mathRound]
  rw [hr, hq, Int.floor_eq_iff]
  constructor <;> norm_num

theorem backendProbabilityPct_reply_double :
    backendProbabilityPct (some (658651445502935 / 1125899906842624 : ℝ)) = 59 := by
  have hr : roundDouble ((658651445502935 / 1125899906842624 : ℝ)) = (658651445502935 / 1125899906842624 : ℝ) := by
    rw [roundDouble_eq _ (-1) (5269211564023480) (by norm_num)
      (by rw [abs_of_pos (by norm_num)]; norm_num)
      (by rw [abs_of_pos (by norm_num)]; norm_num)
      (by rw [abs_lt]; constructor <;> norm_num)]
    norm_num
  have hq : roundDouble ((658651445502935 / 1125899906842624 : ℝ) * 100) = (117 / 2 : ℝ) := by
    rw [roundDouble_tie _ (5) (8233143068786688) (by norm_num)
      (by rw [abs_of_pos (by norm_num)]; norm_num)
      (by rw [abs_of_pos (by norm_num)]; norm_num)
      (by norm_num) (Or.inr (by norm_num))]
    norm_num
  simp only [backendProbabilityPct, replyProbability, Option.map_some', Option.getD_some,
    mathRound]
  rw [hr, hq, Int.floor_eq_iff]
  constructor <;> norm_num

theorem backendItem_example :
    (backendItem (K := ℝ) (.num 8) (.num 110) (.num 1) (.num 3) (some 0.9) (some 1)).toJson =
      FiniteRecord.stored ⟨8, 110, 1, 3, 90, 1⟩ := by
  simp [backendItem, backendProbabilityPct_reply_9, Item.toJson, JSNum.toJson, ofInt?,
    FiniteRecord.stored]

/-- The record of the worked example: probability 100 and class 1, with an
exponential that is not negative and at most 1/512 at the score. -/
theorem demoItem_example (env : Env ℝ) (hexp : ∀ x, 0 ≤ env.mathExp x)
    (hsmall : env.mathExp (-(1300414392403231 / 140737488355328)) ≤ 1 / 512) :
    demoItem env (.num 8) (.num 110) (.num 1) (.num 3) =
      FiniteRecord.item ⟨8, 110, 1, 3, 100, 1⟩ := by
  obtain ⟨l, u⟩ := doubleProb_near_one env.mathExp (1300414392403231 / 140737488355328)
    (hexp _) hsmall
  have hp := percentage_hundred _ l u
  have hc : (1 : ℝ) / 2 ≤ doubleProb env.mathExp (1300414392403231 / 140737488355328) := by
    linarith
  rw [demoItem_num env hexp, doubleZ_example, hp, if_pos hc]
  simp [FiniteRecord.item]

/-- The record of the borderline inputs under the correctly rounded exponential:
probability 50 and class 0. -/
theorem demoItem_borderline (env : Env ℝ) (hexp : ∀ x, env.mathExp x = roundDouble (Real.exp x)) :
    demoItem env (.num (-3)) (.num 217) (.num 0) (.num 2) =
      FiniteRecord.item ⟨-3, 217, 0, 2, 50, 0⟩ := by
  have hnn : ∀ x, 0 ≤ env.mathExp x := fun x => by rw [hexp]; exact roundDouble_exp_nonneg x
  have hneg : -(-3 / 9007199254740992 : ℝ) = 3 / 9007199254740992 := by norm_num
  have hprob : doubleProb env.mathExp (-3 / 9007199254740992) =
      4503599627370495 / 9007199254740992 := by
    unfold doubleProb
    rw [hexp, hneg, roundDouble_exp_borderline, doubleProb_borderline]
  have hc : ¬ (1 : ℝ) / 2 ≤ 4503599627370495 / 9007199254740992 := by norm_num
  rw [demoItem_num env hnn, doubleZ_borderline, hprob, percentage_borderline, if_neg hc]
  simp [FiniteRecord.item]

end PredictionValues

/-! ## The history store -/

section ClaimsStore
variable {K : Type} [LinearOrderedField K] [FloorRing K]

/-- C3.  The history store is an append-only list.  When the storage key holds a
history `h` (a stored array, or no entry and `h = []`), `pushToHistory(r)` for a
record `r` with finite fields completes and `getHistory` then returns
`h ++ [r]`; after the clear handler, `N` such pushes make `getHistory` return
exactly the `N` records in the order of the pushes (the empty sequence for
`N = 0`). -/
theorem history_store_is_append_only (w : World K) (h : List (HistoryRecord K))
    (hs : HoldsHistory w.storage h) (r : FiniteRecord K) :
    (pushToHistory r.item w).value = .ok () ∧
    getHistory (pushToHistory r.item w).world = .ok (.arr (h ++ [r.stored])) ∧
    ∀ (env : Env K) (rs : List (FiniteRecord K)),
      getHistory (pushAll (rs.map FiniteRecord.item) (clearHistory env true w).world) =
        .ok (.arr (rs.map FiniteRecord.stored)) ∧
      (rs.map FiniteRecord.stored).length = rs.length := by
  refine ⟨pushToHistory_ok _ _ h hs, ?_, fun env rs => ⟨?_, by simp⟩⟩
  · unfold getHistory
    rw [pushToHistory_storage, storeAfterPush_holds _ _ h hs]
    simp [parseOrEmpty, parseStored, Json.truthy, finite_toJson]
  · unfold getHistory
    rw [pushAll_holds _ _ [] (Or.inr ⟨clearHistory_storage env w, rfl⟩), clearHistory_storage]
    cases rs with
    | nil => simp [parseOrEmpty, parseStored, Json.truthy]
    | cons r rs =>
      simp [parseOrEmpty, parseStored, Json.truthy, finite_toJson, Function.comp_def]



/-- Witness of C3: a stored history of one record, one more record
pushed; then the history cleared and two records pushed. -/
theorem history_store_is_append_only_witness :
    HoldsHistory (World.initial (K := ℝ)
        (some (.json (.arr [FiniteRecord.stored ⟨7, 100, 0, 2, 64, 1⟩]))) blankPage).storage
      [FiniteRecord.stored ⟨7, 100, 0, 2, 64, 1⟩] ∧
    getHistory (pushToHistory (FiniteRecord.item ⟨8, 110, 1, 3, 100, 1⟩)
        (World.initial (K := ℝ)
          (some (.json (.arr [FiniteRecord.stored ⟨7, 100, 0, 2, 64, 1⟩]))) blankPage)).world =
      .ok (.arr [FiniteRecord.stored ⟨7, 100, 0, 2, 64, 1⟩,
        FiniteRecord.stored ⟨8, 110, 1, 3, 100, 1⟩]) ∧
    getHistory (pushAll
        [FiniteRecord.item ⟨8, 110, 1, 3, 100, 1⟩, FiniteRecord.item ⟨5, 90, 0, 0, 12, 0⟩]
        (clearHistory ⟨fun x => roundDouble (Real.exp x), fun _ => none, noExponentForm⟩ true (World.initial (K := ℝ)
          (some (.json (.arr [FiniteRecord.stored ⟨7, 100, 0, 2, 64, 1⟩]))) blankPage)).world) =
      .ok (.arr [FiniteRecord.stored ⟨8, 110, 1, 3, 100, 1⟩,
        FiniteRecord.stored ⟨5, 90, 0, 0, 12, 0⟩]) :=
  ⟨Or.inl rfl,
    (history_store_is_append_only _ _ (Or.inl rfl) ⟨8, 110, 1, 3, 100, 1⟩).2.1,
    ((history_store_is_append_only _ _ (Or.inl rfl) ⟨8, 110, 1, 3, 100, 1⟩).2.2
      ⟨fun x => roundDouble (Real.exp x), fun _ => none, noExponentForm⟩ [⟨8, 110, 1, 3, 100, 1⟩, ⟨5, 90, 0, 0, 12, 0⟩]).1⟩

end ClaimsStore

section ClaimsStore2
variable {K : Type} [LinearOrderedField K]

/-- C4, as stated, fails: with a stored string that is not JSON (here the text
"not json"), `getHistory` raises a `SyntaxError` instead of returning the empty
sequence, and `pushToHistory` raises it too and leaves the string in place; with
the stored JSON number 5, `getHistory` returns 5, which is no sequence, and
`pushToHistory` raises a `TypeError`. -/
theorem getHistory_raises_on_unparsable_entry :
    getHistory (World.initial (K := ℝ) (some (.unparsable "not json")) blankPage) =
      .error .syntaxError ∧
    (pushToHistory (FiniteRecord.item ⟨8, 110, 1, 3, 100, 1⟩)
      (World.initial (K := ℝ) (some (.unparsable "not json")) blankPage)).value =
      .error .syntaxError ∧
    (pushToHistory (FiniteRecord.item ⟨8, 110, 1, 3, 100, 1⟩)
      (World.initial (K := ℝ) (some (.unparsable "not json")) blankPage)).world.storage =
      some (.unparsable "not json") ∧
    getHistory (World.initial (K := ℝ) (some (.json (.num 5))) blankPage) = .ok (.num 5) ∧
    (pushToHistory (FiniteRecord.item ⟨8, 110, 1, 3, 100, 1⟩)
      (World.initial (K := ℝ) (some (.json (.num 5))) blankPage)).value = .error .typeError := by
  refine ⟨rfl, rfl, rfl, ?_, ?_⟩ <;>
    simp [getHistory, pushToHistory, parseOrEmpty, parseStored, Json.truthy, World.initial]

/-- C4, amended.  With no entry, or an entry that parses to `null`,
`getHistory` returns the empty sequence and `pushToHistory(r)` completes and
leaves the one-record array; with a stored array `h`, `getHistory` returns `h`
and `pushToHistory(r)` completes and leaves `h` with the record appended; with
an entry that is not JSON, both raise a `SyntaxError` and the entry stays as it
was. -/
theorem store_reads_empty_when_absent_and_raises_when_unparsable
    (w : World K) (r : Item K) :
    (getHistory { w with storage := none } = .ok (.arr []) ∧
      pushToHistory r { w with storage := none } =
        ⟨{ w with storage := some (.json (.arr [r.toJson])) }, .ok ()⟩) ∧
    (getHistory { w with storage := some (.json .null) } = .ok (.arr []) ∧
      pushToHistory r { w with storage := some (.json .null) } =
        ⟨{ w with storage := some (.json (.arr [r.toJson])) }, .ok ()⟩) ∧
    (∀ h : List (HistoryRecord K),
      getHistory { w with storage := some (.json (.arr h)) } = .ok (.arr h) ∧
      pushToHistory r { w with storage := some (.json (.arr h)) } =
        ⟨{ w with storage := some (.json (.arr (h ++ [r.toJson]))) }, .ok ()⟩) ∧
    (∀ text : String,
      getHistory { w with storage := some (.unparsable text) } = .error .syntaxError ∧
      pushToHistory r { w with storage := some (.unparsable text) } =
        ⟨{ w with storage := some (.unparsable text) }, .error .syntaxError⟩) := by
  refine ⟨⟨?_, ?_⟩, ⟨?_, ?_⟩, fun h => ⟨?_, ?_⟩, fun text => ⟨?_, ?_⟩⟩ <;>
    simp [getHistory, pushToHistory, parseOrEmpty, parseStored, Json.truthy]

end ClaimsStore2
/-! ## Analytics -/

section ClaimsAnalytics
variable {K : Type} [LinearOrderedField K] [FloorRing K]

/-- C9.  With an empty history (no storage entry, or a stored empty array) on a
page that has the four KPI fields, `loadPredictionAnalytics` completes without
raising and the fields show "0.0", "0%", "0.0" and "0%"; none of them shows
"NaN". -/
theorem loadPredictionAnalytics_empty_history (env : Env K) (w : World K)
    (hs : HoldsHistory w.storage [])
    (hpage : w.HasElements ["avgCgpa", "internPercent", "avgProjects", "placementRate"]) :
    (loadPredictionAnalytics env w).value = .ok () ∧
    (loadPredictionAnalytics env w).world.innerTextOf "avgCgpa" = some "0.0" ∧
    (loadPredictionAnalytics env w).world.innerTextOf "internPercent" = some "0%" ∧
    (loadPredictionAnalytics env w).world.innerTextOf "avgProjects" = some "0.0" ∧
    (loadPredictionAnalytics env w).world.innerTextOf "placementRate" = some "0%" ∧
    ∀ id ∈ ["avgCgpa", "internPercent", "avgProjects", "placementRate"],
      (loadPredictionAnalytics env w).world.innerTextOf id ≠ some "NaN" := by
  have hpage0 : (destroyAllHistoryCharts w).HasElements
      ["avgCgpa", "internPercent", "avgProjects", "placementRate"] := hpage
  obtain ⟨k1, k2, k3, k4, kdom⟩ := kpi_fields_after_assignments "0.0" "0%" "0.0" "0%" _ hpage0
  have key : loadPredictionAnalytics env w =
      setInnerText "placementRate" "0%" (setInnerText "avgProjects" "0.0"
        (setInnerText "internPercent" "0%"
          (setInnerText "avgCgpa" "0.0" (destroyAllHistoryCharts w)).world).world).world := by
    unfold loadPredictionAnalytics getHistory
    rw [parseOrEmpty_holds _ _ hs]
    simp only [Json.lengthIsZero, List.length_nil, decide_True, if_true]
    rw [andThen_of_ok _ _ () k1, andThen_of_ok _ _ () k2, andThen_of_ok _ _ () k3]
  obtain ⟨e1, e2, e3, e4⟩ := kdom (loadPredictionAnalytics env w).world (by rw [key])
  refine ⟨by rw [key]; exact k4, e1, e2, e3, e4, ?_⟩
  intro id hid
  simp only [List.mem_cons, List.mem_singleton, List.not_mem_nil, or_false] at hid
  rcases hid with rfl | rfl | rfl | rfl
  · rw [e1]; decide
  · rw [e2]; decide
  · rw [e3]; decide
  · rw [e4]; decide

/-- Witness of C9: no storage entry, on a page that has every field. -/
theorem loadPredictionAnalytics_empty_history_witness :
    HoldsHistory (World.initial (K := ℝ) none blankPage).storage [] ∧
    (World.initial (K := ℝ) none blankPage).HasElements
      ["avgCgpa", "internPercent", "avgProjects", "placementRate"] ∧
    (loadPredictionAnalytics ⟨fun x => roundDouble (Real.exp x), fun _ => none, noExponentForm⟩
      (World.initial (K := ℝ) none blankPage)).value = .ok () ∧
    (loadPredictionAnalytics ⟨fun x => roundDouble (Real.exp x), fun _ => none, noExponentForm⟩
      (World.initial (K := ℝ) none blankPage)).world.innerTextOf "avgCgpa" = some "0.0" :=
  ⟨Or.inr ⟨rfl, rfl⟩, fun _ _ => rfl,
    (loadPredictionAnalytics_empty_history ⟨fun x => roundDouble (Real.exp x), fun _ => none, noExponentForm⟩
      (World.initial (K := ℝ) none blankPage) (Or.inr ⟨rfl, rfl⟩) (fun _ _ => rfl)).1,
    (loadPredictionAnalytics_empty_history ⟨fun x => roundDouble (Real.exp x), fun _ => none, noExponentForm⟩
      (World.initial (K := ℝ) none blankPage) (Or.inr ⟨rfl, rfl⟩) (fun _ _ => rfl)).2.1⟩

/-- Counterexample to C6 as stated: the statistics are computed in double
arithmetic, and they are not the exact quotients rounded.  With 23 internships in
40 records the field `internPercent` shows "57%", though 100 * 23 / 40 = 57.5
rounds to 58; with 14 projects in these 40 records the field `avgProjects` shows
"0.3", though the mean 0.35 written with 1 decimal is "0.4"; with the CGPA values
9 and 7.79 the field `avgCgpa` shows "8.39", though the mean of the two values
held, written with 2 decimals, is "8.40". -/
theorem loadPredictionAnalytics_rounds_double_quotients :
    (loadPredictionAnalytics ⟨fun x => roundDouble (Real.exp x), fun _ => none, noExponentForm⟩
      (storedPage (K := ℝ) fortyRecords)).world.innerTextOf "internPercent" = some "57%" ∧
    mathRound (100 * (((fortyRecords (K := ℝ)).countP
      fun x => decide (x.intern = .num 1) : ℕ) : ℝ) /
        ((fortyRecords (K := ℝ)).length : ℝ)) = 58 ∧
    (loadPredictionAnalytics ⟨fun x => roundDouble (Real.exp x), fun _ => none, noExponentForm⟩
      (storedPage (K := ℝ) fortyRecords)).world.innerTextOf "avgProjects" = some "0.3" ∧
    toFixed noExponentForm 1 (((fortyRecords (K := ℝ)).map fun x => x.projects.toNumber).sum /
      ((fortyRecords (K := ℝ)).length : ℝ)) = "0.4" ∧
    (loadPredictionAnalytics ⟨fun x => roundDouble (Real.exp x), fun _ => none, noExponentForm⟩
      (storedPage (K := ℝ) cgpaPair)).world.innerTextOf "avgCgpa" = some "8.39" ∧
    toFixed noExponentForm 2 (((cgpaPair (K := ℝ)).map fun x => x.cgpa.toNumber).sum /
      ((cgpaPair (K := ℝ)).length : ℝ)) = "8.40" := by
  obtain ⟨-, e2, e4, -⟩ := loadPredictionAnalytics_shows ⟨fun x => roundDouble (Real.exp x), fun _ => none, noExponentForm⟩
    (storedPage (K := ℝ) fortyRecords) fortyRecords rfl (by simp [fortyRecords])
    (fun _ _ => rfl)
  obtain ⟨e1, -, -, -⟩ := loadPredictionAnalytics_shows ⟨fun x => roundDouble (Real.exp x), fun _ => none, noExponentForm⟩
    (storedPage (K := ℝ) cgpaPair) cgpaPair rfl (by simp [cgpaPair]) (fun _ _ => rfl)
  obtain ⟨c1, c2, c3⟩ := fortyRecords_counts
  rw [computeAnalytics_eq] at e1 e2 e4
  simp only at e1 e2 e4
  rw [c1, c2, mathRound_doublePercent_23_40, intText_of_small _ 57 (by norm_num) (by norm_num)]
    at e2
  rw [fortyRecords_projects, toFixed_of_nonneg _ 1 (by decide) _ 3
    tenths_quotient_14_40_bounds.1 tenths_quotient_14_40_bounds.2 tenths_quotient_14_40] at e4
  have hfloor : ⌊(2362982429485957 / 281474976710656 : ℝ) * 10 ^ 2 + 1 / 2⌋₊ = 839 := by
    rw [Nat.floor_eq_iff (by positivity)]
    constructor <;> norm_num
  rw [cgpaPair_cgpa, doubleMean_cgpa_pair, toFixed_of_nonneg _ 2 (by decide) _ 839
    (by norm_num) (by norm_num) hfloor] at e1
  refine ⟨e2, ?_, e4, ?_, e1, ?_⟩
  · rw [c1, c2]
    unfold mathRound
    rw [Int.floor_eq_iff]
    constructor <;> norm_num
  · rw [c2, c3]
    have hf : ⌊((14 : ℝ) / ((40 : ℕ) : ℝ)) * 10 ^ 1 + 1 / 2⌋₊ = 4 := by
      rw [Nat.floor_eq_iff (by positivity)]
      constructor <;> norm_num
    rw [toFixed_of_nonneg _ 1 (by decide) _ 4 (by norm_num) (by norm_num) hf]
    decide
  · rw [cgpaPair_cgpa, roundDouble_cgpa_literal]
    have hv : ([(9 : ℝ), 8770760274304041 / 1125899906842624].sum) /
        (((cgpaPair (K := ℝ)).length : ℕ) : ℝ) = 18903859435887657 / 2251799813685248 := by
      simp [cgpaPair]
      norm_num
    have hf : ⌊(18903859435887657 / 2251799813685248 : ℝ) * 10 ^ 2 + 1 / 2⌋₊ = 840 := by
      rw [Nat.floor_eq_iff (by positivity)]
      constructor <;> norm_num
    rw [hv, toFixed_of_nonneg _ 2 (by decide) _ 840 (by norm_num) (by norm_num) hf]
    decide

/-- C6, amended.  For a stored history `h` of `n > 0` records, on a page that has
the four KPI fields, `loadPredictionAnalytics` computes its statistics in double
arithmetic.  Each mean is the double sum of the field divided by `n` and rounded
to a double (`doubleMean`); each percentage is the count divided by `n`, rounded,
times 100, rounded (`doublePercent`).  The mean IQ is the mean rounded to the
nearest integer (a tie going up).  The field `avgCgpa` shows the CGPA mean with 2
decimals and the field `avgProjects` the project mean with 1 decimal: below 1e21
in size, the integer nearest to `|mean| * 10 ^ digits` (a tie going up) written
with its last `digits` digits after the point, after a minus sign for a negative
mean; from 1e21 the text that the host gives to the number.  The fields
`internPercent` and `placementRate` show the percentages of records with
`intern = 1` and with `cls = 1`, rounded to the nearest integer (a tie going up),
followed by "%". -/
theorem loadPredictionAnalytics_double_statistics (env : Env K) (w : World K)
    (h : List (HistoryRecord K)) (hs : w.storage = some (.json (.arr h))) (hne : h ≠ [])
    (hpage : w.HasElements ["avgCgpa", "internPercent", "avgProjects", "placementRate"]) :
    (computeAnalytics env h).avgIq = ⌊doubleMean (h.map fun x => x.iq.toNumber) + 1 / 2⌋ ∧
    (loadPredictionAnalytics env w).world.innerTextOf "avgCgpa" =
      some (if 10 ^ 21 ≤ |doubleMean (h.map fun x => x.cgpa.toNumber)|
        then env.numberToString (doubleMean (h.map fun x => x.cgpa.toNumber))
        else (if doubleMean (h.map fun x => x.cgpa.toNumber) < 0 then "-" else "") ++
          decimalText 2 ⌊|doubleMean (h.map fun x => x.cgpa.toNumber)| * 10 ^ 2 + 1 / 2⌋₊) ∧
    (loadPredictionAnalytics env w).world.innerTextOf "internPercent" =
      some (toString ⌊doublePercent (K := K)
        (h.countP fun x => decide (x.intern = .num 1)) h.length + 1 / 2⌋ ++ "%") ∧
    (loadPredictionAnalytics env w).world.innerTextOf "placementRate" =
      some (toString ⌊doublePercent (K := K)
        (h.countP fun x => decide (x.cls = .num 1)) h.length + 1 / 2⌋ ++ "%") ∧
    (loadPredictionAnalytics env w).world.innerTextOf "avgProjects" =
      some (if 10 ^ 21 ≤ |doubleMean (h.map fun x => x.projects.toNumber)|
        then env.numberToString (doubleMean (h.map fun x => x.projects.toNumber))
        else (if doubleMean (h.map fun x => x.projects.toNumber) < 0 then "-" else "") ++
          decimalText 1 ⌊|doubleMean (h.map fun x => x.projects.toNumber)| * 10 ^ 1 + 1 / 2⌋₊) := by
  obtain ⟨e1, e2, e3, e4⟩ := loadPredictionAnalytics_shows env w h hs hne hpage
  have hlen : 0 < h.length := List.length_pos.mpr hne
  have b1 := mathRound_doublePercent_bounds (K := K)
    (h.countP fun x => decide (x.intern = .num 1)) h.length (List.countP_le_length _) hlen
  have b2 := mathRound_doublePercent_bounds (K := K)
    (h.countP fun x => decide (x.cls = .num 1)) h.length (List.countP_le_length _) hlen
  rw [computeAnalytics_eq] at e1 e2 e3 e4 ⊢
  simp only at e1 e2 e3 e4 ⊢
  rw [intText_of_small _ _ b1.1 b1.2] at e2
  rw [intText_of_small _ _ b2.1 b2.2] at e4
  rw [toFixed_eq _ _ (by decide)] at e1 e3
  exact ⟨rfl, e1, e2, e4, e3⟩

/-- Witness of C6 as amended: a stored history of three records, with CGPA 8, 9
and 8, IQ 110, 100 and 121, one internship, two placements and 3, 2 and 3
projects.  The mean IQ is 110 and the fields show "8.33", "33%", "67%" and
"2.7": the quotients 25/3, 1/3, 2/3 and 8/3 are all rounded to doubles. -/
theorem loadPredictionAnalytics_double_statistics_witness :
    (storedPage (K := ℝ) threeRecords).storage = some (.json (.arr threeRecords)) ∧
    (threeRecords (K := ℝ)) ≠ [] ∧
    (storedPage (K := ℝ) threeRecords).HasElements
      ["avgCgpa", "internPercent", "avgProjects", "placementRate"] ∧
    (computeAnalytics ⟨fun x => roundDouble (Real.exp x), fun _ => none, noExponentForm⟩ (threeRecords (K := ℝ))).avgIq = 110 ∧
    (loadPredictionAnalytics ⟨fun x => roundDouble (Real.exp x), fun _ => none, noExponentForm⟩
      (storedPage (K := ℝ) threeRecords)).world.innerTextOf "avgCgpa" = some "8.33" ∧
    (loadPredictionAnalytics ⟨fun x => roundDouble (Real.exp x), fun _ => none, noExponentForm⟩
      (storedPage (K := ℝ) threeRecords)).world.innerTextOf "internPercent" = some "33%" ∧
    (loadPredictionAnalytics ⟨fun x => roundDouble (Real.exp x), fun _ => none, noExponentForm⟩
      (storedPage (K := ℝ) threeRecords)).world.innerTextOf "placementRate" = some "67%" ∧
    (loadPredictionAnalytics ⟨fun x => roundDouble (Real.exp x), fun _ => none, noExponentForm⟩
      (storedPage (K := ℝ) threeRecords)).world.innerTextOf "avgProjects" = some "2.7" := by
  obtain ⟨e0, e1, e2, e3, e4⟩ := loadPredictionAnalytics_double_statistics ⟨fun x => roundDouble (Real.exp x), fun _ => none, noExponentForm⟩
    (storedPage (K := ℝ) threeRecords) threeRecords rfl (by simp [threeRecords])
    (fun _ _ => rfl)
  obtain ⟨c1, c2, c3⟩ := threeRecords_counts
  have m0 := mathRound_quotient_331_3
  have m1 := mathRound_doublePercent_1_3
  have m2 := mathRound_doublePercent_2_3
  unfold mathRound at m0 m1 m2
  rw [threeRecords_iq, m0] at e0
  rw [threeRecords_cgpa, fixedText_of_nonneg _ 2 _ 833 hundredths_quotient_25_3_bounds.1
    hundredths_quotient_25_3_bounds.2 hundredths_quotient_25_3] at e1
  rw [c1, c3, m1] at e2
  rw [c2, c3, m2] at e3
  rw [threeRecords_projects, fixedText_of_nonneg _ 1 _ 27 tenths_quotient_8_3_bounds.1
    tenths_quotient_8_3_bounds.2 tenths_quotient_8_3] at e4
  exact ⟨rfl, by simp [threeRecords], fun _ _ => rfl, e0, e1, e2, e3, e4⟩

end ClaimsAnalytics
/-! ## Prediction -/

section ClaimsPredict
variable {K : Type} [LinearOrderedField K] [FloorRing K]

/-- C1 fails on the code.  Inputs that pass validation, a 2xx reply with a JSON
object, a page with the status and result elements, a stored history `h`, and a
`Chart` constructor that throws for the first analytics chart: the `try` block
has already pushed the backend record when `loadPredictionAnalytics` raises, the
`catch` block then pushes the demo record as well, so the history ends with two
new records, and `predictPlacement` ends by raising. -/
theorem predictPlacement_appends_twice_when_refresh_raises (env : Env K) (c i p : K)
    (intern : JSNum K) (probability : Option K) (prediction : Option ℤ) (w : World K)
    (h : List (HistoryRecord K))
    (hpage : w.HasElements ["status", "result-card", "result-text"])
    (hs : HoldsHistory w.storage h) (e : JSError) (hchart : env.chartError "chart1" = some e) :
    (predictPlacement env (.num c) (.num i) intern (.num p)
        (.response true (.object probability prediction)) w).world.storage =
      some (.json (.arr (h ++
        [(backendItem (.num c) (.num i) intern (.num p) probability prediction).toJson,
          (demoItem env (.num c) (.num i) intern (.num p)).toJson]))) ∧
    ∃ e', (predictPlacement env (.num c) (.num i) intern (.num p)
        (.response true (.object probability prediction)) w).value = .error e' := by
  obtain ⟨W, hWs, hWd, -, hpp⟩ := predictPlacement_valid env c i p intern
    (.response true (.object probability prediction)) w hpage
  have hpageW : W.HasElements ["status", "result-card", "result-text"] := by
    intro id hid; rw [hWd]; exact hpage id hid
  obtain ⟨W2, hW2s, hW2d, hbp⟩ := backendPath_object env (.num c) (.num i) intern (.num p)
    probability prediction W hpageW
  have hsW2 : HoldsHistory W2.storage h := by rw [hW2s, hWs]; exact hs
  have hpush := pushToHistory_ok (backendItem (.num c) (.num i) intern (.num p) probability
    prediction) W2 h hsW2
  have hpst : (pushToHistory (backendItem (.num c) (.num i) intern (.num p) probability
      prediction) W2).world.storage = some (.json (.arr (h ++
        [(backendItem (.num c) (.num i) intern (.num p) probability prediction).toJson]))) := by
    rw [pushToHistory_storage, storeAfterPush_holds _ _ h hsW2]
  obtain ⟨e1, he1⟩ := loadPredictionAnalytics_raises env _ _ hpst (by simp) e hchart
  rw [andThen_of_ok _ _ () hpush, andThen_of_error _ _ e1 he1] at hbp
  have hpageL : (loadPredictionAnalytics env (pushToHistory (backendItem (.num c) (.num i)
      intern (.num p) probability prediction) W2).world).world.HasElements
      ["status", "result-card", "result-text"] := by
    intro id hid
    rw [(loadPredictionAnalytics_framed env _).2, pushToHistory_dom, hW2d]
    exact hpageW id hid
  have hstL : (loadPredictionAnalytics env (pushToHistory (backendItem (.num c) (.num i)
      intern (.num p) probability prediction) W2).world).world.storage = some (.json (.arr (h ++
        [(backendItem (.num c) (.num i) intern (.num p) probability prediction).toJson]))) := by
    rw [(loadPredictionAnalytics_framed env _).1, hpst]
  rw [hpp, hbp]
  simp only []
  constructor
  · rw [andThen_world_storage _ _ (fun _ _ => ⟨rfl, fun _ => rfl⟩),
      demoPath_storage _ _ _ _ _ _ hpageL, storeAfterPush_holds _ _ _ (Or.inl hstL)]
    simp
  · obtain ⟨W3, hW3s, -, hdp⟩ := demoPath_decomposed env (.num c) (.num i) intern (.num p) _ hpageL
    obtain ⟨e2, he2⟩ := pushThenRefresh_raises env (demoItem env (.num c) (.num i) intern
      (.num p)) W3 _ (Or.inl (hW3s.trans hstL)) e hchart
    rw [hdp]
    exact ⟨e2, by rw [andThen_of_error _ _ e2 he2]⟩

end ClaimsPredict

section ClaimsFallback
variable {K : Type} [LinearOrderedField K] [FloorRing K]

/-- C10.  On the fallback path, for finite inputs and a `Math.exp` that is
never negative (as the real exponential is, and its rounding to a double), the
record appended to the history has an integer percentage `pct` and a class
`cls` that is 1 or 0, with `pct ≥ 50` when `cls = 1` and `pct ≤ 50` when
`cls = 0`. -/
theorem fallback_class_agrees_with_percentage (env : Env K) (hexp : ∀ x, 0 ≤ env.mathExp x)
    (c i n p : K) (remote : FetchOutcome K) (hf : remote.Fails) (w : World K)
    (h : List (HistoryRecord K))
    (hpage : w.HasElements ["status", "result-card", "result-text"])
    (hs : HoldsHistory w.storage h) :
    ∃ pct cls : ℤ,
      (predictPlacement env (.num c) (.num i) (.num n) (.num p) remote w).world.storage =
        some (.json (.arr (h ++ [FiniteRecord.stored ⟨c, i, n, p, (pct : K), (cls : K)⟩]))) ∧
      (cls = 1 ∨ cls = 0) ∧ (cls = 1 → 50 ≤ pct) ∧ (cls = 0 → pct ≤ 50) := by
  refine ⟨⌊roundDouble (doubleProb env.mathExp (doubleZ c i n p) * 100) + 1 / 2⌋,
    if 1 / 2 ≤ doubleProb env.mathExp (doubleZ c i n p) then 1 else 0, ?_, ?_, ?_, ?_⟩
  · rw [predictPlacement_fallback_storage env c i p (.num n) remote hf w h hpage hs,
      demoItem_num env hexp]
    rfl
  · split <;> simp
  · intro hc
    split at hc
    · rename_i hq
      exact (percentage_of_class _).1 hq
    · simp at hc
  · intro hc
    split at hc
    · simp at hc
    · rename_i hq
      exact (percentage_of_class _).2 hq

end ClaimsFallback

section ClaimsFormula

/-- Counterexample to C2 as stated: the record follows the formula in double
arithmetic, not in exact arithmetic.  For the inputs 8, 110, 1, 3 the score that
the code computes is 1300414392403231 * 2 ^ -47 (9.240000000000002), not 9.24.
For the inputs -3, 217, 0, 2 the exact score is 0 and the exact sigmoid is 1/2,
for which the claim gives the class 1; the code, with a correctly rounded
`Math.exp`, computes the score -3 * 2 ^ -53 and the probability
0.4999999999999999, and stores the percentage 50 with the class 0. -/
theorem fallback_record_departs_from_exact_formula :
    demoZ (K := ℝ) (.num 8) (.num 110) (.num 1) (.num 3) =
      .num (1300414392403231 / 140737488355328) ∧
    (1300414392403231 / 140737488355328 : ℝ) ≠ 9.24 ∧
    specZ (-3 : ℝ) 217 0 2 = 0 ∧
    1 / 2 ≤ specSigmoid Real.exp (specZ (-3 : ℝ) 217 0 2) ∧
    (predictPlacement ⟨fun x => roundDouble (Real.exp x), fun _ => none, noExponentForm⟩
        (.num (-3)) (.num 217) (.num 0) (.num 2) .networkError
        (World.initial (K := ℝ) none blankPage)).world.storage =
      some (.json (.arr [FiniteRecord.stored ⟨-3, 217, 0, 2, 50, 0⟩])) := by
  have hz : specZ (-3 : ℝ) 217 0 2 = 0 := by
    unfold specZ
    norm_num
  refine ⟨by rw [demoZ_num, doubleZ_example], by norm_num, hz, ?_, ?_⟩
  · rw [hz]
    unfold specSigmoid
    norm_num
  · rw [predictPlacement_fallback_storage _ (-3) 217 2 (.num 0) .networkError trivial
      (World.initial (K := ℝ) none blankPage) [] (fun _ _ => rfl) (Or.inr ⟨rfl, rfl⟩),
      demoItem_borderline _ (fun _ => rfl)]
    rfl

/-- C2, amended.  On the fallback path, with a `Math.exp` that is never negative,
for all finite `cgpa`, `iq`, `intern`, `projects` the record appended to the
history carries the inputs, `probability = ⌊fl(prob * 100) + 1/2⌋` and `cls = 1`
exactly when `prob ≥ 1/2` (`cls = 0` otherwise), where every operation is
rounded to the nearest double (`fl`): the score is
`z = fl(fl(fl(fl(-2 + fl(fl(0.9) cgpa)) + fl(fl(0.02) iq)) + fl(fl(1.3) intern)) +
fl(fl(0.18) projects))` and `prob = fl(1 / fl(1 + Math.exp(-z)))`.  For the inputs
8, 110, 1, 3 the score is 1300414392403231 * 2 ^ -47 (9.240000000000002), and with
a `Math.exp` of at most 1/512 at minus that score the record has the probability
100 and the class 1. -/
theorem fallback_record_follows_double_formula (env : Env ℝ)
    (hexp : ∀ x, 0 ≤ env.mathExp x) (cgpa iq intern projects : ℝ) (remote : FetchOutcome ℝ)
    (hf : remote.Fails) (w : World ℝ) (h : List (HistoryRecord ℝ))
    (hpage : w.HasElements ["status", "result-card", "result-text"])
    (hs : HoldsHistory w.storage h) :
    (predictPlacement env (.num cgpa) (.num iq) (.num intern) (.num projects) remote
        w).world.storage =
      some (.json (.arr (h ++ [FiniteRecord.stored ⟨cgpa, iq, intern, projects,
        ((⌊roundDouble (roundDouble (1 / roundDouble (1 + env.mathExp
          (-doubleZ cgpa iq intern projects))) * 100) + 1 / 2⌋ : ℤ) : ℝ),
        (((if 1 / 2 ≤ roundDouble (1 / roundDouble (1 + env.mathExp
          (-doubleZ cgpa iq intern projects))) then 1 else 0 : ℤ) : ℤ) : ℝ)⟩]))) ∧
    doubleZ cgpa iq intern projects =
      roundDouble (roundDouble (roundDouble (roundDouble
        (-2 + roundDouble (roundDouble 0.9 * cgpa)) + roundDouble (roundDouble 0.02 * iq)) +
          roundDouble (roundDouble 1.3 * intern)) + roundDouble (roundDouble 0.18 * projects)) ∧
    doubleZ (8 : ℝ) 110 1 3 = 1300414392403231 / 140737488355328 ∧
    (env.mathExp (-(1300414392403231 / 140737488355328)) ≤ 1 / 512 →
      demoItem env (.num 8) (.num 110) (.num 1) (.num 3) =
        FiniteRecord.item ⟨8, 110, 1, 3, 100, 1⟩) := by
  refine ⟨?_, rfl, doubleZ_example, fun hsmall => demoItem_example env hexp hsmall⟩
  rw [predictPlacement_fallback_storage env cgpa iq projects (.num intern) remote hf w h hpage
    hs, demoItem_num env hexp]
  rfl

end ClaimsFormula

section ClaimsRangeExamples

/-- Counterexample to C8 as stated: on the backend path the stored probability is
`Math.round` of the double product, not of the exact product.  For the reply
`probability: 0.575`, `prediction: 1`, on a page that has every element,
`predictPlacement` ends on the backend path and stores the probability 57,
though 100 * 0.575 = 57.5 rounds to 58.  For a reply whose probability is the
double 658651445502935 * 2 ^ -50 (the nearest to 0.585), it stores 59, though
100 times that double lies below 58.5 and rounds to 58. -/
theorem backend_record_rounds_double_product :
    (predictPlacement ⟨fun x => roundDouble (Real.exp x), fun _ => none, noExponentForm⟩
        (.num 8) (.num 110) (.num 1) (.num 3)
        (.response true (.object (some 0.575) (some 1)))
        (World.initial (K := ℝ) none blankPage)).value = .ok .backend ∧
    (predictPlacement ⟨fun x => roundDouble (Real.exp x), fun _ => none, noExponentForm⟩
        (.num 8) (.num 110) (.num 1) (.num 3)
        (.response true (.object (some 0.575) (some 1)))
        (World.initial (K := ℝ) none blankPage)).world.storage =
      some (.json (.arr [FiniteRecord.stored ⟨8, 110, 1, 3, 57, 1⟩])) ∧
    mathRound (100 * (0.575 : ℝ)) = 58 ∧
    (predictPlacement ⟨fun x => roundDouble (Real.exp x), fun _ => none, noExponentForm⟩
        (.num 8) (.num 110) (.num 1) (.num 3)
        (.response true (.object (some (658651445502935 / 1125899906842624)) (some 1)))
        (World.initial (K := ℝ) none blankPage)).world.storage =
      some (.json (.arr [FiniteRecord.stored ⟨8, 110, 1, 3, 59, 1⟩])) ∧
    roundDouble (658651445502935 / 1125899906842624 : ℝ) =
      658651445502935 / 1125899906842624 ∧
    mathRound (100 * (658651445502935 / 1125899906842624 : ℝ)) = 58 := by
  obtain ⟨v1, s1⟩ := predictPlacement_backend_ok
    ⟨fun x => roundDouble (Real.exp x), fun _ => none, noExponentForm⟩ 8 110 3 (.num 1)
    (some 0.575) (some 1) (World.initial (K := ℝ) none blankPage) [] (fun _ _ => rfl)
    (fun _ => rfl) (Or.inr ⟨rfl, rfl⟩)
  obtain ⟨-, s2⟩ := predictPlacement_backend_ok
    ⟨fun x => roundDouble (Real.exp x), fun _ => none, noExponentForm⟩ 8 110 3 (.num 1)
    (some (658651445502935 / 1125899906842624)) (some 1)
    (World.initial (K := ℝ) none blankPage) [] (fun _ _ => rfl) (fun _ => rfl)
    (Or.inr ⟨rfl, rfl⟩)
  refine ⟨v1, ?_, ?_, ?_, ?_, ?_⟩
  · rw [s1]
    simp [backendItem, backendProbabilityPct_reply_575, Item.toJson, JSNum.toJson, ofInt?,
      FiniteRecord.stored]
  · unfold mathRound
    rw [Int.floor_eq_iff]
    constructor <;> norm_num
  · rw [s2]
    simp [backendItem, backendProbabilityPct_reply_double, Item.toJson, JSNum.toJson, ofInt?,
      FiniteRecord.stored]
  · exact roundDouble_of_isDouble _ (isDouble_of_eq _ 658651445502935 (-50) (by norm_num)
      (by norm_num) (by norm_num))
  · unfold mathRound
    rw [Int.floor_eq_iff]
    constructor <;> norm_num

end ClaimsRangeExamples

section ClaimsRange
variable {K : Type} [LinearOrderedField K] [FloorRing K]

/-- C8, amended.  For finite inputs and a `Math.exp` that is never negative, from
a stored history `h`.  On the fallback path (the request fails), on a page with
the status and result elements, the history becomes `h` followed by one record
with the inputs, an integer `probability` between 0 and 100 and a `cls` that is
0 or 1.  On the backend path: for a 2xx reply with `probability` `q` in [0, 1]
and `prediction` `k` in {0, 1}, on a page that also has the four KPI fields and
with chart constructors that do not throw, `predictPlacement` ends on the
backend path and the history becomes `h` followed by one record with the
inputs, `probability = ⌊fl(fl(q) * 100) + 1/2⌋` (`Math.round` of the double
product, `fl` the rounding to the nearest double), which lies between 0 and
100, and `cls = k`.  On any page and for any outcome of the chart constructors,
every record that `predictPlacement` adds has an integer `probability` between 0
and 100 and a `cls` that is 0 or 1, when the reply, if it is a 2xx JSON object,
has its `probability` in [0, 1] and its `prediction` in {0, 1}. -/
theorem appended_records_are_in_double_range (env : Env K) (hexp : ∀ x, 0 ≤ env.mathExp x)
    (c i n p : K) (w : World K) (h : List (HistoryRecord K)) (hs : HoldsHistory w.storage h) :
    (∀ remote : FetchOutcome K, remote.Fails →
      w.HasElements ["status", "result-card", "result-text"] →
      ∃ pct cls : ℤ,
        (predictPlacement env (.num c) (.num i) (.num n) (.num p) remote w).world.storage =
          some (.json (.arr (h ++ [FiniteRecord.stored ⟨c, i, n, p, (pct : K), (cls : K)⟩]))) ∧
        0 ≤ pct ∧ pct ≤ 100 ∧ (cls = 0 ∨ cls = 1)) ∧
    (∀ (q : K) (k : ℤ), 0 ≤ q → q ≤ 1 → (k = 0 ∨ k = 1) →
      w.HasElements ["status", "result-card", "result-text", "avgCgpa", "internPercent",
        "avgProjects", "placementRate"] →
      (∀ id, env.chartError id = none) →
      (predictPlacement env (.num c) (.num i) (.num n) (.num p)
          (.response true (.object (some q) (some k))) w).value = .ok .backend ∧
      (predictPlacement env (.num c) (.num i) (.num n) (.num p)
          (.response true (.object (some q) (some k))) w).world.storage =
        some (.json (.arr (h ++ [FiniteRecord.stored
          ⟨c, i, n, p, ((⌊roundDouble (roundDouble q * 100) + 1 / 2⌋ : ℤ) : K), (k : K)⟩]))) ∧
      0 ≤ ⌊roundDouble (roundDouble q * 100) + 1 / 2⌋ ∧
      ⌊roundDouble (roundDouble q * 100) + 1 / 2⌋ ≤ 100) ∧
    (∀ remote : FetchOutcome K,
      (∀ pr pd, remote = .response true (.object pr pd) →
        ∃ q k, pr = some q ∧ 0 ≤ q ∧ q ≤ 1 ∧ pd = some k ∧ (k = 0 ∨ k = 1)) →
      ∃ l, HoldsHistory
          (predictPlacement env (.num c) (.num i) (.num n) (.num p) remote w).world.storage
          (h ++ l) ∧
        ∀ x ∈ l, (∃ pct : ℤ, x.probability = .num (pct : K) ∧ 0 ≤ pct ∧ pct ≤ 100) ∧
          (x.cls = .num 0 ∨ x.cls = .num 1)) := by
  refine ⟨fun remote hf hpage => ?_, fun q k hq0 hq1 hk hpage hcharts => ?_,
    fun remote hresp => ?_⟩
  · obtain ⟨p0, p1⟩ := doubleProb_bounds env.mathExp hexp (doubleZ c i n p)
    refine ⟨⌊roundDouble (doubleProb env.mathExp (doubleZ c i n p) * 100) + 1 / 2⌋,
      if 1 / 2 ≤ doubleProb env.mathExp (doubleZ c i n p) then 1 else 0, ?_,
      (percentage_bounds _ p0 p1).1, (percentage_bounds _ p0 p1).2, ?_⟩
    · rw [predictPlacement_fallback_storage env c i p (.num n) remote hf w h hpage hs,
        demoItem_num env hexp]
      rfl
    · split <;> simp
  · obtain ⟨hv, hst⟩ := predictPlacement_backend_ok env c i p (.num n) (some q) (some k) w h
      hpage hcharts hs
    obtain ⟨r0, r1⟩ := roundDouble_mem_Icc q 0 1 isDouble_zero isDouble_one hq0 hq1
    refine ⟨hv, ?_, (percentage_bounds _ r0 r1).1, (percentage_bounds _ r0 r1).2⟩
    rw [hst]
    simp [backendItem, backendProbabilityPct, replyProbability, mathRound, Item.toJson,
      JSNum.toJson, ofInt?, FiniteRecord.stored]
  · obtain ⟨l, hl, hmem⟩ := predictPlacement_history_cases env (.num c) (.num i) (.num n) (.num p)
      remote w h hs
    refine ⟨l, hl, fun x hx => ?_⟩
    rcases hmem x hx with rfl | ⟨pr, pd, hr, rfl⟩
    · rw [demoItem_num env hexp]
      obtain ⟨p0, p1⟩ := doubleProb_bounds env.mathExp hexp (doubleZ c i n p)
      constructor
      · exact ⟨_, rfl, percentage_bounds _ p0 p1⟩
      · simp only [Item.toJson, JSNum.toJson]
        split <;> simp
    · obtain ⟨q, k, rfl, hq0, hq1, rfl, hk⟩ := hresp pr pd hr
      obtain ⟨r0, r1⟩ := roundDouble_mem_Icc q 0 1 isDouble_zero isDouble_one hq0 hq1
      constructor
      · exact ⟨backendProbabilityPct (some q), rfl, percentage_bounds _ r0 r1⟩
      · rcases hk with rfl | rfl <;> simp [backendItem, Item.toJson, JSNum.toJson, ofInt?]

end ClaimsRange

section ClaimsValidation
variable {K : Type} [LinearOrderedField K] [FloorRing K]

/-- C5.  `predictPlacement` ends at the validation step exactly when one of the
parsed `cgpa`, `iq`, `projects` is `NaN`; it then returns the world it was given
with the alert text added: no request is issued and the storage key is not
touched. -/
theorem predictPlacement_aborts_exactly_on_nan (env : Env K)
    (cgpa iq intern projects : JSNum K) (remote : FetchOutcome K) (w : World K) :
    ((predictPlacement env cgpa iq intern projects remote w).value = .ok .validationAbort ↔
      (cgpa = .nan ∨ iq = .nan ∨ projects = .nan)) ∧
    ((cgpa = .nan ∨ iq = .nan ∨ projects = .nan) →
      predictPlacement env cgpa iq intern projects remote w =
        ⟨{ w with alerts := w.alerts ++ ["Please enter CGPA, IQ and Projects correctly."] },
          .ok .validationAbort⟩ ∧
      (predictPlacement env cgpa iq intern projects remote w).world.requests = w.requests ∧
      (predictPlacement env cgpa iq intern projects remote w).world.storage = w.storage) := by
  have hnan : (cgpa.isNaN || iq.isNaN || projects.isNaN) = true ↔
      (cgpa = .nan ∨ iq = .nan ∨ projects = .nan) := by
    cases cgpa <;> cases iq <;> cases projects <;> simp [JSNum.isNaN]
  have habort : (cgpa = .nan ∨ iq = .nan ∨ projects = .nan) →
      predictPlacement env cgpa iq intern projects remote w =
        ⟨{ w with alerts := w.alerts ++ ["Please enter CGPA, IQ and Projects correctly."] },
          .ok .validationAbort⟩ := by
    intro hh
    unfold predictPlacement
    rw [if_pos (hnan.mpr hh)]
  refine ⟨⟨fun hv => ?_, fun hh => by rw [habort hh]⟩, fun hh => ⟨habort hh, ?_, ?_⟩⟩
  · by_contra hh
    have hfalse : ¬ (cgpa.isNaN || iq.isNaN || projects.isNaN) = true := fun hc => hh (hnan.mp hc)
    unfold predictPlacement at hv
    rw [if_neg hfalse] at hv
    obtain ⟨_, -, e1⟩ := andThen_ok_inv _ _ _ hv
    rw [e1] at hv
    obtain ⟨_, -, e2⟩ := andThen_ok_inv _ _ _ hv
    rw [e2] at hv
    simp only [] at hv
    split at hv
    · cases hv
    · cases hd : (demoPath env cgpa iq intern projects
          (backendPath env cgpa iq intern projects remote
            (setDisplay "result-card" "none"
              (setInnerText "status" "Predicting..." w).world).world).world).value with
      | error e' => rw [andThen_of_error _ _ e' hd] at hv; cases hv
      | ok a => rw [andThen_of_ok _ _ a hd] at hv; cases hv
  · rw [habort hh]
  · rw [habort hh]

/-- Witness of C5: `cgpa` is `NaN`, the other inputs are numbers. -/
theorem predictPlacement_aborts_exactly_on_nan_witness :
    (JSNum.nan = JSNum.nan (K := ℝ) ∨ JSNum.num (110 : ℝ) = .nan ∨ JSNum.num (3 : ℝ) = .nan) ∧
    predictPlacement ⟨fun x => roundDouble (Real.exp x), fun _ => none, noExponentForm⟩ .nan (.num 110) (.num 1) (.num 3) .networkError
        (World.initial (K := ℝ) none blankPage) =
      ⟨{ World.initial (K := ℝ) none blankPage with
          alerts := ["Please enter CGPA, IQ and Projects correctly."] },
        .ok .validationAbort⟩ :=
  ⟨Or.inl rfl, ((predictPlacement_aborts_exactly_on_nan ⟨fun x => roundDouble (Real.exp x), fun _ => none, noExponentForm⟩ .nan (.num 110)
    (.num 1) (.num 3) .networkError (World.initial (K := ℝ) none blankPage)).2 (Or.inl rfl)).1⟩

end ClaimsValidation

section ClaimsHomeChart
variable {K : Type} [LinearOrderedField K]

/-- C7 fails on the code.  On a page with the `homeChart` canvas, where the
`Chart` constructor succeeds, `initHomeChart` stores the chart in `homeChartObj`,
a variable of the script's own scope; with a stored history of `n > 0` records,
`updateHomeKPIsFromHistory` completes and leaves that chart as it was created,
with no label and an empty data array, instead of the labels 1..n and the
probabilities: it reads the chart from `window.homeChartObj`. -/
theorem updateHomeKPIsFromHistory_leaves_home_chart (env : Env K) (w : World K)
    (h : List (HistoryRecord K)) (hcanvas : (w.dom "homeChart").isSome = true)
    (hctor : env.chartError "homeChart" = none) (hs : w.storage = some (.json (.arr h)))
    (hne : h ≠ []) :
    (initHomeChart env w).world.homeChartObj = some ⟨"line", [], [[]], false⟩ ∧
    (updateHomeKPIsFromHistory (initHomeChart env w).world).world.homeChartObj =
      some ⟨"line", [], [[]], false⟩ ∧
    (∀ c, (updateHomeKPIsFromHistory (initHomeChart env w).world).world.homeChartObj = some c →
      c.labels ≠ (List.range h.length).map (fun i => Label.index (i + 1)) ∧
      c.datasets ≠ [h.map fun x => x.probability]) := by
  have hinit : (initHomeChart env w).world.homeChartObj = some ⟨"line", [], [[]], false⟩ := by
    unfold initHomeChart
    cases hc : w.dom "homeChart" with
    | none => simp [hc] at hcanvas
    | some el => simp [newChart, hctor]
  have hkeep : ∀ w' : World K,
      (updateHomeKPIsFromHistory w').world.homeChartObj = w'.homeChartObj := by
    intro w'
    unfold updateHomeKPIsFromHistory
    cases getHistory w' with
    | error e => simp
    | ok history =>
      simp only
      split
      · simp
      · split
        · simp
        · split
          · split <;> simp
          · simp
  refine ⟨hinit, by rw [hkeep, hinit], fun c hc => ?_⟩
  rw [hkeep, hinit] at hc
  cases hc
  cases h with
  | nil => exact absurd rfl hne
  | cons a l => simp [List.range_succ_eq_map]

end ClaimsHomeChart
/-! ## Worked inputs -/

section Witnesses

/-- Witness of C1, and its failing input: form values 8, 110, 1, 3, a 2xx reply
`{ probability: 0.9, prediction: 1 }`, no stored history, a page that has every
element, and a `Chart` constructor that throws a `ReferenceError`.  Two records
are in the history at the end, the backend one (90 %) and the demo one
(100 %). -/
theorem predictPlacement_appends_twice_when_refresh_raises_witness :
    (World.initial (K := ℝ) none blankPage).HasElements
      ["status", "result-card", "result-text"] ∧
    HoldsHistory (World.initial (K := ℝ) none blankPage).storage [] ∧
    (predictPlacement ⟨fun x => roundDouble (Real.exp x), fun _ => some .referenceError, noExponentForm⟩
        (.num 8) (.num 110) (.num 1) (.num 3) (.response true (.object (some 0.9) (some 1)))
        (World.initial (K := ℝ) none blankPage)).world.storage =
      some (.json (.arr [FiniteRecord.stored ⟨8, 110, 1, 3, 90, 1⟩,
        FiniteRecord.stored ⟨8, 110, 1, 3, 100, 1⟩])) := by
  refine ⟨fun _ _ => rfl, Or.inr ⟨rfl, rfl⟩, ?_⟩
  rw [(predictPlacement_appends_twice_when_refresh_raises
    ⟨fun x => roundDouble (Real.exp x), fun _ => some .referenceError, noExponentForm⟩
    8 110 3 (.num 1) (some 0.9) (some 1)
    (World.initial (K := ℝ) none blankPage) [] (fun _ _ => rfl) (Or.inr ⟨rfl, rfl⟩)
    .referenceError rfl).1, backendItem_example,
    demoItem_example _ (fun x => roundDouble_exp_nonneg x)
      (roundDouble_exp_small _ (by norm_num))]
  rfl

/-- Witness of C2 as amended: the inputs 8, 110, 1, 3 with a rejected request, on
a page that has every element and with no stored history, under the correctly
rounded exponential: the history holds the one record with probability 100 and
class 1. -/
theorem fallback_record_follows_double_formula_witness :
    (∀ x, 0 ≤ roundDouble (Real.exp x)) ∧
    FetchOutcome.Fails (FetchOutcome.networkError (K := ℝ)) ∧
    (predictPlacement ⟨fun x => roundDouble (Real.exp x), fun _ => none, noExponentForm⟩
        (.num 8) (.num 110) (.num 1) (.num 3)
        .networkError (World.initial (K := ℝ) none blankPage)).world.storage =
      some (.json (.arr [FiniteRecord.stored ⟨8, 110, 1, 3, 100, 1⟩])) ∧
    demoItem ⟨fun x => roundDouble (Real.exp x), fun _ => none, noExponentForm⟩
      (.num 8) (.num 110) (.num 1) (.num 3) = FiniteRecord.item ⟨8, 110, 1, 3, 100, 1⟩ := by
  have hsmall : roundDouble (Real.exp (-(1300414392403231 / 140737488355328))) ≤ 1 / 512 :=
    roundDouble_exp_small _ (by norm_num)
  obtain ⟨e1, -, e3, e4⟩ := fallback_record_follows_double_formula
    ⟨fun x => roundDouble (Real.exp x), fun _ => none, noExponentForm⟩
    (fun x => roundDouble_exp_nonneg x) 8 110 1 3 .networkError trivial
    (World.initial (K := ℝ) none blankPage) [] (fun _ _ => rfl) (Or.inr ⟨rfl, rfl⟩)
  obtain ⟨l, u⟩ := doubleProb_near_one (fun x => roundDouble (Real.exp x))
    (1300414392403231 / 140737488355328) (roundDouble_exp_nonneg _) hsmall
  have hp := percentage_hundred _ l u
  unfold doubleProb at l u hp
  simp only [] at l u hp e1
  rw [e3, hp, if_pos (by linarith)] at e1
  refine ⟨fun x => roundDouble_exp_nonneg x, trivial, ?_, e4 hsmall⟩
  rw [e1]
  simp

/-- Witness of C7, and its failing input: one stored record with probability
90, on a page that has the canvas. -/
theorem updateHomeKPIsFromHistory_leaves_home_chart_witness :
    (updateHomeKPIsFromHistory (initHomeChart ⟨fun x => roundDouble (Real.exp x), fun _ => none, noExponentForm⟩
      (World.initial (K := ℝ)
        (some (.json (.arr [FiniteRecord.stored ⟨8, 110, 1, 3, 90, 1⟩])))
        blankPage)).world).world.homeChartObj = some ⟨"line", [], [[]], false⟩ :=
  (updateHomeKPIsFromHistory_leaves_home_chart ⟨fun x => roundDouble (Real.exp x), fun _ => none, noExponentForm⟩
    (World.initial (K := ℝ) (some (.json (.arr [FiniteRecord.stored ⟨8, 110, 1, 3, 90, 1⟩])))
      blankPage)
    [FiniteRecord.stored ⟨8, 110, 1, 3, 90, 1⟩] rfl rfl rfl (by simp)).2.1

/-- Witness of C8 as amended: the inputs 8, 110, 1, 3 with no stored history, on a
page that has every element.  With the 2xx reply
`{ probability: 0.9, prediction: 1 }`, `predictPlacement` ends on the backend
path and the history holds the one record with probability 90 and class 1;
with a rejected request the history holds one record. -/
theorem appended_records_are_in_double_range_witness :
    (∀ x, 0 ≤ roundDouble (Real.exp x)) ∧
    HoldsHistory (World.initial (K := ℝ) none blankPage).storage [] ∧
    (predictPlacement ⟨fun x => roundDouble (Real.exp x), fun _ => none, noExponentForm⟩
        (.num 8) (.num 110) (.num 1) (.num 3) (.response true (.object (some 0.9) (some 1)))
        (World.initial (K := ℝ) none blankPage)).value = .ok .backend ∧
    (predictPlacement ⟨fun x => roundDouble (Real.exp x), fun _ => none, noExponentForm⟩
        (.num 8) (.num 110) (.num 1) (.num 3) (.response true (.object (some 0.9) (some 1)))
        (World.initial (K := ℝ) none blankPage)).world.storage =
      some (.json (.arr [FiniteRecord.stored ⟨8, 110, 1, 3, 90, 1⟩])) ∧
    ∃ pct cls : ℤ,
      (predictPlacement ⟨fun x => roundDouble (Real.exp x), fun _ => none, noExponentForm⟩
          (.num 8) (.num 110) (.num 1) (.num 3) .networkError
          (World.initial (K := ℝ) none blankPage)).world.storage =
        some (.json (.arr ([] ++ [FiniteRecord.stored ⟨8, 110, 1, 3, (pct : ℝ), (cls : ℝ)⟩]))) ∧
      0 ≤ pct ∧ pct ≤ 100 ∧ (cls = 0 ∨ cls = 1) := by
  obtain ⟨hA, hB, -⟩ := appended_records_are_in_double_range
    ⟨fun x => roundDouble (Real.exp x), fun _ => none, noExponentForm⟩
    (fun x => roundDouble_exp_nonneg x) 8 110 1 3 (World.initial (K := ℝ) none blankPage) []
    (Or.inr ⟨rfl, rfl⟩)
  obtain ⟨hv, hst, -, -⟩ := hB 0.9 1 (by norm_num) (by norm_num) (Or.inr rfl) (fun _ _ => rfl)
    (fun _ => rfl)
  have e : ⌊roundDouble (roundDouble (0.9 : ℝ) * 100) + 1 / 2⌋ = 90 :=
    backendProbabilityPct_reply_9
  rw [e] at hst
  refine ⟨fun x => roundDouble_exp_nonneg x, Or.inr ⟨rfl, rfl⟩, hv, ?_,
    hA .networkError trivial (fun _ _ => rfl)⟩
  rw [hst]
  simp

/-- Witness of C10: the inputs 8, 110, 1, 3 with a rejected request. -/
theorem fallback_class_agrees_with_percentage_witness :
    ∃ pct cls : ℤ,
      (predictPlacement ⟨fun x => roundDouble (Real.exp x), fun _ => none, noExponentForm⟩ (.num 8) (.num 110) (.num 1) (.num 3)
          .networkError (World.initial (K := ℝ) none blankPage)).world.storage =
        some (.json (.arr ([] ++ [FiniteRecord.stored ⟨8, 110, 1, 3, (pct : ℝ), (cls : ℝ)⟩]))) ∧
      (cls = 1 ∨ cls = 0) ∧ (cls = 1 → 50 ≤ pct) ∧ (cls = 0 → pct ≤ 50) :=
  fallback_class_agrees_with_percentage ⟨fun x => roundDouble (Real.exp x), fun _ => none, noExponentForm⟩
    (fun x => roundDouble_exp_nonneg x) 8 110 1 3 .networkError trivial
    (World.initial (K := ℝ) none blankPage) [] (fun _ _ => rfl) (Or.inr ⟨rfl, rfl⟩)

end Witnesses
end PlaceMate
